import Mathlib

/-!
wch-isp: a shallow embedding of `wch-isp.c`.

The C program talks to a WCH bootloader over two USB bulk endpoints.  The
embedding keeps the program's structure:

* bytes, `u16`, `u32` and `size_t` values are natural numbers, reduced with an
  explicit `%` wherever the C type truncates (`size_t` is taken to be 64 bits);
* the USB collaborator is a `Transport`: two functions of the transfer history;
* every function that performs I/O or may call `die` lives in the `Isp` monad,
  which threads the history of bulk transfers and stops at the first `die`;
* the `while` loops of `isp_flash` and `isp_verify` take a fuel argument.
-/

namespace WchIsp

/-! ## Constants (lines 34-75) -/

def MAX_PACKET_SIZE : Nat := 64
def SECTOR_SIZE : Nat := 1024

def BTVER_2_6 : Nat := 0x0206
def BTVER_2_7 : Nat := 0x0207

def CFG_MASK_RDPR_USER_DATA_WPR : Nat := 0x07
def CFG_MASK_BTVER : Nat := 0x08
def CFG_MASK_UID : Nat := 0x10
def CFG_MASK_ALL : Nat := 0x1f

def CMD_IDENTIFY : Nat := 0xa1
def CMD_ISP_END : Nat := 0xa2
def CMD_ISP_KEY : Nat := 0xa3
def CMD_ERASE : Nat := 0xa4
def CMD_PROGRAM : Nat := 0xa5
def CMD_VERIFY : Nat := 0xa6
def CMD_READ_CONFIG : Nat := 0xa7

/-- Number of values of a `size_t` (64-bit host). -/
def SIZE_T : Nat := 2 ^ 64

/-- The macro `ALIGN(x, a)`, line 30: `((x) + ((a) - 1)) & ~((a) - 1)`, every
operation carried out on `size_t` operands. -/
def ALIGN (x a : Nat) : Nat :=
  ((x + ((a + SIZE_T - 1) % SIZE_T)) % SIZE_T) &&& (SIZE_T - 1 - ((a + SIZE_T - 1) % SIZE_T))

/-! ## Data model -/

/-- The fields of `struct isp_dev` (lines 77-91) that the protocol engine uses;
the libusb handle is represented by the `Transport` passed to each function. -/
structure isp_dev where
  id : Nat
  type : Nat
  uid : List Nat
  uid_str : List Char
  btver : Nat
  xor_key : List Nat
  name : String
  flash_size : Nat
  eeprom_size : Nat
  flash_sector_size : Nat
  deriving DecidableEq, Repr

/-- One row of a `struct db_dev` array of `devices.h`, as used at lines 463-477. -/
structure db_dev where
  id : Nat
  name : String
  flash_size : Nat
  eeprom_size : Nat
  deriving DecidableEq, Repr

/-- One row of the `devices` table of `devices.h`, as used at lines 456-472.
`devs` lists the elements of the array `devs` points to, its terminating
element (the one with `id == 0`) included. -/
structure db where
  type : Nat
  flash_sector_size : Nat
  devs : List db_dev
  deriving DecidableEq, Repr

/-- The all-zero key block `isp_key` (line 96). -/
def isp_key : List Nat := List.replicate 30 0

/-! ## Transport and the `Isp` monad -/

/-- One call of `libusb_bulk_transfer`, as the program made it: the frame handed
over on the OUT endpoint, or the number of bytes asked for on the IN endpoint
together with what came back (`none` when the call returned an error). -/
inductive Xfer where
  | out (frame : List Nat)
  | inp (maxlen : Nat) (data : Option (List Nat))
  deriving DecidableEq, Repr

/-- The USB collaborator.  Both functions see the transfers made so far.
`bulk_out` answers `none` for a transfer error and `some got` otherwise;
`bulk_in` answers `none` for a transfer error and the received bytes otherwise. -/
structure Transport where
  bulk_out : List Xfer → List Nat → Option Nat
  bulk_in : List Xfer → Nat → Option (List Nat)

/-- The reasons for which the program calls `die`, one per call site. -/
inductive Err where
  | send_invalid_argument (len : Nat)
  | send_usb
  | recv_invalid_argument (len : Nat)
  | recv_usb
  | recv_not_enough_data
  | recv_wrong_command (got exp : Nat)
  | recv_cmd_error (status : Nat)
  | recv_length_mismatch (got hdrlen : Nat)
  | program_fail (addr r0 r1 : Nat)
  | verify_fail (addr r0 r1 : Nat)
  | conf_not_enough
  | conf_mismatch
  | key_wrong_reply (got exp : Nat)
  | file_error
  | file_too_big (flash_size : Nat)
  deriving DecidableEq, Repr

/-- Outcome of running a piece of the program from a given transfer history.
`die` is `exit(1)` through `die()`.  `undef` marks behaviour that the C source
leaves undefined (a read of a local buffer byte that was never written, a
division by zero).  `nofuel` is an artefact of the embedding: the loop budget
ran out. -/
inductive Res (α : Type) where
  | ok (a : α) (tr : List Xfer)
  | die (e : Err) (tr : List Xfer)
  | undef (tr : List Xfer)
  | nofuel (tr : List Xfer)
  deriving DecidableEq, Repr

/-- The transfer history at the point where the run stopped. -/
def Res.trace {α : Type} : Res α → List Xfer
  | .ok _ tr => tr
  | .die _ tr => tr
  | .undef tr => tr
  | .nofuel tr => tr

/-- A computation of the program: from the transfer history to an outcome. -/
def Isp (α : Type) : Type := List Xfer → Res α

def Isp.pure {α : Type} (a : α) : Isp α := fun tr => Res.ok a tr

def Isp.bind {α β : Type} (m : Isp α) (f : α → Isp β) : Isp β := fun tr =>
  match m tr with
  | .ok a tr1 => f a tr1
  | .die e tr1 => .die e tr1
  | .undef tr1 => .undef tr1
  | .nofuel tr1 => .nofuel tr1

instance : Monad Isp where
  pure := Isp.pure
  bind := Isp.bind

/-- The function `die` (lines 119-129): the process exits, nothing more is transferred. -/
def die {α : Type} (e : Err) : Isp α := fun tr => Res.die e tr

def undefined_behaviour {α : Type} : Isp α := fun tr => Res.undef tr

def out_of_fuel {α : Type} : Isp α := fun tr => Res.nofuel tr

/-- Read of byte `i` of a local buffer of which only the bytes in `written` were
ever written. -/
def read_local (written : List Nat) (i : Nat) : Isp Nat :=
  match written[i]? with
  | some b => Isp.pure b
  | none => undefined_behaviour

/-- The call `libusb_bulk_transfer(dev->usb_dev, ISP_EP_OUT, buf, n, &got, 10000)`. -/
def bulk_transfer_out (t : Transport) (buf : List Nat) : Isp (Option Nat) := fun tr =>
  Res.ok (t.bulk_out tr buf) (tr ++ [Xfer.out buf])

/-- The call `libusb_bulk_transfer(dev->usb_dev, ISP_EP_IN, buf, n, &got, 10000)`. -/
def bulk_transfer_in (t : Transport) (n : Nat) : Isp (Option (List Nat)) := fun tr =>
  Res.ok (t.bulk_in tr n) (tr ++ [Xfer.inp n (t.bulk_in tr n)])

/-- The frames handed to the OUT endpoint, oldest first. -/
def sent : List Xfer → List (List Nat)
  | [] => []
  | Xfer.out f :: tr => f :: sent tr
  | Xfer.inp _ _ :: tr => sent tr

/-! ## Command framer (lines 140-205) -/

/-- The first `len + 3` bytes of `buf` in `isp_send_cmd` (lines 149-156). -/
def send_buf (cmd len : Nat) (data : List Nat) : List Nat :=
  [cmd, (len >>> 0) &&& 0xff, (len >>> 8) &&& 0xff] ++ data.take len

/-- The function `isp_send_cmd` (lines 140-167).  `len` is a `u16` parameter. -/
def isp_send_cmd (t : Transport) (cmd len : Nat) (data : List Nat) : Isp Nat := do
  let len := len % 65536
  if len + 3 > 64 then
    die (Err.send_invalid_argument len)
  else
    let r ← bulk_transfer_out t (send_buf cmd len data)
    match r with
    | none => die Err.send_usb
    | some got => pure got

/-- The function `isp_recv_cmd` (lines 169-205).  The result is the returned
count `got` together with the bytes that `memcpy` copied to the caller. -/
def isp_recv_cmd (t : Transport) (cmd len : Nat) : Isp (Nat × List Nat) := do
  let len := len % 65536
  if len + 4 > 64 then
    die (Err.recv_invalid_argument len)
  else
    let r ← bulk_transfer_in t (len + 4)
    match r with
    | none => die Err.recv_usb
    | some buf =>
      if buf.length < 4 then
        die Err.recv_not_enough_data
      else if buf.getD 0 0 ≠ cmd then
        die (Err.recv_wrong_command (buf.getD 0 0) cmd)
      else if buf.getD 1 0 ≠ 0 then
        die (Err.recv_cmd_error (buf.getD 1 0))
      else
        let got := buf.length - 4
        let hdrlen := (buf.getD 2 0 ||| (buf.getD 3 0 <<< 8)) % 65536
        if hdrlen ≠ got then
          die (Err.recv_length_mismatch got hdrlen)
        else
          pure (got, (buf.drop 4).take (min len got))

/-! ## Commands (lines 207-344) -/

/-- The array `buf` of `cmd_identify` without its terminating nul byte (lines 210-214). -/
def identify_buf : List Nat :=
  [0, 0] ++ "MCU ISP & WCH.CN".toList.map Char.toNat

/-- The function `cmd_identify` (lines 207-223); the result is `(dev_id, dev_type)`. -/
def cmd_identify (t : Transport) : Isp (Nat × Nat) := do
  let _ ← isp_send_cmd t CMD_IDENTIFY identify_buf.length identify_buf
  let (_, ids) ← isp_recv_cmd t CMD_IDENTIFY 2
  let dev_id ← read_local ids 0
  let dev_type ← read_local ids 1
  pure (dev_id, dev_type)

/-- The function `cmd_isp_key` (lines 225-234); the result is `*sum`. -/
def cmd_isp_key (t : Transport) (len : Nat) (key : List Nat) : Isp Nat := do
  let _ ← isp_send_cmd t CMD_ISP_KEY len key
  let (_, rsp) ← isp_recv_cmd t CMD_ISP_KEY 2
  read_local rsp 0

/-- The function `cmd_isp_end` (lines 236-243). -/
def cmd_isp_end (t : Transport) (reason : Nat) : Isp Unit := do
  let _ ← isp_send_cmd t CMD_ISP_END 1 [reason % 256]
  let _ ← isp_recv_cmd t CMD_ISP_END 2
  pure ()

/-- The array `sec` of `cmd_erase` (lines 250-253). -/
def erase_sec (sectors : Nat) : List Nat :=
  [(sectors >>> 0) &&& 0xff, (sectors >>> 8) &&& 0xff,
   (sectors >>> 16) &&& 0xff, (sectors >>> 24) &&& 0xff]

/-- The function `cmd_erase` (lines 245-257).  `sectors` is a `u32` parameter. -/
def cmd_erase (t : Transport) (sectors : Nat) : Isp Unit := do
  let sectors := sectors % 2 ^ 32
  let _ ← isp_send_cmd t CMD_ERASE 4 (erase_sec sectors)
  let _ ← isp_recv_cmd t CMD_ERASE 2
  pure ()

/-- The first `len + 5` bytes of `unk` in `cmd_program` (lines 266-274) and in
`cmd_verify` (lines 292-300), whose text is the same: the address, the zero
byte, and `data[i] ^ key[i % 8]` stored as a byte for each `i < len`. -/
def chunk_unk (addr len : Nat) (data key : List Nat) : List Nat :=
  [(addr >>> 0) &&& 0xff, (addr >>> 8) &&& 0xff, (addr >>> 16) &&& 0xff,
   (addr >>> 24) &&& 0xff, 0]
  ++ (List.range len).map (fun i => (data.getD i 0 ^^^ key.getD (i % 8) 0) % 256)

/-- The function `cmd_program` (lines 259-283).  `addr` is a `uint32_t` parameter. -/
def cmd_program (t : Transport) (addr len : Nat) (data key : List Nat) : Isp Nat := do
  let addr := addr % 2 ^ 32
  let len := min (61 - 5) len
  let _ ← isp_send_cmd t CMD_PROGRAM (len + 5) (chunk_unk addr len data key)
  let (_, rsp) ← isp_recv_cmd t CMD_PROGRAM 2
  let r0 ← read_local rsp 0
  let r1 ← read_local rsp 1
  if r0 ≠ 0 ∨ r1 ≠ 0 then
    die (Err.program_fail addr r0 r1)
  else
    pure len

/-- The function `cmd_verify` (lines 285-309).  `addr` is a `uint32_t` parameter. -/
def cmd_verify (t : Transport) (addr len : Nat) (data key : List Nat) : Isp Nat := do
  let addr := addr % 2 ^ 32
  let len := min (61 - 5) len
  let _ ← isp_send_cmd t CMD_VERIFY (len + 5) (chunk_unk addr len data key)
  let (_, rsp) ← isp_recv_cmd t CMD_VERIFY 2
  let r0 ← read_local rsp 0
  let r1 ← read_local rsp 1
  if r0 ≠ 0 ∨ r1 ≠ 0 then
    die (Err.verify_fail addr r0 r1)
  else
    pure len

/-- The function `cmd_read_conf` (lines 311-333).  `cfgmask` is a `u16`
parameter; the result is the returned length together with the bytes copied
to `cfg`. -/
def cmd_read_conf (t : Transport) (cfgmask len : Nat) : Isp (Nat × List Nat) := do
  let cfgmask := cfgmask % 65536
  let req := [(cfgmask >>> 0) &&& 0xff, (cfgmask >>> 8) &&& 0xff]
  let _ ← isp_send_cmd t CMD_READ_CONFIG 2 req
  let (got, buf) ← isp_recv_cmd t CMD_READ_CONFIG 60
  if got < 2 then
    die Err.conf_not_enough
  else
    let b0 ← read_local buf 0
    let b1 ← read_local buf 1
    let mask := (b0 ||| (b1 <<< 8)) % 65536
    if cfgmask ≠ mask then
      die Err.conf_mismatch
    else
      let len := min (got - 2) len
      pure (len, (buf.drop 2).take len)

/-- The function `read_btver` (lines 335-344). -/
def read_btver (t : Transport) : Isp Nat := do
  let (_, buf) ← cmd_read_conf t CFG_MASK_BTVER 4
  let b1 ← read_local buf 1
  let b2 ← read_local buf 2
  pure (((b1 <<< 8) ||| b2) % 65536)

/-! ## Device database lookup (lines 432-479) -/

def db_flash_size (dev : isp_dev) : Nat := dev.flash_size

def db_flash_sector_size (dev : isp_dev) : Nat := dev.flash_sector_size

/-- The loop of lines 456-461: the first row of `devices` whose `type` equals
the device type. -/
def find_db (type : Nat) : List db → Option db
  | [] => none
  | d :: ds => if d.type = type then some d else find_db type ds

/-- The loop of lines 463-468 over the array `db->devs`: it stops at the first
element whose `id` is zero (the result is then `NULL`) or whose `id` is the
device id.  An array without terminating element has no counterpart in the C
program; the scan then answers `none` as well. -/
def find_db_dev (id : Nat) : List db_dev → Option db_dev
  | [] => none
  | d :: ds =>
    if d.id = 0 then none
    else if d.id = id then some d
    else find_db_dev id ds

/-- The function `isp_init_from_db` (lines 444-479); `devices` is the table of
`devices.h`. -/
def isp_init_from_db (devices : List db) (dev : isp_dev) : isp_dev :=
  let dev := { dev with
    flash_sector_size := SECTOR_SIZE, name := "unknown", flash_size := 0xffff, eeprom_size := 0 }
  let db := find_db dev.type devices
  let db_dev :=
    match db with
    | some d => find_db_dev dev.id d.devs
    | none => none
  let dev :=
    match db with
    | some d => { dev with flash_sector_size := d.flash_sector_size }
    | none => dev
  match db_dev with
  | some dd => { dev with name := dd.name, flash_size := dd.flash_size, eeprom_size := dd.eeprom_size }
  | none => dev

/-! ## Session set-up (lines 481-530) -/

def hex_digit (n : Nat) : Char := "0123456789abcdef".toList.getD n '0'

/-- The text that the format `"%.2x-"` produces for a byte. -/
def fmt_02x_dash (b : Nat) : List Char := [hex_digit (b / 16 % 16), hex_digit (b % 16), '-']

/-- The call `snprintf(buf + off, n, ...)` for the text `s`: at most `n - 1`
characters of `s` are stored from position `off` on, followed by a nul. -/
def snprintf_at (buf : List Char) (off n : Nat) (s : List Char) : List Char :=
  if n = 0 then buf
  else
    let w := s.take (n - 1) ++ [Char.ofNat 0]
    buf.take off ++ w ++ buf.drop (off + w.length)

/-- The loop of lines 496-499 over the 24 characters of `uid_str`. -/
def format_uid_str (uid : List Nat) (uid_str : List Char) : List Char :=
  (List.range 8).foldl (fun str i => snprintf_at str (3 * i) (24 - 3 * i) (fmt_02x_dash (uid.getD i 0)))
    uid_str

/-- The function `isp_init` (lines 481-500).  `dev` is the element of the
zero-filled `dev_list` being initialised. -/
def isp_init (t : Transport) (devices : List db) (dev : isp_dev) : Isp isp_dev := do
  let (id, type) ← cmd_identify t
  let dev := { dev with id := id, type := type }
  let dev := isp_init_from_db devices dev
  let btver ← read_btver t
  let dev := { dev with btver := btver }
  let (_, uid) ← cmd_read_conf t CFG_MASK_UID 8
  let dev := { dev with uid := uid ++ dev.uid.drop uid.length }
  pure { dev with uid_str := format_uid_str dev.uid dev.uid_str }

/-- The loops `for (sum = 0, i = 0; i < 8; i++) sum += a[i];` of lines 510-511
and 525-526, `sum` being a `u8`. -/
def sum_u8 (a : List Nat) : Nat :=
  (List.range 8).foldl (fun sum i => (sum + a.getD i 0) % 256) 0

/-- Lines 509-513 of `isp_key_init`: the value given to `dev->xor_key`. -/
def init_xor_key (dev : isp_dev) : List Nat :=
  let key := List.replicate 8 (sum_u8 dev.uid)
  key.set 7 ((key.getD 0 0 + dev.id) % 256)

/-- Lines 518-527 of `isp_key_init`: the value the reply is compared with. -/
def expected_key_reply (dev : isp_dev) : Nat :=
  if dev.btver ≥ BTVER_2_7 then 0 else sum_u8 dev.xor_key

/-- The function `isp_key_init` (lines 502-530). -/
def isp_key_init (t : Transport) (dev : isp_dev) : Isp isp_dev := do
  let dev := { dev with xor_key := init_xor_key dev }
  let rsp ← cmd_isp_key t 30 isp_key
  let sum := expected_key_reply dev
  if rsp ≠ sum then
    die (Err.key_wrong_reply rsp sum)
  else
    pure dev

/-! ## Flash programmer (lines 532-661) -/

/-- The function `progress_bar` (lines 532-546): line 538 divides by `total`
before anything else; the output itself is not modelled. -/
def progress_bar (_current total : Nat) : Isp Unit :=
  if total = 0 then undefined_behaviour else pure ()

/-- The loop of `isp_flash` (lines 559-565), from the state `(off, rem)`; the
result is the final `(off, rem)`. -/
def isp_flash_loop (t : Transport) (key data : List Nat) (size : Nat) :
    Nat → Nat → Nat → Isp (Nat × Nat)
  | 0, off, rem => if off < size then out_of_fuel else pure (off, rem)
  | fuel + 1, off, rem =>
    if off < size then do
      progress_bar off size
      let len ← cmd_program t off rem (data.drop off) key
      isp_flash_loop t key data size fuel (off + len) (rem - len)
    else
      pure (off, rem)

/-- Line 552 of `isp_flash`: `u32 nr_sectors = ALIGN(size, sector_size) / sector_size;`
for a nonzero `sector_size`. -/
def nr_sectors (size sector_size : Nat) : Nat :=
  (ALIGN size sector_size / sector_size) % 2 ^ 32

/-- The function `isp_flash` (lines 548-568). -/
def isp_flash (t : Transport) (fuel : Nat) (dev : isp_dev) (size : Nat) (data : List Nat) :
    Isp Unit := do
  let sector_size := db_flash_sector_size dev
  if sector_size = 0 then
    undefined_behaviour
  else
    cmd_erase t (nr_sectors size sector_size)
    let (off, _) ← isp_flash_loop t dev.xor_key data size fuel 0 size
    let _ ← cmd_program t off 0 [] dev.xor_key
    progress_bar size size

/-- The loop of `isp_verify` (lines 577-583). -/
def isp_verify_loop (t : Transport) (key data : List Nat) (size : Nat) :
    Nat → Nat → Nat → Isp (Nat × Nat)
  | 0, off, rem => if off < size then out_of_fuel else pure (off, rem)
  | fuel + 1, off, rem =>
    if off < size then do
      progress_bar off size
      let len ← cmd_verify t off rem (data.drop off) key
      isp_verify_loop t key data size fuel (off + len) (rem - len)
    else
      pure (off, rem)

/-- The function `isp_verify` (lines 570-585). -/
def isp_verify (t : Transport) (fuel : Nat) (dev : isp_dev) (size : Nat) (data : List Nat) :
    Isp Unit := do
  let _ ← isp_verify_loop t dev.xor_key data size fuel 0 size
  progress_bar size size

/-- The function `isp_fini` (lines 587-592). -/
def isp_fini (t : Transport) (do_reset : Bool) : Isp Unit :=
  if do_reset then cmd_isp_end t 1 else pure ()

/-- The function `file_read_all` (lines 594-629).  `file` is the content of the
named file, `none` when it cannot be opened or sought.  `fread(bin, len, 1, f)`
answers 1 only if it read one item of `len > 0` bytes.  The result is
`(size, bin)`: the length rounded up to 64 and the zero-padded content. -/
def file_read_all (file : Option (List Nat)) : Isp (Nat × List Nat) :=
  match file with
  | none => die Err.file_error
  | some content =>
    let len := content.length
    let size := ALIGN len 64
    if len = 0 then
      die Err.file_error
    else
      pure (size, content ++ List.replicate (size - len) 0)

/-- The function `write_flash` (lines 631-646); `do_verify` is the global flag. -/
def write_flash (t : Transport) (fuel : Nat) (do_verify : Bool) (dev : isp_dev)
    (file : Option (List Nat)) : Isp Unit := do
  let (size, bin) ← file_read_all file
  if size > db_flash_size dev then
    die (Err.file_too_big (db_flash_size dev))
  else
    isp_flash t fuel dev size bin
    if do_verify then
      isp_verify t fuel dev size bin
    else
      pure ()

/-- The function `verify_flash` (lines 648-661). -/
def verify_flash (t : Transport) (fuel : Nat) (dev : isp_dev) (file : Option (List Nat)) :
    Isp Unit := do
  let (size, bin) ← file_read_all file
  if size > db_flash_size dev then
    die (Err.file_too_big (db_flash_size dev))
  else
    isp_verify t fuel dev size bin

/-- Lines 831-842 of `main` for the verbs `flash` and `write` with a file
argument: the key handshake with the selected device, then `write_flash`. -/
def main_flash (t : Transport) (fuel : Nat) (do_verify : Bool) (dev : isp_dev)
    (file : Option (List Nat)) : Isp Unit := do
  let dev ← isp_key_init t dev
  write_flash t fuel do_verify dev file

/-! ## A device that acknowledges every frame -/

/-- A transport on which every OUT transfer succeeds and every IN transfer that
follows a frame answers that frame's command byte, status zero, and the two
payload bytes `00 00`. -/
def ack_device : Transport where
  bulk_out := fun _ frame => some frame.length
  bulk_in := fun tr _ =>
    match tr.getLast? with
    | some (Xfer.out (cmd :: _)) => some [cmd, 0, 2, 0, 0, 0]
    | _ => none

/-- The device acknowledges every frame with two zero status bytes: OUT
transfers succeed, and the IN transfer after a frame delivers the echoed
command, status zero, length two and the bytes `00 00`. -/
def acks_every_frame (t : Transport) : Prop :=
  (∀ tr frame, t.bulk_out tr frame ≠ none) ∧
  (∀ tr cmd rest n, t.bulk_in (tr ++ [Xfer.out (cmd :: rest)]) n = some [cmd, 0, 2, 0, 0, 0])

/-! ## Acknowledged chunks -/

/-- The frame that `cmd_program` (`cmd = CMD_PROGRAM`) or `cmd_verify`
(`cmd = CMD_VERIFY`) hands to `isp_send_cmd` when called with `addr`, `len`,
`data` and `key`. -/
def chunk_frame (cmd addr len : Nat) (data key : List Nat) : List Nat :=
  send_buf cmd (min 56 len + 5) (chunk_unk (addr % 2 ^ 32) (min 56 len) data key)

/-- The two transfers of such a call when the device acknowledges it. -/
def chunk_xfers (cmd addr len : Nat) (data key : List Nat) : List Xfer :=
  [Xfer.out (chunk_frame cmd addr len data key), Xfer.inp 6 (some [cmd, 0, 2, 0, 0, 0])]

/-! ## Reading frames back -/

/-- The address field of a program or verify frame: frame bytes 3..6, which are
`unk[0..3]` of `cmd_program` and `cmd_verify` behind the 3-byte header of
`isp_send_cmd`, least significant byte first. -/
def frame_addr (f : List Nat) : Nat :=
  f.getD 3 0 + 256 * f.getD 4 0 + 65536 * f.getD 5 0 + 16777216 * f.getD 6 0

/-- The data bytes of a program or verify frame: what follows the 3-byte header
of `isp_send_cmd` and the 5 bytes `unk[0..4]`, so that data byte `i` is payload
byte `5 + i`. -/
def frame_data (f : List Nat) : List Nat := f.drop 8

/-! ## The transfer history only grows -/

/-- The computation `m` only appends to the transfer history. -/
def Grows {α : Type} (m : Isp α) : Prop :=
  ∀ tr, ∃ suffix, (m tr).trace = tr ++ suffix

/-- The first thing `m` does from the history `tr` is to hand the frame `f` to
the OUT endpoint. -/
def FirstSends {α : Type} (m : Isp α) (tr : List Xfer) (f : List Nat) : Prop :=
  ∃ rest, (m tr).trace = tr ++ Xfer.out f :: rest

/-- The computation `m` hands no frame to the OUT endpoint. -/
def Quiet {α : Type} (m : Isp α) : Prop :=
  ∀ tr, sent (m tr).trace = sent tr

/-- Every value the computation `m` returns satisfies `P`. -/
def Returns {α : Type} (m : Isp α) (P : α → Prop) : Prop :=
  ∀ tr a tr1, m tr = Res.ok a tr1 → P a

/-- The computation `m` hands exactly the frame `f` to the OUT endpoint. -/
def SendsOne {α : Type} (m : Isp α) (f : List Nat) : Prop :=
  ∀ tr, sent (m tr).trace = sent tr ++ [f]

/-- The chunk frames of a pass over an image of `size` bytes, from the offset
`off` on: one call of `cmd_program` (`cmd = CMD_PROGRAM`) or `cmd_verify`
(`cmd = CMD_VERIFY`) every 56 bytes, each with the remaining length and the
image from its offset on. -/
def chunk_frames (cmd : Nat) (key data : List Nat) (size off : Nat) : List (List Nat) :=
  (List.range ((size - off + 55) / 56)).map (fun k =>
    chunk_frame cmd (off + 56 * k) (size - off - 56 * k) (data.drop (off + 56 * k)) key)

/-- Every reason for which the computation `m` dies satisfies `P`. -/
def DiesWith {α : Type} (m : Isp α) (P : Err → Prop) : Prop :=
  ∀ tr e tr1, m tr = Res.die e tr1 → P e

/-! ## Sample inputs -/

/-- The session of scenario A: `device_id = 0x69`, `device_type = 0x10`,
bootloader version 2.7 and a unique id whose bytes sum to `0x10`; the flash
size is the 1024 bytes of scenario D. -/
def scenario_dev : isp_dev where
  id := 0x69
  type := 0x10
  uid := [0x01, 0x02, 0x03, 0x04, 0x00, 0x00, 0x02, 0x04]
  uid_str := "01-02-03-04-00-00-02-04".toList ++ [Char.ofNat 0]
  btver := 0x0207
  xor_key := [0, 0, 0, 0, 0, 0, 0, 0]
  name := "unknown"
  flash_size := 1024
  eeprom_size := 0
  flash_sector_size := 1024

/-- The 130-byte image of scenario B. -/
def scenario_image : List Nat := List.range 130

/-- A row in the format of `devices.h`: a device type with sectors of 4096
bytes and two devices, its device array closed by the element with `id = 0`. -/
def sample_row : db where
  type := 0x10
  flash_sector_size := 4096
  devs := [{ id := 0x69, name := "CH569", flash_size := 448 * 1024, eeprom_size := 32 * 1024 },
           { id := 0x65, name := "CH565", flash_size := 448 * 1024, eeprom_size := 32 * 1024 },
           { id := 0, name := "", flash_size := 0, eeprom_size := 0 }]

/-- A table with that single row. -/
def sample_devices : List db := [sample_row]

/-- The device of scenario C: every OUT transfer succeeds, and every IN transfer
delivers a well-formed read-config reply that echoes the mask `0x08` in front
of the four bytes `00 02 07 00`. -/
def btver_device : Transport where
  bulk_out := fun _ frame => some frame.length
  bulk_in := fun _ _ => some [0xa7, 0, 6, 0, 0x08, 0x00, 0x00, 0x02, 0x07, 0x00]

/-- The device of scenario A: every OUT transfer succeeds; an identify frame is
answered with `device_id = 0x69`, `device_type = 0x10`, a read-config frame for
the mask `0x08` with the bootloader version 2.7, one for the mask `0x10` with
the unique id `01 02 03 04 00 00 02 04`, and any other frame with two zero bytes. -/
def ident_device : Transport where
  bulk_out := fun _ frame => some frame.length
  bulk_in := fun tr _ =>
    match tr.getLast? with
    | some (Xfer.out (0xa1 :: _)) => some [0xa1, 0, 2, 0, 0x69, 0x10]
    | some (Xfer.out (0xa7 :: _ :: _ :: 0x08 :: _)) =>
      some [0xa7, 0, 6, 0, 0x08, 0x00, 0x00, 0x02, 0x07, 0x00]
    | some (Xfer.out (0xa7 :: _ :: _ :: 0x10 :: _)) =>
      some [0xa7, 0, 10, 0, 0x10, 0x00, 0x01, 0x02, 0x03, 0x04, 0x00, 0x00, 0x02, 0x04]
    | some (Xfer.out (cmd :: _)) => some [cmd, 0, 2, 0, 0, 0]
    | _ => none

/-- A table in which two rows have the same device type: the sample row, and a
row that lists the device id `0x70`. -/
def duplicate_type_devices : List db :=
  [sample_row,
   { type := 0x10, flash_sector_size := 4096,
     devs := [{ id := 0x70, name := "CH570", flash_size := 240 * 1024, eeprom_size := 0 },
              { id := 0, name := "", flash_size := 0, eeprom_size := 0 }] }]

/-- An element of `dev_list` as `xcalloc` leaves it (line 362): every byte zero. -/
def zeroed_dev : isp_dev where
  id := 0
  type := 0
  uid := List.replicate 8 0
  uid_str := List.replicate 24 (Char.ofNat 0)
  btver := 0
  xor_key := List.replicate 8 0
  name := ""
  flash_size := 0
  eeprom_size := 0
  flash_sector_size := 0

/-- The session that `isp_init` builds from a zeroed element when it talks to
the device of scenario A with the sample table. -/
def scenario_session : isp_dev where
  id := 0x69
  type := 0x10
  uid := [0x01, 0x02, 0x03, 0x04, 0x00, 0x00, 0x02, 0x04]
  uid_str := "01-02-03-04-00-00-02-04".toList ++ [Char.ofNat 0]
  btver := 0x0207
  xor_key := List.replicate 8 0
  name := "CH569"
  flash_size := 448 * 1024
  eeprom_size := 32 * 1024
  flash_sector_size := 4096

/-- The transfers of that run of `isp_init`: identify, bootloader version,
unique id. -/
def scenario_init_trace : List Xfer :=
  [Xfer.out ([0xa1, 18, 0] ++ [0, 0] ++ "MCU ISP & WCH.CN".toList.map Char.toNat),
   Xfer.inp 6 (some [0xa1, 0, 2, 0, 0x69, 0x10]),
   Xfer.out [0xa7, 2, 0, 0x08, 0],
   Xfer.inp 64 (some [0xa7, 0, 6, 0, 0x08, 0x00, 0x00, 0x02, 0x07, 0x00]),
   Xfer.out [0xa7, 2, 0, 0x10, 0],
   Xfer.inp 64 (some [0xa7, 0, 10, 0, 0x10, 0x00, 0x01, 0x02, 0x03, 0x04, 0x00, 0x00, 0x02, 0x04])]

/-- A device that acknowledges every frame except the program frame for the
address 56, which it answers with the status bytes `01 00`. -/
def fail_at_56_device : Transport where
  bulk_out := fun _ frame => some frame.length
  bulk_in := fun tr _ =>
    match tr.getLast? with
    | some (Xfer.out (0xa5 :: _ :: _ :: 56 :: _)) => some [0xa5, 0, 2, 0, 1, 0]
    | some (Xfer.out (cmd :: _)) => some [cmd, 0, 2, 0, 0, 0]
    | _ => none

/-- The transfers of `isp_flash` for the 130-byte image of scenario B on that
device: erase, the chunk at 0, the chunk at 56 and its reply. -/
def failed_flash_trace : List Xfer :=
  [Xfer.out (send_buf CMD_ERASE 4 (erase_sec 1)),
   Xfer.inp 6 (some [0xa4, 0, 2, 0, 0, 0]),
   Xfer.out (chunk_frame CMD_PROGRAM 0 130 scenario_image scenario_dev.xor_key),
   Xfer.inp 6 (some [0xa5, 0, 2, 0, 0, 0]),
   Xfer.out (chunk_frame CMD_PROGRAM 56 74 (scenario_image.drop 56) scenario_dev.xor_key),
   Xfer.inp 6 (some [0xa5, 0, 2, 0, 1, 0])]

/-- A row of type `0x11` with sectors of 256 bytes whose device array lists the
id `0x52`. -/
def type_11_row : db where
  type := 0x11
  flash_sector_size := 256
  devs := [{ id := 0x52, name := "CH552", flash_size := 14 * 1024, eeprom_size := 128 },
           { id := 0, name := "", flash_size := 0, eeprom_size := 0 }]

/-- A table with two rows of different device types. -/
def two_type_devices : List db := [sample_row, type_11_row]

/-! ## Running the framer -/

theorem Isp.bind_eq {α β : Type} (m : Isp α) (f : α → Isp β) : (m >>= f) = Isp.bind m f := rfl

theorem Isp.pure_eq {α : Type} (a : α) : (pure a : Isp α) = Isp.pure a := rfl

theorem or_shl8 (a b : Nat) (ha : a < 256) : a ||| (b <<< 8) = a + 256 * b := by
  rw [Nat.shiftLeft_eq, Nat.mul_comm, Nat.add_comm, Nat.lor_comm]
  exact (Nat.mul_add_lt_is_or (i := 8) ha b).symm

theorem isp_recv_cmd_run (t : Transport) (cmd len : Nat) (tr : List Xfer) (hlen : len + 4 ≤ 64) :
    isp_recv_cmd t cmd len tr =
      match t.bulk_in tr (len + 4) with
      | none => Res.die Err.recv_usb (tr ++ [Xfer.inp (len + 4) none])
      | some buf =>
        if buf.length < 4 then Res.die Err.recv_not_enough_data (tr ++ [Xfer.inp (len + 4) (some buf)])
        else if buf.getD 0 0 ≠ cmd then
          Res.die (Err.recv_wrong_command (buf.getD 0 0) cmd) (tr ++ [Xfer.inp (len + 4) (some buf)])
        else if buf.getD 1 0 ≠ 0 then
          Res.die (Err.recv_cmd_error (buf.getD 1 0)) (tr ++ [Xfer.inp (len + 4) (some buf)])
        else if (buf.getD 2 0 ||| (buf.getD 3 0 <<< 8)) % 65536 ≠ buf.length - 4 then
          Res.die (Err.recv_length_mismatch (buf.length - 4)
            ((buf.getD 2 0 ||| (buf.getD 3 0 <<< 8)) % 65536)) (tr ++ [Xfer.inp (len + 4) (some buf)])
        else
          Res.ok (buf.length - 4, (buf.drop 4).take (min len (buf.length - 4)))
            (tr ++ [Xfer.inp (len + 4) (some buf)]) := by
  have h1 : len % 65536 = len := Nat.mod_eq_of_lt (by omega)
  have h2 : ¬ (len + 4 > 64) := by omega
  unfold isp_recv_cmd
  simp only [h1, h2, if_false, Isp.bind_eq, Isp.pure_eq, Isp.bind, bulk_transfer_in]
  cases h : t.bulk_in tr (len + 4) with
  | none => simp [die]
  | some buf =>
    simp only [die, Isp.pure]
    split_ifs <;> rfl

theorem and_ff (x : Nat) : x &&& 0xff = x % 256 :=
  Nat.and_pow_two_sub_one_eq_mod x 8

theorem shr_and_ff (x k : Nat) : (x >>> k) &&& 0xff = x / 2 ^ k % 256 := by
  rw [and_ff, Nat.shiftRight_eq_div_pow]

theorem isp_send_cmd_run (t : Transport) (cmd len : Nat) (data : List Nat) (tr : List Xfer)
    (hlen : len + 3 ≤ 64) :
    isp_send_cmd t cmd len data tr =
      match t.bulk_out tr (send_buf cmd len data) with
      | none => Res.die Err.send_usb (tr ++ [Xfer.out (send_buf cmd len data)])
      | some got => Res.ok got (tr ++ [Xfer.out (send_buf cmd len data)]) := by
  have h1 : len % 65536 = len := Nat.mod_eq_of_lt (by omega)
  have h2 : ¬ (len + 3 > 64) := by omega
  unfold isp_send_cmd
  simp only [h1, h2, if_false, Isp.bind_eq, Isp.pure_eq, Isp.bind, bulk_transfer_out]
  cases h : t.bulk_out tr (send_buf cmd len data) <;> rfl

theorem isp_send_cmd_trace (t : Transport) (cmd len : Nat) (data : List Nat) (tr : List Xfer)
    (hlen : len + 3 ≤ 64) :
    (isp_send_cmd t cmd len data tr).trace = tr ++ [Xfer.out (send_buf cmd len data)] := by
  rw [isp_send_cmd_run t cmd len data tr hlen]
  cases t.bulk_out tr (send_buf cmd len data) <;> rfl

/-- C6: for a command byte and a payload of `L ≤ 60` bytes, `isp_send_cmd` hands
exactly one frame to the transport; it has `L + 3` bytes, byte 0 is the command,
bytes 1 and 2 are `L mod 256` and `L div 256`, and the bytes from position 3 on
are the payload, unchanged. -/
theorem isp_send_cmd_frame_layout (t : Transport) (cmd : Nat) (payload : List Nat)
    (tr : List Xfer) (hL : payload.length ≤ 60) :
    ∃ f, (isp_send_cmd t cmd payload.length payload tr).trace = tr ++ [Xfer.out f] ∧
      f.length = payload.length + 3 ∧
      f.getD 0 0 = cmd ∧
      f.getD 1 0 = payload.length % 256 ∧
      f.getD 2 0 = payload.length / 256 ∧
      f.drop 3 = payload := by
  refine ⟨send_buf cmd payload.length payload,
    isp_send_cmd_trace t cmd payload.length payload tr (by omega), ?_, ?_, ?_, ?_, ?_⟩
  · simp [send_buf]
  · simp [send_buf]
  · simp only [send_buf, shr_and_ff]
    simp
  · simp only [send_buf, shr_and_ff]
    simp
    omega
  · simp [send_buf]

/-- Witness for C6: the 4-byte erase payload `[1, 0, 0, 0]` sent with `CMD_ERASE`. -/
theorem isp_send_cmd_frame_layout_witness :
    [1, 0, 0, 0].length ≤ 60 ∧
    ∃ f, (isp_send_cmd ack_device CMD_ERASE 4 [1, 0, 0, 0] []).trace = [] ++ [Xfer.out f] ∧
      f.length = 4 + 3 ∧ f.getD 0 0 = CMD_ERASE ∧ f.getD 1 0 = 4 % 256 ∧ f.getD 2 0 = 4 / 256 ∧
      f.drop 3 = [1, 0, 0, 0] :=
  ⟨by decide, isp_send_cmd_frame_layout ack_device CMD_ERASE [1, 0, 0, 0] [] (by decide)⟩

theorem getD_lt_256 (l : List Nat) (h : ∀ b ∈ l, b < 256) (i : Nat) : l.getD i 0 < 256 := by
  rw [List.getD_eq_getElem?_getD]
  cases hi : l[i]? with
  | none => simp
  | some b =>
    simp only [Option.getD_some]
    exact h b (List.getElem?_mem hi)

theorem hdrlen_eq (l : List Nat) (h : ∀ b ∈ l, b < 256) :
    (l.getD 2 0 ||| (l.getD 3 0 <<< 8)) % 65536 = l.getD 2 0 + 256 * l.getD 3 0 := by
  have h2 := getD_lt_256 l h 2
  have h3 := getD_lt_256 l h 3
  rw [or_shl8 _ _ h2]
  omega

/-- C5: when the IN transfer succeeds and delivers the bytes `rx` (for a
requested length with `len + 4 ≤ 64`), `isp_recv_cmd` dies if fewer than 4
bytes arrived, if byte 0 is not the expected command, if byte 1 is nonzero, or
if the little-endian length in bytes 2..3 is not the number of bytes received
after the 4-byte header; and it returns exactly when none of the four holds. -/
theorem isp_recv_cmd_rejects_iff (t : Transport) (cmd len : Nat) (tr : List Xfer)
    (rx : List Nat) (hlen : len + 4 ≤ 64) (hrx : t.bulk_in tr (len + 4) = some rx)
    (hbytes : ∀ b ∈ rx, b < 256) :
    ((rx.length < 4 ∨ rx.getD 0 0 ≠ cmd ∨ rx.getD 1 0 ≠ 0 ∨
        rx.getD 2 0 + 256 * rx.getD 3 0 ≠ rx.length - 4) →
      ∃ e, isp_recv_cmd t cmd len tr = Res.die e (tr ++ [Xfer.inp (len + 4) (some rx)])) ∧
    ((∃ r tr1, isp_recv_cmd t cmd len tr = Res.ok r tr1) ↔
      ¬ (rx.length < 4 ∨ rx.getD 0 0 ≠ cmd ∨ rx.getD 1 0 ≠ 0 ∨
        rx.getD 2 0 + 256 * rx.getD 3 0 ≠ rx.length - 4)) := by
  rw [isp_recv_cmd_run t cmd len tr hlen, hrx]
  simp only [hdrlen_eq rx hbytes]
  constructor
  · intro h
    split_ifs with h1 h2 h3 h4
    · exact ⟨_, rfl⟩
    · exact ⟨_, rfl⟩
    · exact ⟨_, rfl⟩
    · exact ⟨_, rfl⟩
    · exfalso
      rcases h with h | h | h | h
      · exact h1 h
      · exact h2 h
      · exact h3 h
      · exact h4 h
  · split_ifs with h1 h2 h3 h4
    · exact ⟨fun ⟨_, _, h⟩ => h.elim, fun h => absurd (Or.inl h1) h⟩
    · exact ⟨fun ⟨_, _, h⟩ => h.elim, fun h => absurd (Or.inr (Or.inl h2)) h⟩
    · exact ⟨fun ⟨_, _, h⟩ => h.elim, fun h => absurd (Or.inr (Or.inr (Or.inl h3))) h⟩
    · exact ⟨fun ⟨_, _, h⟩ => h.elim,
        fun h => absurd (Or.inr (Or.inr (Or.inr h4))) h⟩
    · refine ⟨fun _ h => ?_, fun _ => ⟨_, _, rfl⟩⟩
      rcases h with h | h | h | h
      · exact h1 h
      · exact h2 h
      · exact h3 h
      · exact h4 h

/-- Witness for C5: the acknowledging device answers an erase frame with
`a4 00 02 00 00 00`. -/
theorem isp_recv_cmd_rejects_iff_witness :
    (2 + 4 ≤ 64 ∧
      ack_device.bulk_in [Xfer.out [0xa4, 4, 0, 1, 0, 0, 0]] (2 + 4) = some [0xa4, 0, 2, 0, 0, 0] ∧
      ∀ b ∈ [0xa4, 0, 2, 0, 0, 0], b < 256) ∧
    (∃ r tr1, isp_recv_cmd ack_device 0xa4 2 [Xfer.out [0xa4, 4, 0, 1, 0, 0, 0]] = Res.ok r tr1) :=
  ⟨⟨by decide, rfl, by decide⟩,
   ((isp_recv_cmd_rejects_iff ack_device 0xa4 2 [Xfer.out [0xa4, 4, 0, 1, 0, 0, 0]]
      [0xa4, 0, 2, 0, 0, 0] (by decide) rfl (by decide)).2).mpr (by decide)⟩

/-! ## Key derivation and handshake -/

theorem range_eight : List.range 8 = [0, 1, 2, 3, 4, 5, 6, 7] := by decide

theorem length_eight (l : List Nat) (h : l.length = 8) :
    ∃ a0 a1 a2 a3 a4 a5 a6 a7, l = [a0, a1, a2, a3, a4, a5, a6, a7] := by
  match l, h with
  | [a0, a1, a2, a3, a4, a5, a6, a7], _ => exact ⟨a0, a1, a2, a3, a4, a5, a6, a7, rfl⟩

theorem sum_u8_eq (l : List Nat) (h : l.length = 8) : sum_u8 l = l.sum % 256 := by
  obtain ⟨a0, a1, a2, a3, a4, a5, a6, a7, rfl⟩ := length_eight l h
  simp only [sum_u8, range_eight, List.foldl, List.getD_cons_zero, List.getD_cons_succ,
    List.sum_cons, List.sum_nil]
  omega

theorem init_xor_key_eq (dev : isp_dev) :
    init_xor_key dev =
      [sum_u8 dev.uid, sum_u8 dev.uid, sum_u8 dev.uid, sum_u8 dev.uid, sum_u8 dev.uid,
       sum_u8 dev.uid, sum_u8 dev.uid, (sum_u8 dev.uid + dev.id) % 256] := by
  simp [init_xor_key, List.replicate]

theorem isp_key_init_ok_key (t : Transport) (dev dev1 : isp_dev) (tr tr1 : List Xfer)
    (h : isp_key_init t dev tr = Res.ok dev1 tr1) :
    dev1 = { dev with xor_key := init_xor_key dev } := by
  unfold isp_key_init at h
  simp only [Isp.bind_eq, Isp.pure_eq, Isp.bind] at h
  cases hk : cmd_isp_key t 30 isp_key tr with
  | ok rsp tr2 =>
    rw [hk] at h
    dsimp only at h
    split_ifs at h
    · exact Res.noConfusion h
    · exact (Res.ok.inj h).1.symm
  | die e tr2 => rw [hk] at h; exact Res.noConfusion h
  | undef tr2 => rw [hk] at h; exact Res.noConfusion h
  | nofuel tr2 => rw [hk] at h; exact Res.noConfusion h

/-- C3: for an 8-byte unique id and a device id `d`, with `c` the sum of the
unique-id bytes mod 256, the key that `isp_key_init` computes is `c` at the
positions 0..6 and `(c + d) mod 256` at position 7; every successful run of
`isp_key_init` leaves exactly this key in the session. -/
theorem isp_key_init_key_derivation (dev : isp_dev) (huid : dev.uid.length = 8) :
    init_xor_key dev =
      [dev.uid.sum % 256, dev.uid.sum % 256, dev.uid.sum % 256, dev.uid.sum % 256,
       dev.uid.sum % 256, dev.uid.sum % 256, dev.uid.sum % 256,
       (dev.uid.sum % 256 + dev.id) % 256] ∧
    ∀ (t : Transport) (tr tr1 : List Xfer) (dev1 : isp_dev),
      isp_key_init t dev tr = Res.ok dev1 tr1 →
        dev1.xor_key =
          [dev.uid.sum % 256, dev.uid.sum % 256, dev.uid.sum % 256, dev.uid.sum % 256,
           dev.uid.sum % 256, dev.uid.sum % 256, dev.uid.sum % 256,
           (dev.uid.sum % 256 + dev.id) % 256] := by
  have hk := init_xor_key_eq dev
  rw [sum_u8_eq dev.uid huid] at hk
  refine ⟨hk, fun t tr tr1 dev1 h => ?_⟩
  rw [isp_key_init_ok_key t dev dev1 tr tr1 h]
  exact hk

theorem sent_append (a b : List Xfer) : sent (a ++ b) = sent a ++ sent b := by
  induction a with
  | nil => rfl
  | cons x a ih =>
    cases x with
    | out f => simp [sent, ih]
    | inp n d => simp [sent, ih]

theorem Isp.bind_ok {α β : Type} {m : Isp α} {f : α → Isp β} {tr tr1 : List Xfer} {a : α}
    (h : m tr = Res.ok a tr1) : (m >>= f) tr = f a tr1 := by
  show Isp.bind m f tr = f a tr1
  unfold Isp.bind
  rw [h]

theorem Isp.bind_die {α β : Type} {m : Isp α} {f : α → Isp β} {tr tr1 : List Xfer} {e : Err}
    (h : m tr = Res.die e tr1) : (m >>= f) tr = Res.die e tr1 := by
  show Isp.bind m f tr = Res.die e tr1
  unfold Isp.bind
  rw [h]

/-- A well-formed reply to command `cmd` whose payload is `p`. -/
theorem isp_recv_cmd_ok (t : Transport) (cmd len : Nat) (tr : List Xfer) (lo hi : Nat)
    (p : List Nat) (hlen : len + 4 ≤ 64) (hlo : lo < 256) (hhi : hi < 256)
    (hp : lo + 256 * hi = p.length)
    (hrx : t.bulk_in tr (len + 4) = some (cmd :: 0 :: lo :: hi :: p)) :
    isp_recv_cmd t cmd len tr =
      Res.ok (p.length, p.take (min len p.length))
        (tr ++ [Xfer.inp (len + 4) (some (cmd :: 0 :: lo :: hi :: p))]) := by
  rw [isp_recv_cmd_run t cmd len tr hlen, hrx]
  have h : (lo ||| (hi <<< 8)) % 65536 = p.length := by
    rw [or_shl8 _ _ hlo]
    omega
  simp [h]

theorem cmd_isp_key_ok (t : Transport) (tr : List Xfer) (g lo hi r : Nat) (rest : List Nat)
    (hout : t.bulk_out tr (send_buf CMD_ISP_KEY 30 isp_key) = some g)
    (hlo : lo < 256) (hhi : hi < 256) (hp : lo + 256 * hi = rest.length + 1)
    (hin : t.bulk_in (tr ++ [Xfer.out (send_buf CMD_ISP_KEY 30 isp_key)]) 6 =
      some (CMD_ISP_KEY :: 0 :: lo :: hi :: r :: rest)) :
    cmd_isp_key t 30 isp_key tr =
      Res.ok r (tr ++ [Xfer.out (send_buf CMD_ISP_KEY 30 isp_key),
        Xfer.inp 6 (some (CMD_ISP_KEY :: 0 :: lo :: hi :: r :: rest))]) := by
  have hs : isp_send_cmd t CMD_ISP_KEY 30 isp_key tr =
      Res.ok g (tr ++ [Xfer.out (send_buf CMD_ISP_KEY 30 isp_key)]) := by
    rw [isp_send_cmd_run t CMD_ISP_KEY 30 isp_key tr (by decide), hout]
  have hr := isp_recv_cmd_ok t CMD_ISP_KEY 2 _ lo hi (r :: rest) (by decide) hlo hhi
    (by simpa using hp) hin
  unfold cmd_isp_key
  rw [Isp.bind_ok hs, Isp.bind_ok hr]
  simp [read_local, Isp.pure]

/-- Witness for C3: the unique id of scenario A sums to `0x10`, the device id is `0x69`. -/
theorem isp_key_init_key_derivation_witness :
    scenario_dev.uid.length = 8 ∧
    init_xor_key scenario_dev = [0x10, 0x10, 0x10, 0x10, 0x10, 0x10, 0x10, 0x79] :=
  ⟨rfl, (isp_key_init_key_derivation scenario_dev rfl).1⟩

theorem init_xor_key_length (dev : isp_dev) : (init_xor_key dev).length = 8 := by
  rw [init_xor_key_eq]
  rfl

theorem isp_key_init_run (t : Transport) (dev : isp_dev) (tr tr1 : List Xfer) (r : Nat)
    (h : cmd_isp_key t 30 isp_key tr = Res.ok r tr1) :
    isp_key_init t dev tr =
      if r ≠ expected_key_reply { dev with xor_key := init_xor_key dev } then
        Res.die (Err.key_wrong_reply r
          (expected_key_reply { dev with xor_key := init_xor_key dev })) tr1
      else
        Res.ok { dev with xor_key := init_xor_key dev } tr1 := by
  unfold isp_key_init
  rw [Isp.bind_ok h]
  split_ifs <;> rfl

/-- C4: when the key frame goes out and the device answers it with a well-formed
reply whose first payload byte is `r`, the value `isp_key_init` compares `r`
with is 0 for `btver ≥ 0x0207` and the sum of the 8 key bytes mod 256 for
`btver < 0x0207`; `isp_key_init` returns if and only if `r` is that value;
otherwise it dies, and so does the `flash` verb of `main`, at a point where the
key frame is the only frame sent. -/
theorem isp_key_init_expected_reply (t : Transport) (dev : isp_dev) (tr : List Xfer)
    (g lo hi r : Nat) (rest : List Nat)
    (hout : t.bulk_out tr (send_buf CMD_ISP_KEY 30 isp_key) = some g)
    (hlo : lo < 256) (hhi : hi < 256) (hp : lo + 256 * hi = rest.length + 1)
    (hin : t.bulk_in (tr ++ [Xfer.out (send_buf CMD_ISP_KEY 30 isp_key)]) 6 =
      some (CMD_ISP_KEY :: 0 :: lo :: hi :: r :: rest)) :
    (expected_key_reply { dev with xor_key := init_xor_key dev } =
      if dev.btver ≥ 0x0207 then 0 else (init_xor_key dev).sum % 256) ∧
    ((∃ dev1 tr1, isp_key_init t dev tr = Res.ok dev1 tr1) ↔
      r = expected_key_reply { dev with xor_key := init_xor_key dev }) ∧
    (r ≠ expected_key_reply { dev with xor_key := init_xor_key dev } →
      isp_key_init t dev tr =
        Res.die (Err.key_wrong_reply r
            (expected_key_reply { dev with xor_key := init_xor_key dev }))
          (tr ++ [Xfer.out (send_buf CMD_ISP_KEY 30 isp_key),
            Xfer.inp 6 (some (CMD_ISP_KEY :: 0 :: lo :: hi :: r :: rest))]) ∧
      ∀ fuel do_verify file,
        main_flash t fuel do_verify dev file tr =
          Res.die (Err.key_wrong_reply r
              (expected_key_reply { dev with xor_key := init_xor_key dev }))
            (tr ++ [Xfer.out (send_buf CMD_ISP_KEY 30 isp_key),
              Xfer.inp 6 (some (CMD_ISP_KEY :: 0 :: lo :: hi :: r :: rest))])) ∧
    sent (tr ++ [Xfer.out (send_buf CMD_ISP_KEY 30 isp_key),
        Xfer.inp 6 (some (CMD_ISP_KEY :: 0 :: lo :: hi :: r :: rest))]) =
      sent tr ++ [send_buf CMD_ISP_KEY 30 isp_key] := by
  have hk := cmd_isp_key_ok t tr g lo hi r rest hout hlo hhi hp hin
  have hrun := isp_key_init_run t dev tr _ r hk
  refine ⟨?_, ?_, ?_, ?_⟩
  · unfold expected_key_reply
    simp only [BTVER_2_7]
    rw [sum_u8_eq _ (init_xor_key_length dev)]
  · rw [hrun]
    split_ifs with h
    · exact ⟨fun ⟨_, _, h1⟩ => h1.elim, fun h1 => absurd h1 h⟩
    · exact ⟨fun _ => not_not.mp h, fun _ => ⟨_, _, rfl⟩⟩
  · intro h
    rw [if_pos h] at hrun
    refine ⟨hrun, fun fuel do_verify file => ?_⟩
    unfold main_flash
    exact Isp.bind_die hrun
  · rw [sent_append]
    rfl

/-- Witness for C4: scenario A on the acknowledging device: bootloader 2.7, the
reply byte is 0, the handshake succeeds. -/
theorem isp_key_init_expected_reply_witness :
    (ack_device.bulk_out [] (send_buf CMD_ISP_KEY 30 isp_key) = some 33 ∧
      2 < 256 ∧ 0 < 256 ∧ 2 + 256 * 0 = [0].length + 1 ∧
      ack_device.bulk_in ([] ++ [Xfer.out (send_buf CMD_ISP_KEY 30 isp_key)]) 6 =
        some (CMD_ISP_KEY :: 0 :: 2 :: 0 :: 0 :: [0])) ∧
    expected_key_reply { scenario_dev with xor_key := init_xor_key scenario_dev } = 0 ∧
    ∃ dev1 tr1, isp_key_init ack_device scenario_dev [] = Res.ok dev1 tr1 :=
  ⟨⟨rfl, by decide, by decide, rfl, rfl⟩, rfl,
   ((isp_key_init_expected_reply ack_device scenario_dev [] 33 2 0 0 [0] rfl (by decide)
      (by decide) rfl rfl).2.1).mpr rfl⟩

/-! ## Runs against a device that acknowledges every frame -/

theorem ack_device_acks : acks_every_frame ack_device := by
  refine ⟨fun tr frame h => Option.noConfusion h, fun tr cmd rest n => ?_⟩
  simp [ack_device]

theorem isp_send_cmd_ack (t : Transport) (hack : acks_every_frame t) (cmd len : Nat)
    (data : List Nat) (tr : List Xfer) (hlen : len + 3 ≤ 64) :
    ∃ g, isp_send_cmd t cmd len data tr = Res.ok g (tr ++ [Xfer.out (send_buf cmd len data)]) := by
  rw [isp_send_cmd_run t cmd len data tr hlen]
  cases h : t.bulk_out tr (send_buf cmd len data) with
  | none => exact absurd h (hack.1 tr _)
  | some g => exact ⟨g, rfl⟩

theorem isp_recv_cmd_ack (t : Transport) (hack : acks_every_frame t) (cmd len : Nat)
    (data : List Nat) (tr : List Xfer) :
    isp_recv_cmd t cmd 2 (tr ++ [Xfer.out (send_buf cmd len data)]) =
      Res.ok (2, [0, 0]) (tr ++ [Xfer.out (send_buf cmd len data),
        Xfer.inp 6 (some [cmd, 0, 2, 0, 0, 0])]) := by
  have hin : t.bulk_in (tr ++ [Xfer.out (send_buf cmd len data)]) (2 + 4) =
      some (cmd :: 0 :: 2 :: 0 :: [0, 0]) := hack.2 tr cmd _ _
  rw [isp_recv_cmd_ok t cmd 2 _ 2 0 [0, 0] (by decide) (by decide) (by decide) rfl hin]
  simp

/-- The two transfers of an acknowledged command. -/
theorem cmd_erase_ack (t : Transport) (hack : acks_every_frame t) (sectors : Nat)
    (tr : List Xfer) :
    cmd_erase t sectors tr =
      Res.ok () (tr ++ [Xfer.out (send_buf CMD_ERASE 4 (erase_sec (sectors % 2 ^ 32))),
        Xfer.inp 6 (some [CMD_ERASE, 0, 2, 0, 0, 0])]) := by
  obtain ⟨g, hs⟩ := isp_send_cmd_ack t hack CMD_ERASE 4 (erase_sec (sectors % 2 ^ 32)) tr
    (by decide)
  have hr := isp_recv_cmd_ack t hack CMD_ERASE 4 (erase_sec (sectors % 2 ^ 32)) tr
  unfold cmd_erase
  rw [Isp.bind_ok hs, Isp.bind_ok hr]
  rfl

theorem cmd_program_ack (t : Transport) (hack : acks_every_frame t) (addr len : Nat)
    (data key : List Nat) (tr : List Xfer) :
    cmd_program t addr len data key tr =
      Res.ok (min 56 len)
        (tr ++ [Xfer.out (send_buf CMD_PROGRAM (min 56 len + 5)
            (chunk_unk (addr % 2 ^ 32) (min 56 len) data key)),
          Xfer.inp 6 (some [CMD_PROGRAM, 0, 2, 0, 0, 0])]) := by
  obtain ⟨g, hs⟩ := isp_send_cmd_ack t hack CMD_PROGRAM (min 56 len + 5)
    (chunk_unk (addr % 2 ^ 32) (min 56 len) data key) tr (by omega)
  have hr := isp_recv_cmd_ack t hack CMD_PROGRAM (min 56 len + 5)
    (chunk_unk (addr % 2 ^ 32) (min 56 len) data key) tr
  unfold cmd_program
  rw [Isp.bind_ok hs, Isp.bind_ok hr]
  simp only [read_local, Isp.pure, Isp.bind_eq, Isp.bind, Isp.pure_eq]
  simp
  rfl

theorem cmd_verify_ack (t : Transport) (hack : acks_every_frame t) (addr len : Nat)
    (data key : List Nat) (tr : List Xfer) :
    cmd_verify t addr len data key tr =
      Res.ok (min 56 len)
        (tr ++ [Xfer.out (send_buf CMD_VERIFY (min 56 len + 5)
            (chunk_unk (addr % 2 ^ 32) (min 56 len) data key)),
          Xfer.inp 6 (some [CMD_VERIFY, 0, 2, 0, 0, 0])]) := by
  obtain ⟨g, hs⟩ := isp_send_cmd_ack t hack CMD_VERIFY (min 56 len + 5)
    (chunk_unk (addr % 2 ^ 32) (min 56 len) data key) tr (by omega)
  have hr := isp_recv_cmd_ack t hack CMD_VERIFY (min 56 len + 5)
    (chunk_unk (addr % 2 ^ 32) (min 56 len) data key) tr
  unfold cmd_verify
  rw [Isp.bind_ok hs, Isp.bind_ok hr]
  simp only [read_local, Isp.pure, Isp.bind_eq, Isp.bind, Isp.pure_eq]
  simp
  rfl

theorem cmd_program_ack_xfers (t : Transport) (hack : acks_every_frame t) (addr len : Nat)
    (data key : List Nat) (tr : List Xfer) :
    cmd_program t addr len data key tr =
      Res.ok (min 56 len) (tr ++ chunk_xfers CMD_PROGRAM addr len data key) :=
  cmd_program_ack t hack addr len data key tr

theorem cmd_verify_ack_xfers (t : Transport) (hack : acks_every_frame t) (addr len : Nat)
    (data key : List Nat) (tr : List Xfer) :
    cmd_verify t addr len data key tr =
      Res.ok (min 56 len) (tr ++ chunk_xfers CMD_VERIFY addr len data key) :=
  cmd_verify_ack t hack addr len data key tr

theorem progress_bar_pos (current total : Nat) (tr : List Xfer) (h : total ≠ 0) :
    progress_bar current total tr = Res.ok () tr := by
  unfold progress_bar
  rw [if_neg h]
  rfl

theorem chunk_xfers_shift (cmd : Nat) (data key : List Nat) (size off : Nat) :
    (fun k => chunk_xfers cmd (off + 56 * (k + 1)) (size - off - 56 * (k + 1))
        (data.drop (off + 56 * (k + 1))) key) =
    (fun k => chunk_xfers cmd (off + 56 + 56 * k) (size - (off + 56) - 56 * k)
        (data.drop (off + 56 + 56 * k)) key) := by
  funext k
  have h1 : off + 56 * (k + 1) = off + 56 + 56 * k := by omega
  have h2 : size - off - 56 * (k + 1) = size - (off + 56) - 56 * k := by omega
  rw [h1, h2]

theorem isp_flash_loop_ack (t : Transport) (hack : acks_every_frame t) (key data : List Nat)
    (size : Nat) :
    ∀ (n fuel off : Nat) (tr : List Xfer), off ≤ size → (size - off + 55) / 56 = n → n ≤ fuel →
      isp_flash_loop t key data size fuel off (size - off) tr =
        Res.ok (size, 0) (tr ++ (List.range n).flatMap (fun k =>
          chunk_xfers CMD_PROGRAM (off + 56 * k) (size - off - 56 * k)
            (data.drop (off + 56 * k)) key)) := by
  intro n
  induction n with
  | zero =>
    intro fuel off tr hoff hn _
    have h : ¬ off < size := by omega
    have h0 : size - off = 0 := by omega
    have h1 : off = size := by omega
    cases fuel with
    | zero =>
      unfold isp_flash_loop
      rw [if_neg h, h0, h1]
      simp
      rfl
    | succ f =>
      unfold isp_flash_loop
      rw [if_neg h, h0, h1]
      simp
      rfl
  | succ n ih =>
    intro fuel off tr hoff hn hfuel
    have h : off < size := by omega
    obtain ⟨fuel, rfl⟩ : ∃ f, fuel = f + 1 := ⟨fuel - 1, by omega⟩
    unfold isp_flash_loop
    rw [if_pos h, Isp.bind_ok (progress_bar_pos off size tr (by omega)),
      Isp.bind_ok (cmd_program_ack_xfers t hack off (size - off) (data.drop off) key tr)]
    by_cases hle : size - off ≤ 56
    · have hlen : min 56 (size - off) = size - off := by omega
      have hn0 : n = 0 := by omega
      subst hn0
      have hrem : size - off - (size - off) = size - (off + (size - off)) := by omega
      rw [hlen, hrem, ih fuel (off + (size - off)) _ (by omega) (by omega) (by omega),
        show List.range (0 + 1) = [0] from rfl]
      simp
    · have hlen : min 56 (size - off) = 56 := by omega
      have hrem : size - off - 56 = size - (off + 56) := by omega
      rw [hlen, hrem, ih fuel (off + 56) _ (by omega) (by omega) (by omega),
        List.range_succ_eq_map, List.flatMap_cons, List.flatMap_map]
      have hs := chunk_xfers_shift CMD_PROGRAM data key size off
      simp only [Nat.succ_eq_add_one]
      rw [hs]
      simp

theorem isp_verify_loop_ack (t : Transport) (hack : acks_every_frame t) (key data : List Nat)
    (size : Nat) :
    ∀ (n fuel off : Nat) (tr : List Xfer), off ≤ size → (size - off + 55) / 56 = n → n ≤ fuel →
      isp_verify_loop t key data size fuel off (size - off) tr =
        Res.ok (size, 0) (tr ++ (List.range n).flatMap (fun k =>
          chunk_xfers CMD_VERIFY (off + 56 * k) (size - off - 56 * k)
            (data.drop (off + 56 * k)) key)) := by
  intro n
  induction n with
  | zero =>
    intro fuel off tr hoff hn _
    have h : ¬ off < size := by omega
    have h0 : size - off = 0 := by omega
    have h1 : off = size := by omega
    cases fuel with
    | zero =>
      unfold isp_verify_loop
      rw [if_neg h, h0, h1]
      simp
      rfl
    | succ f =>
      unfold isp_verify_loop
      rw [if_neg h, h0, h1]
      simp
      rfl
  | succ n ih =>
    intro fuel off tr hoff hn hfuel
    have h : off < size := by omega
    obtain ⟨fuel, rfl⟩ : ∃ f, fuel = f + 1 := ⟨fuel - 1, by omega⟩
    unfold isp_verify_loop
    rw [if_pos h, Isp.bind_ok (progress_bar_pos off size tr (by omega)),
      Isp.bind_ok (cmd_verify_ack_xfers t hack off (size - off) (data.drop off) key tr)]
    by_cases hle : size - off ≤ 56
    · have hlen : min 56 (size - off) = size - off := by omega
      have hn0 : n = 0 := by omega
      subst hn0
      have hrem : size - off - (size - off) = size - (off + (size - off)) := by omega
      rw [hlen, hrem, ih fuel (off + (size - off)) _ (by omega) (by omega) (by omega),
        show List.range (0 + 1) = [0] from rfl]
      simp
    · have hlen : min 56 (size - off) = 56 := by omega
      have hrem : size - off - 56 = size - (off + 56) := by omega
      rw [hlen, hrem, ih fuel (off + 56) _ (by omega) (by omega) (by omega),
        List.range_succ_eq_map, List.flatMap_cons, List.flatMap_map]
      have hs := chunk_xfers_shift CMD_VERIFY data key size off
      simp only [Nat.succ_eq_add_one]
      rw [hs]
      simp

/-- The whole run of `isp_flash` against a device that acknowledges every frame;
only the last `progress_bar` call is left to evaluate. -/
theorem isp_flash_ack (t : Transport) (hack : acks_every_frame t) (fuel : Nat) (dev : isp_dev)
    (N : Nat) (data : List Nat) (tr : List Xfer) (hs : dev.flash_sector_size ≠ 0)
    (hfuel : (N + 55) / 56 ≤ fuel) :
    isp_flash t fuel dev N data tr =
      progress_bar N N
        (tr ++ [Xfer.out (send_buf CMD_ERASE 4 (erase_sec (nr_sectors N dev.flash_sector_size))),
            Xfer.inp 6 (some [CMD_ERASE, 0, 2, 0, 0, 0])]
          ++ (List.range ((N + 55) / 56)).flatMap (fun k =>
            chunk_xfers CMD_PROGRAM (56 * k) (N - 56 * k) (data.drop (56 * k)) dev.xor_key)
          ++ chunk_xfers CMD_PROGRAM N 0 [] dev.xor_key) := by
  have hl := isp_flash_loop_ack t hack dev.xor_key data N ((N + 55) / 56) fuel 0
    (tr ++ [Xfer.out (send_buf CMD_ERASE 4 (erase_sec (nr_sectors N dev.flash_sector_size))),
            Xfer.inp 6 (some [CMD_ERASE, 0, 2, 0, 0, 0])]) (Nat.zero_le N) rfl hfuel
  simp only [Nat.zero_add, Nat.sub_zero] at hl
  have he := cmd_erase_ack t hack (nr_sectors N dev.flash_sector_size) tr
  have hm : nr_sectors N dev.flash_sector_size % 2 ^ 32 = nr_sectors N dev.flash_sector_size := by
    unfold nr_sectors
    exact Nat.mod_mod _ _
  rw [hm] at he
  unfold isp_flash
  simp only [db_flash_sector_size, if_neg hs]
  rw [Isp.bind_ok he, Isp.bind_ok hl]
  simp only
  rw [Isp.bind_ok (cmd_program_ack_xfers t hack N 0 [] dev.xor_key _)]

/-- The whole run of `isp_verify` against a device that acknowledges every frame. -/
theorem isp_verify_ack (t : Transport) (hack : acks_every_frame t) (fuel : Nat) (dev : isp_dev)
    (N : Nat) (data : List Nat) (tr : List Xfer) (hfuel : (N + 55) / 56 ≤ fuel) :
    isp_verify t fuel dev N data tr =
      progress_bar N N
        (tr ++ (List.range ((N + 55) / 56)).flatMap (fun k =>
            chunk_xfers CMD_VERIFY (56 * k) (N - 56 * k) (data.drop (56 * k)) dev.xor_key)) := by
  have hl := isp_verify_loop_ack t hack dev.xor_key data N ((N + 55) / 56) fuel 0 tr
    (Nat.zero_le N) rfl hfuel
  simp only [Nat.zero_add, Nat.sub_zero] at hl
  unfold isp_verify
  rw [Isp.bind_ok hl]

/-! ## The frames of a flash or verify pass -/

theorem progress_bar_trace (current total : Nat) (tr : List Xfer) :
    (progress_bar current total tr).trace = tr := by
  unfold progress_bar
  split_ifs <;> rfl

theorem sent_chunks (cmd : Nat) (key : List Nat) (a l : Nat → Nat) (d : Nat → List Nat)
    (ks : List Nat) :
    sent (ks.flatMap (fun k => chunk_xfers cmd (a k) (l k) (d k) key)) =
      ks.map (fun k => chunk_frame cmd (a k) (l k) (d k) key) := by
  induction ks with
  | nil => rfl
  | cons k ks ih =>
    rw [List.flatMap_cons, sent_append, ih]
    rfl

/-- The frames `isp_flash` sends to a device that acknowledges every frame. -/
theorem isp_flash_sent (t : Transport) (hack : acks_every_frame t) (fuel : Nat) (dev : isp_dev)
    (N : Nat) (data : List Nat) (tr : List Xfer) (hs : dev.flash_sector_size ≠ 0)
    (hfuel : (N + 55) / 56 ≤ fuel) :
    sent (isp_flash t fuel dev N data tr).trace =
      sent tr ++ send_buf CMD_ERASE 4 (erase_sec (nr_sectors N dev.flash_sector_size)) ::
        ((List.range ((N + 55) / 56)).map (fun k =>
            chunk_frame CMD_PROGRAM (56 * k) (N - 56 * k) (data.drop (56 * k)) dev.xor_key)
          ++ [chunk_frame CMD_PROGRAM N 0 [] dev.xor_key]) := by
  rw [isp_flash_ack t hack fuel dev N data tr hs hfuel, progress_bar_trace, sent_append,
    sent_append, sent_append,
    sent_chunks CMD_PROGRAM dev.xor_key (fun k => 56 * k) (fun k => N - 56 * k)
      (fun k => data.drop (56 * k))]
  simp [sent, chunk_xfers]

/-- The frames `isp_verify` sends to a device that acknowledges every frame. -/
theorem isp_verify_sent (t : Transport) (hack : acks_every_frame t) (fuel : Nat) (dev : isp_dev)
    (N : Nat) (data : List Nat) (tr : List Xfer) (hfuel : (N + 55) / 56 ≤ fuel) :
    sent (isp_verify t fuel dev N data tr).trace =
      sent tr ++ (List.range ((N + 55) / 56)).map (fun k =>
        chunk_frame CMD_VERIFY (56 * k) (N - 56 * k) (data.drop (56 * k)) dev.xor_key) := by
  rw [isp_verify_ack t hack fuel dev N data tr hfuel, progress_bar_trace, sent_append,
    sent_chunks CMD_VERIFY dev.xor_key (fun k => 56 * k) (fun k => N - 56 * k)
      (fun k => data.drop (56 * k))]

theorem chunk_unk_length (addr len : Nat) (data key : List Nat) :
    (chunk_unk addr len data key).length = len + 5 := by
  simp [chunk_unk]

theorem chunk_frame_eq (cmd addr len : Nat) (data key : List Nat) :
    chunk_frame cmd addr len data key =
      [cmd, (min 56 len + 5) % 256, (min 56 len + 5) / 256 % 256,
        addr % 2 ^ 32 % 256, addr % 2 ^ 32 / 256 % 256, addr % 2 ^ 32 / 65536 % 256,
        addr % 2 ^ 32 / 16777216 % 256, 0]
      ++ (List.range (min 56 len)).map
          (fun i => (data.getD i 0 ^^^ key.getD (i % 8) 0) % 256) := by
  unfold chunk_frame send_buf
  rw [List.take_of_length_le (by rw [chunk_unk_length])]
  unfold chunk_unk
  simp only [shr_and_ff]
  simp

theorem chunk_frame_head (cmd addr len : Nat) (data key : List Nat) :
    (chunk_frame cmd addr len data key).head? = some cmd := by
  rw [chunk_frame_eq]
  rfl

theorem chunk_frame_addr (cmd addr len : Nat) (data key : List Nat) (haddr : addr < 2 ^ 32) :
    frame_addr (chunk_frame cmd addr len data key) = addr := by
  rw [chunk_frame_eq]
  simp only [frame_addr, List.cons_append, List.getD_cons_succ, List.getD_cons_zero]
  omega

theorem chunk_frame_data (cmd addr len : Nat) (data key : List Nat) :
    frame_data (chunk_frame cmd addr len data key) =
      (List.range (min 56 len)).map (fun i => (data.getD i 0 ^^^ key.getD (i % 8) 0) % 256) := by
  rw [chunk_frame_eq]
  rfl

/-- C1: against a device that acknowledges every frame, and for an image length
`N < 2^32`, `isp_flash` sends the erase frame and then only program frames; read
back from the frames, their start offsets and data lengths are `(56 k, min 56
(N - 56 k))` for `k = 0, 1, ...` below `ceil(N / 56)` (that is, `56 k < N`),
followed by the single pair `(N, 0)`: `ceil(N / 56) + 1` program frames.  The
loop stops in the state `off = N`, `rem = 0`, and for `N > 0` the function
returns. -/
theorem isp_flash_program_calls (t : Transport) (hack : acks_every_frame t) (fuel : Nat)
    (dev : isp_dev) (N : Nat) (data : List Nat) (tr : List Xfer) (hN : N < 2 ^ 32)
    (hs : dev.flash_sector_size ≠ 0) (hfuel : (N + 55) / 56 ≤ fuel) :
    ∃ frames : List (List Nat),
      sent (isp_flash t fuel dev N data tr).trace =
        sent tr ++ send_buf CMD_ERASE 4 (erase_sec (nr_sectors N dev.flash_sector_size)) ::
          frames ∧
      (∀ f ∈ frames, f.head? = some CMD_PROGRAM) ∧
      frames.map (fun f => (frame_addr f, (frame_data f).length)) =
        (List.range ((N + 55) / 56)).map (fun k => (56 * k, min 56 (N - 56 * k))) ++ [(N, 0)] ∧
      frames.length = (N + 55) / 56 + 1 ∧
      (∀ k, k < (N + 55) / 56 ↔ 56 * k < N) ∧
      (∀ tr0, ∃ tr1, isp_flash_loop t dev.xor_key data N fuel 0 N tr0 = Res.ok (N, 0) tr1) ∧
      (0 < N → ∃ tr1, isp_flash t fuel dev N data tr = Res.ok () tr1) := by
  refine ⟨(List.range ((N + 55) / 56)).map (fun k =>
      chunk_frame CMD_PROGRAM (56 * k) (N - 56 * k) (data.drop (56 * k)) dev.xor_key)
    ++ [chunk_frame CMD_PROGRAM N 0 [] dev.xor_key],
    isp_flash_sent t hack fuel dev N data tr hs hfuel, ?_, ?_, ?_, ?_, ?_, ?_⟩
  · intro f hf
    rcases List.mem_append.mp hf with h | h
    · obtain ⟨k, _, rfl⟩ := List.mem_map.mp h
      exact chunk_frame_head _ _ _ _ _
    · rw [List.mem_singleton.mp h]
      exact chunk_frame_head _ _ _ _ _
  · rw [List.map_append, List.map_map]
    congr 1
    · apply List.map_congr_left
      intro k hk
      have hk1 : k < (N + 55) / 56 := List.mem_range.mp hk
      simp only [Function.comp_apply]
      rw [chunk_frame_addr _ _ _ _ _ (by omega), chunk_frame_data]
      simp
    · simp only [List.map_cons, List.map_nil]
      rw [chunk_frame_addr _ _ _ _ _ hN, chunk_frame_data]
      simp
  · simp
  · intro k
    omega
  · intro tr0
    have h := isp_flash_loop_ack t hack dev.xor_key data N ((N + 55) / 56) fuel 0 tr0
      (Nat.zero_le N) rfl hfuel
    exact ⟨_, h⟩
  · intro hpos
    rw [isp_flash_ack t hack fuel dev N data tr hs hfuel]
    exact ⟨_, progress_bar_pos N N _ (by omega)⟩

/-- Witness for C1: scenario B, an image of 130 bytes: chunks at 0 (56 bytes),
56 (56 bytes), 112 (18 bytes), then the call at 130 without data. -/
theorem isp_flash_program_calls_witness :
    (acks_every_frame ack_device ∧ 130 < 2 ^ 32 ∧ scenario_dev.flash_sector_size ≠ 0 ∧
      (130 + 55) / 56 ≤ 3) ∧
    ∃ frames : List (List Nat),
      sent (isp_flash ack_device 3 scenario_dev 130 scenario_image []).trace =
        sent [] ++ send_buf CMD_ERASE 4 (erase_sec (nr_sectors 130 scenario_dev.flash_sector_size))
          :: frames ∧
      frames.map (fun f => (frame_addr f, (frame_data f).length)) =
        [(0, 56), (56, 56), (112, 18), (130, 0)] := by
  refine ⟨⟨ack_device_acks, by decide, by decide, by decide⟩, ?_⟩
  obtain ⟨frames, h1, _, h3, _⟩ :=
    isp_flash_program_calls ack_device ack_device_acks 3 scenario_dev 130 scenario_image []
      (by decide) (by decide) (by decide)
  exact ⟨frames, h1, h3.trans (by decide)⟩

theorem getD_drop_add (l : List Nat) (n i : Nat) : (l.drop n).getD i 0 = l.getD (n + i) 0 := by
  simp [List.getD_eq_getElem?_getD, List.getElem?_drop]

/-- Data byte `i` of a chunk whose address is a multiple of 8. -/
theorem chunk_frame_byte (cmd addr len : Nat) (data key : List Nat) (haddr : addr < 2 ^ 32)
    (h8 : addr % 8 = 0) (hdata : ∀ b ∈ data, b < 256) (hkey : ∀ b ∈ key, b < 256) (i : Nat)
    (hi : i < (frame_data (chunk_frame cmd addr len (data.drop addr) key)).length) :
    (frame_data (chunk_frame cmd addr len (data.drop addr) key)).getD i 0 =
      data.getD (frame_addr (chunk_frame cmd addr len (data.drop addr) key) + i) 0 ^^^
        key.getD ((frame_addr (chunk_frame cmd addr len (data.drop addr) key) + i) % 8) 0 := by
  rw [chunk_frame_addr _ _ _ _ _ haddr]
  rw [chunk_frame_data] at hi ⊢
  rw [List.getD_eq_getElem _ _ hi, List.getElem_map, List.getElem_range, getD_drop_add]
  have hm : (addr + i) % 8 = i % 8 := by omega
  rw [hm]
  have hx : data.getD (addr + i) 0 ^^^ key.getD (i % 8) 0 < 2 ^ 8 :=
    Nat.xor_lt_two_pow (getD_lt_256 data hdata _) (getD_lt_256 key hkey _)
  exact Nat.mod_eq_of_lt hx

/-! ## Histories of arbitrary transports -/

theorem grows_pure {α : Type} (a : α) : Grows (pure a : Isp α) :=
  fun _ => ⟨[], (List.append_nil _).symm⟩

theorem grows_die {α : Type} (e : Err) : Grows (die e : Isp α) :=
  fun _ => ⟨[], (List.append_nil _).symm⟩

theorem grows_undefined {α : Type} : Grows (undefined_behaviour : Isp α) :=
  fun _ => ⟨[], (List.append_nil _).symm⟩

theorem grows_out_of_fuel {α : Type} : Grows (out_of_fuel : Isp α) :=
  fun _ => ⟨[], (List.append_nil _).symm⟩

theorem grows_bind {α β : Type} {m : Isp α} {f : α → Isp β} (hm : Grows m)
    (hf : ∀ a, Grows (f a)) : Grows (m >>= f) := by
  intro tr
  obtain ⟨s1, h1⟩ := hm tr
  show ∃ suffix, (Isp.bind m f tr).trace = tr ++ suffix
  unfold Isp.bind
  cases hmt : m tr with
  | ok a tr1 =>
    rw [hmt] at h1
    obtain ⟨s2, h2⟩ := hf a tr1
    refine ⟨s1 ++ s2, ?_⟩
    show (f a tr1).trace = tr ++ (s1 ++ s2)
    rw [h2, ← List.append_assoc]
    congr 1
  | die e tr1 => rw [hmt] at h1; exact ⟨s1, h1⟩
  | undef tr1 => rw [hmt] at h1; exact ⟨s1, h1⟩
  | nofuel tr1 => rw [hmt] at h1; exact ⟨s1, h1⟩

theorem first_sends_bind {α β : Type} {m : Isp α} {f : α → Isp β} {tr : List Xfer}
    {x : List Nat} (hm : FirstSends m tr x) (hf : ∀ a, Grows (f a)) :
    FirstSends (m >>= f) tr x := by
  obtain ⟨s1, h1⟩ := hm
  show ∃ rest, (Isp.bind m f tr).trace = tr ++ Xfer.out x :: rest
  unfold Isp.bind
  cases hmt : m tr with
  | ok a tr1 =>
    rw [hmt] at h1
    obtain ⟨s2, h2⟩ := hf a tr1
    refine ⟨s1 ++ s2, ?_⟩
    show (f a tr1).trace = tr ++ Xfer.out x :: (s1 ++ s2)
    rw [h2]
    have h3 : tr1 = tr ++ Xfer.out x :: s1 := h1
    rw [h3]
    simp
  | die e tr1 => rw [hmt] at h1; exact ⟨s1, h1⟩
  | undef tr1 => rw [hmt] at h1; exact ⟨s1, h1⟩
  | nofuel tr1 => rw [hmt] at h1; exact ⟨s1, h1⟩

theorem grows_read_local (written : List Nat) (i : Nat) : Grows (read_local written i) := by
  unfold read_local
  cases written[i]? with
  | none => exact grows_undefined
  | some b => exact grows_pure b

theorem grows_isp_send_cmd (t : Transport) (cmd len : Nat) (data : List Nat) :
    Grows (isp_send_cmd t cmd len data) := by
  intro tr
  unfold isp_send_cmd
  split_ifs
  · exact ⟨[], (List.append_nil _).symm⟩
  · simp only [Isp.bind_eq, Isp.bind, bulk_transfer_out]
    cases t.bulk_out tr (send_buf cmd (len % 65536) data) <;> exact ⟨_, rfl⟩

theorem grows_isp_recv_cmd (t : Transport) (cmd len : Nat) : Grows (isp_recv_cmd t cmd len) := by
  intro tr
  unfold isp_recv_cmd
  split_ifs
  · exact ⟨[], (List.append_nil _).symm⟩
  · simp only [Isp.bind_eq, Isp.bind, bulk_transfer_in]
    cases t.bulk_in tr (len % 65536 + 4) with
    | none => exact ⟨_, rfl⟩
    | some buf =>
      simp only
      split_ifs <;> exact ⟨_, rfl⟩

theorem grows_cmd_program (t : Transport) (addr len : Nat) (data key : List Nat) :
    Grows (cmd_program t addr len data key) := by
  unfold cmd_program
  refine grows_bind (grows_isp_send_cmd _ _ _ _) (fun _ => ?_)
  refine grows_bind (grows_isp_recv_cmd _ _ _) (fun r => ?_)
  refine grows_bind (grows_read_local _ _) (fun r0 => ?_)
  refine grows_bind (grows_read_local _ _) (fun r1 => ?_)
  split_ifs
  · exact grows_die _
  · exact grows_pure _

theorem grows_cmd_verify (t : Transport) (addr len : Nat) (data key : List Nat) :
    Grows (cmd_verify t addr len data key) := by
  unfold cmd_verify
  refine grows_bind (grows_isp_send_cmd _ _ _ _) (fun _ => ?_)
  refine grows_bind (grows_isp_recv_cmd _ _ _) (fun r => ?_)
  refine grows_bind (grows_read_local _ _) (fun r0 => ?_)
  refine grows_bind (grows_read_local _ _) (fun r1 => ?_)
  split_ifs
  · exact grows_die _
  · exact grows_pure _

theorem grows_progress_bar (current total : Nat) : Grows (progress_bar current total) :=
  fun tr => ⟨[], by rw [progress_bar_trace, List.append_nil]⟩

theorem grows_isp_flash_loop (t : Transport) (key data : List Nat) (size : Nat) :
    ∀ fuel off rem, Grows (isp_flash_loop t key data size fuel off rem) := by
  intro fuel
  induction fuel with
  | zero =>
    intro off rem
    unfold isp_flash_loop
    split_ifs
    · exact grows_out_of_fuel
    · exact grows_pure _
  | succ fuel ih =>
    intro off rem
    unfold isp_flash_loop
    split_ifs
    · refine grows_bind (grows_progress_bar _ _) (fun _ => ?_)
      exact grows_bind (grows_cmd_program _ _ _ _ _) (fun len => ih _ _)
    · exact grows_pure _

theorem grows_isp_verify_loop (t : Transport) (key data : List Nat) (size : Nat) :
    ∀ fuel off rem, Grows (isp_verify_loop t key data size fuel off rem) := by
  intro fuel
  induction fuel with
  | zero =>
    intro off rem
    unfold isp_verify_loop
    split_ifs
    · exact grows_out_of_fuel
    · exact grows_pure _
  | succ fuel ih =>
    intro off rem
    unfold isp_verify_loop
    split_ifs
    · refine grows_bind (grows_progress_bar _ _) (fun _ => ?_)
      exact grows_bind (grows_cmd_verify _ _ _ _ _) (fun len => ih _ _)
    · exact grows_pure _

/-! ## Erase sector count -/

theorem and_mask_eq (x k : Nat) (hk : k ≤ 64) (hx : x < 2 ^ 64) :
    x &&& (2 ^ 64 - 1 - (2 ^ k - 1)) = x / 2 ^ k * 2 ^ k := by
  have hpos : 0 < 2 ^ k := Nat.two_pow_pos k
  have hle : 2 ^ k ≤ 2 ^ 64 := Nat.pow_le_pow_right (by decide) hk
  have hm : 2 ^ 64 - 1 - (2 ^ k - 1) = 2 ^ 64 - (2 ^ k - 1 + 1) := by omega
  rw [hm]
  apply Nat.eq_of_testBit_eq
  intro i
  rw [Nat.testBit_and, Nat.testBit_two_pow_sub_succ (by omega), Nat.testBit_two_pow_sub_one,
    ← Nat.shiftRight_eq_div_pow, ← Nat.shiftLeft_eq, Nat.testBit_shiftLeft,
    Nat.testBit_shiftRight]
  by_cases h1 : i < k
  · have : ¬ (i ≥ k) := by omega
    simp [h1, this]
  · have h2 : i ≥ k := by omega
    have h3 : k + (i - k) = i := by omega
    simp only [h1, h2, h3, decide_True, decide_False, Bool.not_false, Bool.and_true, Bool.true_and]
    by_cases h4 : i < 64
    · simp [h4]
    · have : x < 2 ^ i := lt_of_lt_of_le hx (Nat.pow_le_pow_right (by decide) (by omega))
      simp [h4, Nat.testBit_lt_two_pow this]

/-- For a power of two `a = 2^k`, `ALIGN(x, a)` rounds `x` up to a multiple of `a`,
as long as `x + a - 1` fits a `size_t`. -/
theorem ALIGN_pow2 (x k : Nat) (hk : k < 64) (hx : x + 2 ^ k - 1 < 2 ^ 64) :
    ALIGN x (2 ^ k) = (x + 2 ^ k - 1) / 2 ^ k * 2 ^ k := by
  have hpos : 0 < 2 ^ k := Nat.two_pow_pos k
  have hlt : 2 ^ k < 2 ^ 64 := Nat.pow_lt_pow_right (by decide) hk
  have h1 : (2 ^ k + SIZE_T - 1) % SIZE_T = 2 ^ k - 1 := by
    unfold SIZE_T
    omega
  have h2 : (x + (2 ^ k - 1)) % SIZE_T = x + 2 ^ k - 1 := by
    unfold SIZE_T
    omega
  unfold ALIGN
  rw [h1, h2]
  exact and_mask_eq (x + 2 ^ k - 1) k (by omega) hx

theorem nr_sectors_pow2 (size k : Nat) (hsize : size < 2 ^ 32) (hk : k < 32) :
    nr_sectors size (2 ^ k) = (size + 2 ^ k - 1) / 2 ^ k := by
  have hpos : 0 < 2 ^ k := Nat.two_pow_pos k
  have hlt : 2 ^ k < 2 ^ 32 := Nat.pow_lt_pow_right (by decide) hk
  unfold nr_sectors
  rw [ALIGN_pow2 size k (by omega) (by omega), Nat.mul_div_cancel _ hpos]
  apply Nat.mod_eq_of_lt
  rw [Nat.div_lt_iff_lt_mul hpos]
  omega

theorem first_sends_isp_send_cmd (t : Transport) (cmd len : Nat) (data : List Nat)
    (tr : List Xfer) (hlen : len + 3 ≤ 64) :
    FirstSends (isp_send_cmd t cmd len data) tr (send_buf cmd len data) :=
  ⟨[], isp_send_cmd_trace t cmd len data tr hlen⟩

theorem first_sends_cmd_erase (t : Transport) (sectors : Nat) (tr : List Xfer) :
    FirstSends (cmd_erase t sectors) tr (send_buf CMD_ERASE 4 (erase_sec (sectors % 2 ^ 32))) := by
  unfold cmd_erase
  refine first_sends_bind (first_sends_isp_send_cmd t _ 4 _ tr (by decide)) (fun _ => ?_)
  exact grows_bind (grows_isp_recv_cmd _ _ _) (fun _ => grows_pure _)

theorem first_sends_isp_flash (t : Transport) (fuel : Nat) (dev : isp_dev) (size : Nat)
    (data : List Nat) (tr : List Xfer) (hs : dev.flash_sector_size ≠ 0) :
    FirstSends (isp_flash t fuel dev size data) tr
      (send_buf CMD_ERASE 4 (erase_sec (nr_sectors size dev.flash_sector_size))) := by
  have hm : nr_sectors size dev.flash_sector_size % 2 ^ 32 =
      nr_sectors size dev.flash_sector_size := by
    unfold nr_sectors
    exact Nat.mod_mod _ _
  have he := first_sends_cmd_erase t (nr_sectors size dev.flash_sector_size) tr
  rw [hm] at he
  unfold isp_flash
  simp only [db_flash_sector_size, if_neg hs]
  refine first_sends_bind he (fun _ => ?_)
  refine grows_bind (grows_isp_flash_loop _ _ _ _ _ _ _) (fun r => ?_)
  exact grows_bind (grows_cmd_program _ _ _ _ _) (fun _ => grows_progress_bar _ _)

theorem erase_frame_eq (n : Nat) :
    send_buf CMD_ERASE 4 (erase_sec n) =
      [CMD_ERASE, 4, 0, n % 256, n / 256 % 256, n / 65536 % 256, n / 16777216 % 256] := by
  unfold send_buf erase_sec
  simp only [shr_and_ff]
  simp

/-- C7, amended: for an image size below `2^32` and a flash sector size that is
a power of two `2^k` with `k < 32`, the count `isp_flash` computes at line 552 is
`ceil(size / sector_size)`: it is `(size + 2^k - 1) / 2^k`, the one `n` with
`size ≤ n * 2^k < size + 2^k`.  Whatever the device does, the first frame
`isp_flash` hands over is the erase frame, whose 4-byte payload is that count,
least significant byte first. -/
theorem erase_sector_count_pow2 (size k : Nat) (hsize : size < 2 ^ 32) (hk : k < 32) :
    nr_sectors size (2 ^ k) = (size + 2 ^ k - 1) / 2 ^ k ∧
    size ≤ nr_sectors size (2 ^ k) * 2 ^ k ∧
    nr_sectors size (2 ^ k) * 2 ^ k < size + 2 ^ k ∧
    (∀ (t : Transport) (fuel : Nat) (dev : isp_dev) (data : List Nat) (tr : List Xfer),
      dev.flash_sector_size = 2 ^ k →
      ∃ b0 b1 b2 b3 rest,
        (isp_flash t fuel dev size data tr).trace =
          tr ++ Xfer.out [CMD_ERASE, 4, 0, b0, b1, b2, b3] :: rest ∧
        b0 < 256 ∧ b1 < 256 ∧ b2 < 256 ∧ b3 < 256 ∧
        b0 + 256 * b1 + 65536 * b2 + 16777216 * b3 = nr_sectors size (2 ^ k)) := by
  have hpos : 0 < 2 ^ k := Nat.two_pow_pos k
  have hn := nr_sectors_pow2 size k hsize hk
  have hlt : nr_sectors size (2 ^ k) < 2 ^ 32 := Nat.mod_lt _ (by decide)
  have hdm := Nat.div_add_mod (size + 2 ^ k - 1) (2 ^ k)
  have hml := Nat.mod_lt (size + 2 ^ k - 1) hpos
  refine ⟨hn, ?_, ?_, ?_⟩
  · rw [hn, Nat.mul_comm]
    omega
  · rw [hn, Nat.mul_comm]
    omega
  · intro t fuel dev data tr hs
    obtain ⟨rest, hrest⟩ := first_sends_isp_flash t fuel dev size data tr
      (by rw [hs]; exact Nat.ne_of_gt hpos)
    rw [hs, erase_frame_eq] at hrest
    refine ⟨_, _, _, _, rest, hrest, ?_, ?_, ?_, ?_, ?_⟩ <;> omega

/-- Witness for C7, amended: scenario B, 130 bytes and sectors of 1024 bytes:
one sector. -/
theorem erase_sector_count_pow2_witness :
    (130 < 2 ^ 32 ∧ 10 < 32) ∧ nr_sectors 130 (2 ^ 10) = 1 :=
  ⟨⟨by decide, by decide⟩, (erase_sector_count_pow2 130 10 (by decide) (by decide)).1⟩

/-- Counterexample for C7: with sectors of 3 bytes and an image of 1 byte the
count of line 552 is 0, and `isp_flash` sends an erase frame for 0 sectors,
although `ceil(1 / 3) = 1`. -/
theorem erase_sector_count_counterexample :
    0 < 3 ∧ nr_sectors 1 3 = 0 ∧ (1 + 3 - 1) / 3 = 1 ∧ ¬ (1 ≤ nr_sectors 1 3 * 3) ∧
    (sent (isp_flash ack_device 1 { scenario_dev with flash_sector_size := 3 } 1 [0xff]
      []).trace).head? = some [0xa4, 4, 0, 0, 0, 0, 0] := by
  refine ⟨by decide, by decide, by decide, by decide, ?_⟩
  decide

/-! ## Device database lookup -/

theorem find_db_none (type : Nat) (devices : List db) (h : ∀ d ∈ devices, d.type ≠ type) :
    find_db type devices = none := by
  induction devices with
  | nil => rfl
  | cons d ds ih =>
    unfold find_db
    rw [if_neg (h d (List.mem_cons_self d ds))]
    exact ih (fun e he => h e (List.mem_cons_of_mem d he))

theorem find_db_first (type : Nat) (pre post : List db) (d : db)
    (hpre : ∀ p ∈ pre, p.type ≠ type) (hd : d.type = type) :
    find_db type (pre ++ d :: post) = some d := by
  induction pre with
  | nil =>
    show find_db type (d :: post) = some d
    unfold find_db
    rw [if_pos hd]
  | cons p ps ih =>
    show find_db type (p :: (ps ++ d :: post)) = some d
    unfold find_db
    rw [if_neg (hpre p (List.mem_cons_self p ps))]
    exact ih (fun e he => hpre e (List.mem_cons_of_mem p he))

theorem find_db_dev_none (id : Nat) (devs : List db_dev)
    (h : ∀ e ∈ devs.takeWhile (fun e => e.id != 0), e.id ≠ id) :
    find_db_dev id devs = none := by
  induction devs with
  | nil => rfl
  | cons e es ih =>
    unfold find_db_dev
    by_cases h0 : e.id = 0
    · rw [if_pos h0]
    · have hb : (e.id != 0) = true := by simpa using h0
      have h1 : ∀ x ∈ e :: es.takeWhile (fun e => e.id != 0), x.id ≠ id := by
        rw [List.takeWhile_cons, hb] at h
        exact h
      rw [if_neg h0, if_neg (h1 e (List.mem_cons_self e _))]
      exact ih (fun x hx => h1 x (List.mem_cons_of_mem e hx))

/-- C8, amended: when no row of the table has the device type,
`isp_init_from_db` leaves the four defaults (sector size 1024, flash size
`0xFFFF`, eeprom size 0, name "unknown"); when the first row with the device
type lists no device with the device id before its terminating element, the
flash size, the eeprom size and the name keep their defaults and the sector
size is that of the row. -/
theorem isp_init_from_db_defaults (devices : List db) (dev : isp_dev) :
    ((∀ d ∈ devices, d.type ≠ dev.type) →
      isp_init_from_db devices dev =
        { dev with flash_sector_size := 1024, name := "unknown", flash_size := 0xffff,
                   eeprom_size := 0 }) ∧
    (∀ (pre post : List db) (d : db), devices = pre ++ d :: post →
      (∀ p ∈ pre, p.type ≠ dev.type) → d.type = dev.type →
      (∀ e ∈ d.devs.takeWhile (fun e => e.id != 0), e.id ≠ dev.id) →
      isp_init_from_db devices dev =
        { dev with flash_sector_size := d.flash_sector_size, name := "unknown",
                   flash_size := 0xffff, eeprom_size := 0 }) := by
  constructor
  · intro h
    unfold isp_init_from_db
    simp only [find_db_none dev.type devices h, SECTOR_SIZE]
  · intro pre post d hdev hpre hd hid
    unfold isp_init_from_db
    simp only [hdev, find_db_first dev.type pre post d hpre hd, find_db_dev_none dev.id d.devs hid]

/-- Witness for C8, amended: device type `0x10` is in the sample table, device
id `0x70` is not: the sector size becomes that of the row. -/
theorem isp_init_from_db_defaults_witness :
    (sample_devices = [] ++ sample_row :: [] ∧
      (∀ p ∈ ([] : List db), p.type ≠ ({ scenario_dev with id := 0x70 } : isp_dev).type) ∧
      sample_row.type = ({ scenario_dev with id := 0x70 } : isp_dev).type ∧
      ∀ e ∈ sample_row.devs.takeWhile (fun e => e.id != 0),
        e.id ≠ ({ scenario_dev with id := 0x70 } : isp_dev).id) ∧
    isp_init_from_db sample_devices { scenario_dev with id := 0x70 } =
      { scenario_dev with id := 0x70, flash_sector_size := 4096, name := "unknown",
                          flash_size := 0xffff, eeprom_size := 0 } :=
  ⟨⟨rfl, by decide, rfl, by decide⟩,
   (isp_init_from_db_defaults sample_devices { scenario_dev with id := 0x70 }).2 []
      [] sample_row rfl (by decide) rfl (by decide)⟩

/-- Counterexample for C8: the device type is in the table, the device id is
not, and the sector size is 4096, not the default 1024. -/
theorem isp_init_from_db_defaults_counterexample :
    (∀ d ∈ sample_devices, ∀ e ∈ d.devs, e.id ≠ 0x70) ∧
    (isp_init_from_db sample_devices { scenario_dev with id := 0x70 }).flash_sector_size = 4096 ∧
    (isp_init_from_db sample_devices { scenario_dev with id := 0x70 }).flash_sector_size ≠ 1024 := by
  decide

/-! ## Config reads -/

/-- The run of `cmd_read_conf` once the request went out and a reply with a
well-formed header and the payload `p` came back. -/
theorem cmd_read_conf_run (t : Transport) (cfgmask len : Nat) (tr : List Xfer) (g lo hi : Nat)
    (p : List Nat) (hmask : cfgmask < 65536)
    (hout : t.bulk_out tr (send_buf CMD_READ_CONFIG 2
      [(cfgmask >>> 0) &&& 0xff, (cfgmask >>> 8) &&& 0xff]) = some g)
    (hlo : lo < 256) (hhi : hi < 256) (hp : lo + 256 * hi = p.length)
    (hbytes : ∀ b ∈ p, b < 256)
    (hin : t.bulk_in (tr ++ [Xfer.out (send_buf CMD_READ_CONFIG 2
      [(cfgmask >>> 0) &&& 0xff, (cfgmask >>> 8) &&& 0xff])]) 64 =
        some (CMD_READ_CONFIG :: 0 :: lo :: hi :: p)) :
    cmd_read_conf t cfgmask len tr =
      if p.length < 2 then
        Res.die Err.conf_not_enough
          (tr ++ [Xfer.out (send_buf CMD_READ_CONFIG 2
              [(cfgmask >>> 0) &&& 0xff, (cfgmask >>> 8) &&& 0xff]),
            Xfer.inp 64 (some (CMD_READ_CONFIG :: 0 :: lo :: hi :: p))])
      else if cfgmask ≠ p.getD 0 0 + 256 * p.getD 1 0 then
        Res.die Err.conf_mismatch
          (tr ++ [Xfer.out (send_buf CMD_READ_CONFIG 2
              [(cfgmask >>> 0) &&& 0xff, (cfgmask >>> 8) &&& 0xff]),
            Xfer.inp 64 (some (CMD_READ_CONFIG :: 0 :: lo :: hi :: p))])
      else
        Res.ok (min (p.length - 2) len,
            ((p.take (min 60 p.length)).drop 2).take (min (p.length - 2) len))
          (tr ++ [Xfer.out (send_buf CMD_READ_CONFIG 2
              [(cfgmask >>> 0) &&& 0xff, (cfgmask >>> 8) &&& 0xff]),
            Xfer.inp 64 (some (CMD_READ_CONFIG :: 0 :: lo :: hi :: p))]) := by
  have hm : cfgmask % 65536 = cfgmask := Nat.mod_eq_of_lt hmask
  have hs : isp_send_cmd t CMD_READ_CONFIG 2
      [(cfgmask >>> 0) &&& 0xff, (cfgmask >>> 8) &&& 0xff] tr =
      Res.ok g (tr ++ [Xfer.out (send_buf CMD_READ_CONFIG 2
        [(cfgmask >>> 0) &&& 0xff, (cfgmask >>> 8) &&& 0xff])]) := by
    rw [isp_send_cmd_run t CMD_READ_CONFIG 2 _ tr (by decide), hout]
  have hr : isp_recv_cmd t CMD_READ_CONFIG 60
      (tr ++ [Xfer.out (send_buf CMD_READ_CONFIG 2
        [(cfgmask >>> 0) &&& 0xff, (cfgmask >>> 8) &&& 0xff])]) =
      Res.ok (p.length, p.take (min 60 p.length))
        (tr ++ [Xfer.out (send_buf CMD_READ_CONFIG 2
            [(cfgmask >>> 0) &&& 0xff, (cfgmask >>> 8) &&& 0xff]),
          Xfer.inp 64 (some (CMD_READ_CONFIG :: 0 :: lo :: hi :: p))]) := by
    rw [isp_recv_cmd_ok t CMD_READ_CONFIG 60 _ lo hi p (by decide) hlo hhi hp hin]
    simp
  unfold cmd_read_conf
  simp only [hm]
  rw [Isp.bind_ok hs, Isp.bind_ok hr]
  by_cases h1 : p.length < 2
  · simp only [h1, if_true]
    rfl
  · simp only [h1, if_false]
    obtain ⟨a, b, rest, rfl⟩ : ∃ a b rest, p = a :: b :: rest := by
      match p, h1 with
      | [], h => exact absurd (Nat.zero_lt_two) h
      | [_], h => exact absurd (Nat.one_lt_two) h
      | a :: b :: rest, _ => exact ⟨a, b, rest, rfl⟩
    have ha : a < 256 := hbytes a (by simp)
    have hb : b < 256 := hbytes b (by simp)
    have h60 : min 60 (a :: b :: rest).length = min 58 rest.length + 2 := by
      simp only [List.length_cons]
      omega
    have hmask2 : (a ||| (b <<< 8)) % 65536 = a + 256 * b := by
      rw [or_shl8 _ _ ha]
      omega
    rw [h60]
    simp only [List.take_succ_cons, read_local, List.getElem?_cons_zero,
      List.getElem?_cons_succ, Isp.bind_eq, Isp.bind, Isp.pure, hmask2, List.getD_cons_zero,
      List.getD_cons_succ]
    split_ifs <;> rfl

theorem isp_recv_cmd_dies (t : Transport) (cmd len : Nat) (tr : List Xfer) (rx : List Nat)
    (hlen : len + 4 ≤ 64) (hrx : t.bulk_in tr (len + 4) = some rx) (hbytes : ∀ b ∈ rx, b < 256)
    (hbad : ¬ (4 ≤ rx.length ∧ rx.getD 0 0 = cmd ∧ rx.getD 1 0 = 0 ∧
      rx.getD 2 0 + 256 * rx.getD 3 0 = rx.length - 4)) :
    ∃ e tr1, isp_recv_cmd t cmd len tr = Res.die e tr1 := by
  rw [isp_recv_cmd_run t cmd len tr hlen, hrx]
  simp only [hdrlen_eq rx hbytes]
  split_ifs with h1 h2 h3 h4
  · exact ⟨_, _, rfl⟩
  · exact ⟨_, _, rfl⟩
  · exact ⟨_, _, rfl⟩
  · exact ⟨_, _, rfl⟩
  · exact absurd ⟨by omega, not_not.mp h2, not_not.mp h3, not_not.mp h4⟩ hbad

theorem header_shape (rx : List Nat) (cmd : Nat)
    (h : 4 ≤ rx.length ∧ rx.getD 0 0 = cmd ∧ rx.getD 1 0 = 0 ∧
      rx.getD 2 0 + 256 * rx.getD 3 0 = rx.length - 4) :
    ∃ lo hi p, rx = cmd :: 0 :: lo :: hi :: p ∧ lo + 256 * hi = p.length := by
  match rx, h with
  | a :: b :: lo :: hi :: p, h =>
    simp only [List.getD_cons_zero, List.getD_cons_succ, List.length_cons] at h
    obtain ⟨_, rfl, rfl, h4⟩ := h
    exact ⟨lo, hi, p, rfl, by omega⟩
  | [], h => exact absurd h.1 (by simp)
  | [_], h => exact absurd h.1 (by simp)
  | [_, _], h => exact absurd h.1 (by simp)
  | [_, _, _], h => exact absurd h.1 (by simp)

/-- C9: whatever reply `rx` the device gives to the read-config request for the
mask `cfgmask`, `cmd_read_conf` dies (and so hands no config bytes to its
caller) if `rx` carries fewer than 2 bytes after the 4-byte header or if the
little-endian mask in its first two payload bytes is not `cfgmask`.  When the
request went out and the reply header is well formed, the reason is "not
received enough bytes" in the first case and "received conf does not match" in
the second. -/
theorem cmd_read_conf_rejects (t : Transport) (cfgmask len : Nat) (tr : List Xfer)
    (rx : List Nat) (hmask : cfgmask < 65536) (hbytes : ∀ b ∈ rx, b < 256)
    (hin : t.bulk_in (tr ++ [Xfer.out (send_buf CMD_READ_CONFIG 2
      [(cfgmask >>> 0) &&& 0xff, (cfgmask >>> 8) &&& 0xff])]) 64 = some rx)
    (hbad : rx.length < 4 + 2 ∨ rx.getD 4 0 + 256 * rx.getD 5 0 ≠ cfgmask) :
    (∃ e tr1, cmd_read_conf t cfgmask len tr = Res.die e tr1) ∧
    (∀ g lo hi p,
      t.bulk_out tr (send_buf CMD_READ_CONFIG 2
        [(cfgmask >>> 0) &&& 0xff, (cfgmask >>> 8) &&& 0xff]) = some g →
      rx = CMD_READ_CONFIG :: 0 :: lo :: hi :: p → lo + 256 * hi = p.length →
      cmd_read_conf t cfgmask len tr =
        Res.die (if p.length < 2 then Err.conf_not_enough else Err.conf_mismatch)
          (tr ++ [Xfer.out (send_buf CMD_READ_CONFIG 2
              [(cfgmask >>> 0) &&& 0xff, (cfgmask >>> 8) &&& 0xff]),
            Xfer.inp 64 (some rx)])) := by
  have key : ∀ g lo hi p,
      t.bulk_out tr (send_buf CMD_READ_CONFIG 2
        [(cfgmask >>> 0) &&& 0xff, (cfgmask >>> 8) &&& 0xff]) = some g →
      rx = CMD_READ_CONFIG :: 0 :: lo :: hi :: p → lo + 256 * hi = p.length →
      cmd_read_conf t cfgmask len tr =
        Res.die (if p.length < 2 then Err.conf_not_enough else Err.conf_mismatch)
          (tr ++ [Xfer.out (send_buf CMD_READ_CONFIG 2
              [(cfgmask >>> 0) &&& 0xff, (cfgmask >>> 8) &&& 0xff]),
            Xfer.inp 64 (some rx)]) := by
    intro g lo hi p hout hrx hp
    subst hrx
    have hlo : lo < 256 := hbytes lo (by simp)
    have hhi : hi < 256 := hbytes hi (by simp)
    have hpb : ∀ b ∈ p, b < 256 := fun b hb => hbytes b (by simp [hb])
    rw [cmd_read_conf_run t cfgmask len tr g lo hi p hmask hout hlo hhi hp hpb hin]
    simp only [List.length_cons, List.getD_cons_succ] at hbad
    by_cases h1 : p.length < 2
    · rw [if_pos h1, if_pos h1]
    · rw [if_neg h1, if_neg h1]
      have h2 : cfgmask ≠ p.getD 0 0 + 256 * p.getD 1 0 := by
        rcases hbad with h | h
        · omega
        · exact fun h3 => h h3.symm
      rw [if_pos h2]
  refine ⟨?_, key⟩
  by_cases hv : 4 ≤ rx.length ∧ rx.getD 0 0 = CMD_READ_CONFIG ∧ rx.getD 1 0 = 0 ∧
      rx.getD 2 0 + 256 * rx.getD 3 0 = rx.length - 4
  · cases hout : t.bulk_out tr (send_buf CMD_READ_CONFIG 2
        [(cfgmask >>> 0) &&& 0xff, (cfgmask >>> 8) &&& 0xff]) with
    | none =>
      have hs : isp_send_cmd t CMD_READ_CONFIG 2
          [(cfgmask >>> 0) &&& 0xff, (cfgmask >>> 8) &&& 0xff] tr =
          Res.die Err.send_usb (tr ++ [Xfer.out (send_buf CMD_READ_CONFIG 2
            [(cfgmask >>> 0) &&& 0xff, (cfgmask >>> 8) &&& 0xff])]) := by
        rw [isp_send_cmd_run t CMD_READ_CONFIG 2 _ tr (by decide), hout]
      unfold cmd_read_conf
      simp only [Nat.mod_eq_of_lt hmask]
      exact ⟨_, _, Isp.bind_die hs⟩
    | some g =>
      obtain ⟨lo, hi, p, hrx, hp⟩ := header_shape rx CMD_READ_CONFIG hv
      exact ⟨_, _, key g lo hi p hout hrx hp⟩
  · cases hout : t.bulk_out tr (send_buf CMD_READ_CONFIG 2
        [(cfgmask >>> 0) &&& 0xff, (cfgmask >>> 8) &&& 0xff]) with
    | none =>
      have hs : isp_send_cmd t CMD_READ_CONFIG 2
          [(cfgmask >>> 0) &&& 0xff, (cfgmask >>> 8) &&& 0xff] tr =
          Res.die Err.send_usb (tr ++ [Xfer.out (send_buf CMD_READ_CONFIG 2
            [(cfgmask >>> 0) &&& 0xff, (cfgmask >>> 8) &&& 0xff])]) := by
        rw [isp_send_cmd_run t CMD_READ_CONFIG 2 _ tr (by decide), hout]
      unfold cmd_read_conf
      simp only [Nat.mod_eq_of_lt hmask]
      exact ⟨_, _, Isp.bind_die hs⟩
    | some g =>
      have hs : isp_send_cmd t CMD_READ_CONFIG 2
          [(cfgmask >>> 0) &&& 0xff, (cfgmask >>> 8) &&& 0xff] tr =
          Res.ok g (tr ++ [Xfer.out (send_buf CMD_READ_CONFIG 2
            [(cfgmask >>> 0) &&& 0xff, (cfgmask >>> 8) &&& 0xff])]) := by
        rw [isp_send_cmd_run t CMD_READ_CONFIG 2 _ tr (by decide), hout]
      obtain ⟨e, tr1, hr⟩ := isp_recv_cmd_dies t CMD_READ_CONFIG 60 _ rx (by decide) hin hbytes hv
      unfold cmd_read_conf
      simp only [Nat.mod_eq_of_lt hmask]
      rw [Isp.bind_ok hs]
      exact ⟨_, _, Isp.bind_die hr⟩

/-- Witness for C9: scenario C, the unique id (mask `0x10`) is requested and the
device echoes the mask `0x08`. -/
theorem cmd_read_conf_rejects_witness :
    (0x10 < 65536 ∧ (∀ b ∈ [0xa7, 0, 6, 0, 0x08, 0x00, 0x00, 0x02, 0x07, 0x00], b < 256) ∧
      btver_device.bulk_in ([] ++ [Xfer.out (send_buf CMD_READ_CONFIG 2
        [(0x10 >>> 0) &&& 0xff, (0x10 >>> 8) &&& 0xff])]) 64 =
          some [0xa7, 0, 6, 0, 0x08, 0x00, 0x00, 0x02, 0x07, 0x00] ∧
      ([0xa7, 0, 6, 0, 0x08, 0x00, 0x00, 0x02, 0x07, 0x00].length < 4 + 2 ∨
        [0xa7, 0, 6, 0, 0x08, 0x00, 0x00, 0x02, 0x07, 0x00].getD 4 0 +
          256 * [0xa7, 0, 6, 0, 0x08, 0x00, 0x00, 0x02, 0x07, 0x00].getD 5 0 ≠ 0x10)) ∧
    cmd_read_conf btver_device 0x10 8 [] =
      Res.die Err.conf_mismatch
        [Xfer.out [0xa7, 2, 0, 0x10, 0],
         Xfer.inp 64 (some [0xa7, 0, 6, 0, 0x08, 0x00, 0x00, 0x02, 0x07, 0x00])] :=
  ⟨⟨by decide, by decide, rfl, Or.inr (by decide)⟩,
   (cmd_read_conf_rejects btver_device 0x10 8 [] [0xa7, 0, 6, 0, 0x08, 0x00, 0x00, 0x02, 0x07, 0x00]
      (by decide) (by decide) rfl (Or.inr (by decide))).2 5 6 0
      [0x08, 0x00, 0x00, 0x02, 0x07, 0x00] rfl rfl rfl⟩

/-! ## Image size check -/

theorem ALIGN_zero_64 : ALIGN 0 64 = 0 := by decide

theorem file_read_all_some (content : List Nat) (tr : List Xfer) (h : content.length ≠ 0) :
    file_read_all (some content) tr =
      Res.ok (ALIGN content.length 64,
        content ++ List.replicate (ALIGN content.length 64 - content.length) 0) tr := by
  unfold file_read_all
  simp only [if_neg h]
  rfl

/-- C10: for a file whose padded size `ALIGN(len, 64)` is greater than the
session's `flash_size`, `write_flash` and `verify_flash` die with "file too
big" and the transfer history is the one they started with: nothing was sent or
received.  A file whose padded size equals `flash_size` passes the check: the
functions continue with `isp_flash` and `isp_verify` on the padded image, and
against a device that acknowledges every frame they return (for a file length
`len` with `len + 63` below `2^64`). -/
theorem write_flash_size_check (t : Transport) (fuel : Nat) (do_verify : Bool) (dev : isp_dev)
    (content : List Nat) (tr : List Xfer) :
    (ALIGN content.length 64 > dev.flash_size →
      write_flash t fuel do_verify dev (some content) tr =
        Res.die (Err.file_too_big dev.flash_size) tr ∧
      verify_flash t fuel dev (some content) tr =
        Res.die (Err.file_too_big dev.flash_size) tr) ∧
    (ALIGN content.length 64 = dev.flash_size → content.length ≠ 0 →
      write_flash t fuel do_verify dev (some content) tr =
        (isp_flash t fuel dev dev.flash_size
            (content ++ List.replicate (dev.flash_size - content.length) 0) >>= fun _ =>
          if do_verify then
            isp_verify t fuel dev dev.flash_size
              (content ++ List.replicate (dev.flash_size - content.length) 0)
          else pure ()) tr ∧
      verify_flash t fuel dev (some content) tr =
        isp_verify t fuel dev dev.flash_size
          (content ++ List.replicate (dev.flash_size - content.length) 0) tr ∧
      (acks_every_frame t → dev.flash_sector_size ≠ 0 → (dev.flash_size + 55) / 56 ≤ fuel →
        content.length + 63 < 2 ^ 64 →
        (∃ tr1, write_flash t fuel do_verify dev (some content) tr = Res.ok () tr1) ∧
        ∃ tr1, verify_flash t fuel dev (some content) tr = Res.ok () tr1)) := by
  constructor
  · intro hbig
    have hne : content.length ≠ 0 := by
      intro h0
      rw [h0, ALIGN_zero_64] at hbig
      exact Nat.not_lt_zero _ hbig
    have hf := file_read_all_some content tr hne
    constructor
    · unfold write_flash
      rw [Isp.bind_ok hf]
      simp only [db_flash_size, if_pos hbig]
      rfl
    · unfold verify_flash
      rw [Isp.bind_ok hf]
      simp only [db_flash_size, if_pos hbig]
      rfl
  · intro heq hne
    have hf := file_read_all_some content tr hne
    rw [heq] at hf
    have hnot : ¬ dev.flash_size > dev.flash_size := Nat.lt_irrefl _
    have hw : write_flash t fuel do_verify dev (some content) tr =
        (isp_flash t fuel dev dev.flash_size
            (content ++ List.replicate (dev.flash_size - content.length) 0) >>= fun _ =>
          if do_verify then
            isp_verify t fuel dev dev.flash_size
              (content ++ List.replicate (dev.flash_size - content.length) 0)
          else pure ()) tr := by
      unfold write_flash
      rw [Isp.bind_ok hf]
      simp only [db_flash_size, if_neg hnot]
    have hv : verify_flash t fuel dev (some content) tr =
        isp_verify t fuel dev dev.flash_size
          (content ++ List.replicate (dev.flash_size - content.length) 0) tr := by
      unfold verify_flash
      rw [Isp.bind_ok hf]
      simp only [db_flash_size, if_neg hnot]
    refine ⟨hw, hv, fun hack hs hfuel hlen => ?_⟩
    have hpos : dev.flash_size ≠ 0 := by
      have h64 : ALIGN content.length (2 ^ 6) =
          (content.length + 2 ^ 6 - 1) / 2 ^ 6 * 2 ^ 6 :=
        ALIGN_pow2 content.length 6 (by decide) (by omega)
      have h64b : ALIGN content.length 64 = (content.length + 63) / 64 * 64 := h64
      omega
    constructor
    · rw [hw, Isp.bind_ok (by
        rw [isp_flash_ack t hack fuel dev _ _ tr hs hfuel]
        exact progress_bar_pos _ _ _ hpos)]
      cases do_verify with
      | false => exact ⟨_, rfl⟩
      | true =>
        simp only [if_true]
        rw [isp_verify_ack t hack fuel dev _ _ _ hfuel]
        exact ⟨_, progress_bar_pos _ _ _ hpos⟩
    · rw [hv, isp_verify_ack t hack fuel dev _ _ _ hfuel]
      exact ⟨_, progress_bar_pos _ _ _ hpos⟩

/-- Witness for C10: scenario D, a file of 2048 bytes and a flash of 1024 bytes:
`write_flash` dies with an empty transfer history; a file of 1024 bytes is
written and verified. -/
theorem write_flash_size_check_witness :
    (ALIGN (List.replicate 2048 0xff).length 64 > scenario_dev.flash_size ∧
      ALIGN (List.replicate 1024 0xff).length 64 = scenario_dev.flash_size ∧
      (List.replicate 1024 0xff).length ≠ 0 ∧ acks_every_frame ack_device ∧
      scenario_dev.flash_sector_size ≠ 0 ∧ (scenario_dev.flash_size + 55) / 56 ≤ 19 ∧
      (List.replicate 1024 0xff).length + 63 < 2 ^ 64) ∧
    write_flash ack_device 19 true scenario_dev (some (List.replicate 2048 0xff)) [] =
      Res.die (Err.file_too_big 1024) [] ∧
    ∃ tr1, write_flash ack_device 19 true scenario_dev (some (List.replicate 1024 0xff)) [] =
      Res.ok () tr1 :=
  ⟨⟨by rw [List.length_replicate]; decide, by rw [List.length_replicate]; decide,
      by rw [List.length_replicate]; decide, ack_device_acks, by decide, by decide,
      by rw [List.length_replicate]; decide⟩,
   ((write_flash_size_check ack_device 19 true scenario_dev (List.replicate 2048 0xff) []).1
      (by rw [List.length_replicate]; decide)).1,
   (((write_flash_size_check ack_device 19 true scenario_dev (List.replicate 1024 0xff) []).2
      (by rw [List.length_replicate]; decide) (by rw [List.length_replicate]; decide)).2.2
      ack_device_acks (by decide) (by decide) (by rw [List.length_replicate]; decide)).1⟩

/-! ## Frames sent to an arbitrary device -/

theorem quiet_pure {α : Type} (a : α) : Quiet (pure a : Isp α) := fun _ => rfl

theorem quiet_die {α : Type} (e : Err) : Quiet (die e : Isp α) := fun _ => rfl

theorem quiet_undefined {α : Type} : Quiet (undefined_behaviour : Isp α) := fun _ => rfl

theorem quiet_bind {α β : Type} {m : Isp α} {f : α → Isp β} (hm : Quiet m)
    (hf : ∀ a, Quiet (f a)) : Quiet (m >>= f) := by
  intro tr
  have h1 := hm tr
  show sent (Isp.bind m f tr).trace = sent tr
  unfold Isp.bind
  cases hmt : m tr with
  | ok a tr1 =>
    rw [hmt] at h1
    show sent (f a tr1).trace = sent tr
    rw [hf a tr1]
    exact h1
  | die e tr1 => rw [hmt] at h1; exact h1
  | undef tr1 => rw [hmt] at h1; exact h1
  | nofuel tr1 => rw [hmt] at h1; exact h1

theorem quiet_read_local (written : List Nat) (i : Nat) : Quiet (read_local written i) := by
  unfold read_local
  cases written[i]? with
  | none => exact quiet_undefined
  | some b => exact quiet_pure b

theorem quiet_isp_recv_cmd (t : Transport) (cmd len : Nat) : Quiet (isp_recv_cmd t cmd len) := by
  intro tr
  unfold isp_recv_cmd
  split_ifs
  · rfl
  · simp only [Isp.bind_eq, Isp.bind, bulk_transfer_in]
    cases t.bulk_in tr (len % 65536 + 4) with
    | none =>
      show sent (tr ++ [Xfer.inp _ _]) = sent tr
      rw [sent_append]
      exact List.append_nil _
    | some buf =>
      simp only
      split_ifs <;>
      · show sent (tr ++ [Xfer.inp _ _]) = sent tr
        rw [sent_append]
        exact List.append_nil _

theorem quiet_progress_bar (current total : Nat) : Quiet (progress_bar current total) :=
  fun tr => by rw [progress_bar_trace]

theorem returns_pure {α : Type} (a : α) (P : α → Prop) (h : P a) : Returns (pure a : Isp α) P := by
  intro tr b tr1 hb
  have h1 : a = b := (Res.ok.inj hb).1
  rw [← h1]
  exact h

theorem returns_die {α : Type} (e : Err) (P : α → Prop) : Returns (die e : Isp α) P :=
  fun _ _ _ hb => Res.noConfusion hb

theorem returns_undefined {α : Type} (P : α → Prop) :
    Returns (undefined_behaviour : Isp α) P :=
  fun _ _ _ hb => Res.noConfusion hb

theorem returns_bind {α β : Type} {m : Isp α} {f : α → Isp β} {P : β → Prop}
    (hf : ∀ a, Returns (f a) P) : Returns (m >>= f) P := by
  intro tr b tr1 hb
  have hb1 : Isp.bind m f tr = Res.ok b tr1 := hb
  unfold Isp.bind at hb1
  cases hmt : m tr with
  | ok a tr2 =>
    rw [hmt] at hb1
    exact hf a tr2 b tr1 hb1
  | die e tr2 => rw [hmt] at hb1; exact Res.noConfusion hb1
  | undef tr2 => rw [hmt] at hb1; exact Res.noConfusion hb1
  | nofuel tr2 => rw [hmt] at hb1; exact Res.noConfusion hb1

theorem returns_read_local (written : List Nat) (i : Nat) (P : Nat → Prop) (h : ∀ b, P b) :
    Returns (read_local written i) P :=
  fun _ b _ _ => h b

theorem sends_one_bind {α β : Type} {m : Isp α} {f : α → Isp β} {x : List Nat}
    (hm : SendsOne m x) (hf : ∀ a, Quiet (f a)) : SendsOne (m >>= f) x := by
  intro tr
  have h1 := hm tr
  show sent (Isp.bind m f tr).trace = sent tr ++ [x]
  unfold Isp.bind
  cases hmt : m tr with
  | ok a tr1 =>
    rw [hmt] at h1
    show sent (f a tr1).trace = sent tr ++ [x]
    rw [hf a tr1]
    exact h1
  | die e tr1 => rw [hmt] at h1; exact h1
  | undef tr1 => rw [hmt] at h1; exact h1
  | nofuel tr1 => rw [hmt] at h1; exact h1

theorem sends_one_isp_send_cmd (t : Transport) (cmd len : Nat) (data : List Nat)
    (hlen : len + 3 ≤ 64) : SendsOne (isp_send_cmd t cmd len data) (send_buf cmd len data) := by
  intro tr
  rw [isp_send_cmd_trace t cmd len data tr hlen, sent_append]
  rfl

/-- One call of `cmd_program`, whatever the device does: the chunk frame is the
one frame handed over, and a returned length is `MIN(56, len)`. -/
theorem cmd_program_sends (t : Transport) (addr len : Nat) (data key : List Nat) :
    SendsOne (cmd_program t addr len data key) (chunk_frame CMD_PROGRAM addr len data key) ∧
    Returns (cmd_program t addr len data key) (fun v => v = min 56 len) := by
  constructor
  · unfold cmd_program
    refine sends_one_bind (sends_one_isp_send_cmd t _ _ _ (by omega)) (fun _ => ?_)
    refine quiet_bind (quiet_isp_recv_cmd _ _ _) (fun r => ?_)
    refine quiet_bind (quiet_read_local _ _) (fun r0 => ?_)
    refine quiet_bind (quiet_read_local _ _) (fun r1 => ?_)
    split_ifs
    · exact quiet_die _
    · exact quiet_pure _
  · unfold cmd_program
    refine returns_bind (fun _ => ?_)
    refine returns_bind (fun r => ?_)
    refine returns_bind (fun r0 => ?_)
    refine returns_bind (fun r1 => ?_)
    split_ifs
    · exact returns_die _ _
    · exact returns_pure _ _ rfl

/-- One call of `cmd_verify`, whatever the device does. -/
theorem cmd_verify_sends (t : Transport) (addr len : Nat) (data key : List Nat) :
    SendsOne (cmd_verify t addr len data key) (chunk_frame CMD_VERIFY addr len data key) ∧
    Returns (cmd_verify t addr len data key) (fun v => v = min 56 len) := by
  constructor
  · unfold cmd_verify
    refine sends_one_bind (sends_one_isp_send_cmd t _ _ _ (by omega)) (fun _ => ?_)
    refine quiet_bind (quiet_isp_recv_cmd _ _ _) (fun r => ?_)
    refine quiet_bind (quiet_read_local _ _) (fun r0 => ?_)
    refine quiet_bind (quiet_read_local _ _) (fun r1 => ?_)
    split_ifs
    · exact quiet_die _
    · exact quiet_pure _
  · unfold cmd_verify
    refine returns_bind (fun _ => ?_)
    refine returns_bind (fun r => ?_)
    refine returns_bind (fun r0 => ?_)
    refine returns_bind (fun r1 => ?_)
    split_ifs
    · exact returns_die _ _
    · exact returns_pure _ _ rfl

theorem cmd_erase_sends (t : Transport) (sectors : Nat) :
    SendsOne (cmd_erase t sectors) (send_buf CMD_ERASE 4 (erase_sec (sectors % 2 ^ 32))) := by
  unfold cmd_erase
  refine sends_one_bind (sends_one_isp_send_cmd t _ _ _ (by decide)) (fun _ => ?_)
  exact quiet_bind (quiet_isp_recv_cmd _ _ _) (fun _ => quiet_pure _)

theorem Isp.bind_not_ok {α β : Type} {m : Isp α} {f : α → Isp β} {tr : List Xfer}
    (h : ∀ a tr1, m tr ≠ Res.ok a tr1) :
    ((m >>= f) tr).trace = (m tr).trace ∧ ∀ b tr2, (m >>= f) tr ≠ Res.ok b tr2 := by
  show (Isp.bind m f tr).trace = (m tr).trace ∧ ∀ b tr2, Isp.bind m f tr ≠ Res.ok b tr2
  unfold Isp.bind
  cases hmt : m tr with
  | ok a tr1 => exact absurd hmt (h a tr1)
  | die e tr1 => exact ⟨rfl, fun _ _ hb => Res.noConfusion hb⟩
  | undef tr1 => exact ⟨rfl, fun _ _ hb => Res.noConfusion hb⟩
  | nofuel tr1 => exact ⟨rfl, fun _ _ hb => Res.noConfusion hb⟩

theorem Res.ok_or_not {α : Type} (r : Res α) :
    (∃ a tr1, r = Res.ok a tr1) ∨ ∀ a tr1, r ≠ Res.ok a tr1 := by
  cases r with
  | ok a tr1 => exact Or.inl ⟨a, tr1, rfl⟩
  | die e tr1 => exact Or.inr (fun _ _ h => Res.noConfusion h)
  | undef tr1 => exact Or.inr (fun _ _ h => Res.noConfusion h)
  | nofuel tr1 => exact Or.inr (fun _ _ h => Res.noConfusion h)

theorem chunk_frames_done (cmd : Nat) (key data : List Nat) (size off : Nat) (h : size ≤ off) :
    chunk_frames cmd key data size off = [] := by
  unfold chunk_frames
  have h0 : (size - off + 55) / 56 = 0 := by omega
  rw [h0]
  rfl

theorem chunk_frames_step (cmd : Nat) (key data : List Nat) (size off : Nat) (h : off < size) :
    chunk_frames cmd key data size off =
      chunk_frame cmd off (size - off) (data.drop off) key ::
        chunk_frames cmd key data size (off + min 56 (size - off)) := by
  obtain ⟨m, hm⟩ : ∃ m, (size - off + 55) / 56 = m + 1 :=
    ⟨(size - off + 55) / 56 - 1, by omega⟩
  by_cases hle : size - off ≤ 56
  · have hmin : min 56 (size - off) = size - off := by omega
    have hm0 : m = 0 := by omega
    rw [hmin, chunk_frames_done cmd key data size (off + (size - off)) (by omega)]
    unfold chunk_frames
    rw [hm, hm0]
    simp [List.range_succ]
  · have hmin : min 56 (size - off) = 56 := by omega
    have hm1 : (size - (off + 56) + 55) / 56 = m := by omega
    rw [hmin]
    unfold chunk_frames
    rw [hm, hm1, List.range_succ_eq_map, List.map_cons, List.map_map]
    have hs : ((fun k => chunk_frame cmd (off + 56 * k) (size - off - 56 * k)
          (data.drop (off + 56 * k)) key) ∘ Nat.succ) =
        (fun k => chunk_frame cmd (off + 56 + 56 * k) (size - (off + 56) - 56 * k)
          (data.drop (off + 56 + 56 * k)) key) := by
      funext k
      have h1 : off + 56 * (k + 1) = off + 56 + 56 * k := by omega
      have h2 : size - off - 56 * (k + 1) = size - (off + 56) - 56 * k := by omega
      simp only [Function.comp_apply, Nat.succ_eq_add_one]
      rw [h1, h2]
    rw [hs]
    simp

/-- The loop of `isp_flash` against an arbitrary device: the frames it hands over
are the first chunk frames of the pass, in order, and all of them when the loop
returns, which it does with `off = size`. -/
theorem isp_flash_loop_sent (t : Transport) (key data : List Nat) (size : Nat) :
    ∀ (fuel off : Nat) (tr : List Xfer), off ≤ size →
      ∃ l rest, l ++ rest = chunk_frames CMD_PROGRAM key data size off ∧
        sent (isp_flash_loop t key data size fuel off (size - off) tr).trace = sent tr ++ l ∧
        ∀ o r tr2, isp_flash_loop t key data size fuel off (size - off) tr = Res.ok (o, r) tr2 →
          rest = [] ∧ o = size := by
  intro fuel
  induction fuel with
  | zero =>
    intro off tr hoff
    refine ⟨[], _, List.nil_append _, ?_, ?_⟩
    · unfold isp_flash_loop
      split_ifs
      · exact (List.append_nil _).symm
      · exact (List.append_nil _).symm
    · intro o r tr2 h
      unfold isp_flash_loop at h
      split_ifs at h with hlt
      · exact Res.noConfusion h
      · have ho : off = o := congrArg Prod.fst (Res.ok.inj h).1
        exact ⟨chunk_frames_done _ _ _ _ _ (by omega), by omega⟩
  | succ fuel ih =>
    intro off tr hoff
    by_cases hlt : off < size
    · have hstep := chunk_frames_step CMD_PROGRAM key data size off hlt
      have hunf : isp_flash_loop t key data size (fuel + 1) off (size - off) tr =
          (cmd_program t off (size - off) (data.drop off) key >>= fun len =>
            isp_flash_loop t key data size fuel (off + len) (size - off - len)) tr := by
        rw [isp_flash_loop, if_pos hlt]
        exact Isp.bind_ok (progress_bar_pos off size tr (by omega))
      have hsend := (cmd_program_sends t off (size - off) (data.drop off) key).1 tr
      rcases Res.ok_or_not (cmd_program t off (size - off) (data.drop off) key tr) with
        ⟨v, tr1, hc⟩ | hc
      · have hv : v = min 56 (size - off) :=
          (cmd_program_sends t off (size - off) (data.drop off) key).2 tr v tr1 hc
        have hrem : size - off - v = size - (off + v) := by omega
        rw [hc] at hsend
        obtain ⟨l1, rest1, hl1, hs1, hok1⟩ := ih (off + v) tr1 (by omega)
        rw [hunf, Isp.bind_ok hc, hrem]
        refine ⟨chunk_frame CMD_PROGRAM off (size - off) (data.drop off) key :: l1, rest1,
          ?_, ?_, hok1⟩
        · rw [hstep, ← hv, ← hl1]
          rfl
        · rw [hs1]
          have hs2 : sent tr1 =
              sent tr ++ [chunk_frame CMD_PROGRAM off (size - off) (data.drop off) key] := hsend
          rw [hs2]
          simp
      · obtain ⟨htr, hnok⟩ := Isp.bind_not_ok
          (f := fun len => isp_flash_loop t key data size fuel (off + len) (size - off - len)) hc
        rw [hunf]
        refine ⟨[chunk_frame CMD_PROGRAM off (size - off) (data.drop off) key],
          chunk_frames CMD_PROGRAM key data size (off + min 56 (size - off)), ?_, ?_, ?_⟩
        · rw [hstep]
          rfl
        · rw [htr]
          exact hsend
        · intro o r tr2 h
          exact absurd h (hnok _ _)
    · refine ⟨[], _, List.nil_append _, ?_, ?_⟩
      · rw [isp_flash_loop, if_neg hlt]
        exact (List.append_nil _).symm
      · intro o r tr2 h
        rw [isp_flash_loop, if_neg hlt] at h
        have ho : off = o := congrArg Prod.fst (Res.ok.inj h).1
        exact ⟨chunk_frames_done _ _ _ _ _ (by omega), by omega⟩

/-- The loop of `isp_verify` against an arbitrary device: the frames it hands over
are the first chunk frames of the pass, in order, and all of them when the loop
returns, which it does with `off = size`. -/
theorem isp_verify_loop_sent (t : Transport) (key data : List Nat) (size : Nat) :
    ∀ (fuel off : Nat) (tr : List Xfer), off ≤ size →
      ∃ l rest, l ++ rest = chunk_frames CMD_VERIFY key data size off ∧
        sent (isp_verify_loop t key data size fuel off (size - off) tr).trace = sent tr ++ l ∧
        ∀ o r tr2, isp_verify_loop t key data size fuel off (size - off) tr = Res.ok (o, r) tr2 →
          rest = [] ∧ o = size := by
  intro fuel
  induction fuel with
  | zero =>
    intro off tr hoff
    refine ⟨[], _, List.nil_append _, ?_, ?_⟩
    · unfold isp_verify_loop
      split_ifs
      · exact (List.append_nil _).symm
      · exact (List.append_nil _).symm
    · intro o r tr2 h
      unfold isp_verify_loop at h
      split_ifs at h with hlt
      · exact Res.noConfusion h
      · have ho : off = o := congrArg Prod.fst (Res.ok.inj h).1
        exact ⟨chunk_frames_done _ _ _ _ _ (by omega), by omega⟩
  | succ fuel ih =>
    intro off tr hoff
    by_cases hlt : off < size
    · have hstep := chunk_frames_step CMD_VERIFY key data size off hlt
      have hunf : isp_verify_loop t key data size (fuel + 1) off (size - off) tr =
          (cmd_verify t off (size - off) (data.drop off) key >>= fun len =>
            isp_verify_loop t key data size fuel (off + len) (size - off - len)) tr := by
        rw [isp_verify_loop, if_pos hlt]
        exact Isp.bind_ok (progress_bar_pos off size tr (by omega))
      have hsend := (cmd_verify_sends t off (size - off) (data.drop off) key).1 tr
      rcases Res.ok_or_not (cmd_verify t off (size - off) (data.drop off) key tr) with
        ⟨v, tr1, hc⟩ | hc
      · have hv : v = min 56 (size - off) :=
          (cmd_verify_sends t off (size - off) (data.drop off) key).2 tr v tr1 hc
        have hrem : size - off - v = size - (off + v) := by omega
        rw [hc] at hsend
        obtain ⟨l1, rest1, hl1, hs1, hok1⟩ := ih (off + v) tr1 (by omega)
        rw [hunf, Isp.bind_ok hc, hrem]
        refine ⟨chunk_frame CMD_VERIFY off (size - off) (data.drop off) key :: l1, rest1,
          ?_, ?_, hok1⟩
        · rw [hstep, ← hv, ← hl1]
          rfl
        · rw [hs1]
          have hs2 : sent tr1 =
              sent tr ++ [chunk_frame CMD_VERIFY off (size - off) (data.drop off) key] := hsend
          rw [hs2]
          simp
      · obtain ⟨htr, hnok⟩ := Isp.bind_not_ok
          (f := fun len => isp_verify_loop t key data size fuel (off + len) (size - off - len)) hc
        rw [hunf]
        refine ⟨[chunk_frame CMD_VERIFY off (size - off) (data.drop off) key],
          chunk_frames CMD_VERIFY key data size (off + min 56 (size - off)), ?_, ?_, ?_⟩
        · rw [hstep]
          rfl
        · rw [htr]
          exact hsend
        · intro o r tr2 h
          exact absurd h (hnok _ _)
    · refine ⟨[], _, List.nil_append _, ?_, ?_⟩
      · rw [isp_verify_loop, if_neg hlt]
        exact (List.append_nil _).symm
      · intro o r tr2 h
        rw [isp_verify_loop, if_neg hlt] at h
        have ho : off = o := congrArg Prod.fst (Res.ok.inj h).1
        exact ⟨chunk_frames_done _ _ _ _ _ (by omega), by omega⟩

/-- The frames `isp_flash` hands over to an arbitrary device: the first frames, in
order, of the erase frame, the chunk frames of the image and the closing program
frame at offset `N`. -/
theorem isp_flash_sent_any (t : Transport) (fuel : Nat) (dev : isp_dev) (N : Nat)
    (data : List Nat) (tr : List Xfer) :
    ∃ l rest,
      l ++ rest = send_buf CMD_ERASE 4 (erase_sec (nr_sectors N dev.flash_sector_size)) ::
        (chunk_frames CMD_PROGRAM dev.xor_key data N 0
          ++ [chunk_frame CMD_PROGRAM N 0 [] dev.xor_key]) ∧
      sent (isp_flash t fuel dev N data tr).trace = sent tr ++ l := by
  by_cases hs : dev.flash_sector_size = 0
  · refine ⟨[], _, List.nil_append _, ?_⟩
    unfold isp_flash
    simp only [db_flash_sector_size, if_pos hs]
    exact (List.append_nil _).symm
  · have hm : nr_sectors N dev.flash_sector_size % 2 ^ 32 =
        nr_sectors N dev.flash_sector_size := by
      unfold nr_sectors
      exact Nat.mod_mod _ _
    have he := cmd_erase_sends t (nr_sectors N dev.flash_sector_size) tr
    rw [hm] at he
    have hunf : isp_flash t fuel dev N data tr =
        (cmd_erase t (nr_sectors N dev.flash_sector_size) >>= fun _ =>
          isp_flash_loop t dev.xor_key data N fuel 0 N >>= fun r =>
            cmd_program t r.1 0 [] dev.xor_key >>= fun _ => progress_bar N N) tr := by
      unfold isp_flash
      simp only [db_flash_sector_size, if_neg hs]
    rw [hunf]
    rcases Res.ok_or_not (cmd_erase t (nr_sectors N dev.flash_sector_size) tr) with
      ⟨u, tr1, hc⟩ | hc
    · rw [hc] at he
      have he1 : sent tr1 =
          sent tr ++ [send_buf CMD_ERASE 4 (erase_sec (nr_sectors N dev.flash_sector_size))] := he
      rw [Isp.bind_ok hc]
      obtain ⟨l1, rest1, hl1, hs1, hok1⟩ := isp_flash_loop_sent t dev.xor_key data N fuel 0 tr1
        (Nat.zero_le N)
      rw [Nat.sub_zero] at hs1 hok1
      rcases Res.ok_or_not (isp_flash_loop t dev.xor_key data N fuel 0 N tr1) with
        ⟨⟨o, r⟩, tr2, hl⟩ | hl
      · obtain ⟨hr1, ho⟩ := hok1 o r tr2 hl
        rw [hl] at hs1
        have hs2 : sent tr2 = sent tr1 ++ l1 := hs1
        rw [Isp.bind_ok hl]
        have hfin : SendsOne (cmd_program t N 0 [] dev.xor_key >>= fun _ => progress_bar N N)
            (chunk_frame CMD_PROGRAM N 0 [] dev.xor_key) :=
          sends_one_bind (cmd_program_sends t N 0 [] dev.xor_key).1
            (fun _ => quiet_progress_bar N N)
        refine ⟨send_buf CMD_ERASE 4 (erase_sec (nr_sectors N dev.flash_sector_size)) ::
          (l1 ++ [chunk_frame CMD_PROGRAM N 0 [] dev.xor_key]), [], ?_, ?_⟩
        · rw [← hl1, hr1]
          simp
        · show sent ((cmd_program t o 0 [] dev.xor_key >>= fun _ => progress_bar N N) tr2).trace
            = _
          rw [ho, hfin tr2, hs2, he1]
          simp
      · obtain ⟨htr, _⟩ := Isp.bind_not_ok
          (f := fun r : Nat × Nat =>
            cmd_program t r.1 0 [] dev.xor_key >>= fun _ => progress_bar N N) hl
        refine ⟨send_buf CMD_ERASE 4 (erase_sec (nr_sectors N dev.flash_sector_size)) :: l1,
          rest1 ++ [chunk_frame CMD_PROGRAM N 0 [] dev.xor_key], ?_, ?_⟩
        · rw [← hl1]
          simp
        · rw [htr, hs1, he1]
          simp
    · obtain ⟨htr, _⟩ := Isp.bind_not_ok
        (f := fun _ : Unit =>
          isp_flash_loop t dev.xor_key data N fuel 0 N >>= fun r =>
            cmd_program t r.1 0 [] dev.xor_key >>= fun _ => progress_bar N N) hc
      refine ⟨[send_buf CMD_ERASE 4 (erase_sec (nr_sectors N dev.flash_sector_size))], _,
        rfl, ?_⟩
      rw [htr]
      exact he

/-- The frames `isp_verify` hands over to an arbitrary device: the first chunk
frames of the image, in order. -/
theorem isp_verify_sent_any (t : Transport) (fuel : Nat) (dev : isp_dev) (N : Nat)
    (data : List Nat) (tr : List Xfer) :
    ∃ l rest,
      l ++ rest = chunk_frames CMD_VERIFY dev.xor_key data N 0 ∧
      sent (isp_verify t fuel dev N data tr).trace = sent tr ++ l := by
  obtain ⟨l1, rest1, hl1, hs1, _⟩ := isp_verify_loop_sent t dev.xor_key data N fuel 0 tr
    (Nat.zero_le N)
  rw [Nat.sub_zero] at hs1
  refine ⟨l1, rest1, hl1, ?_⟩
  have hunf : isp_verify t fuel dev N data tr =
      (isp_verify_loop t dev.xor_key data N fuel 0 N >>= fun _ => progress_bar N N) tr := rfl
  rw [hunf]
  rcases Res.ok_or_not (isp_verify_loop t dev.xor_key data N fuel 0 N tr) with
    ⟨r, tr2, hl⟩ | hl
  · rw [Isp.bind_ok hl, quiet_progress_bar N N tr2]
    rw [hl] at hs1
    exact hs1
  · obtain ⟨htr, _⟩ := Isp.bind_not_ok (f := fun _ : Nat × Nat => progress_bar N N) hl
    rw [htr]
    exact hs1

theorem chunk_frames_byte (cmd : Nat) (key data : List Nat) (N : Nat) (hN : N < 2 ^ 32)
    (hdata : ∀ b ∈ data, b < 256) (hkey : ∀ b ∈ key, b < 256) (f : List Nat)
    (hf : f ∈ chunk_frames cmd key data N 0) (i : Nat) (hi : i < (frame_data f).length) :
    (frame_data f).getD i 0 =
      data.getD (frame_addr f + i) 0 ^^^ key.getD ((frame_addr f + i) % 8) 0 := by
  unfold chunk_frames at hf
  obtain ⟨k, hk, rfl⟩ := List.mem_map.mp hf
  have hk1 : k < (N - 0 + 55) / 56 := List.mem_range.mp hk
  simp only [Nat.zero_add, Nat.sub_zero] at hk1 hi ⊢
  exact chunk_frame_byte _ _ _ _ _ (by omega) (by omega) hdata hkey i hi

theorem chunk_frames_length (cmd : Nat) (key data : List Nat) (N : Nat) :
    (chunk_frames cmd key data N 0).length = (N + 55) / 56 := by
  simp [chunk_frames]

theorem chunk_frames_zero (cmd : Nat) (key data : List Nat) (N : Nat) :
    chunk_frames cmd key data N 0 =
      (List.range ((N + 55) / 56)).map (fun k =>
        chunk_frame cmd (56 * k) (N - 56 * k) (data.drop (56 * k)) key) := by
  simp [chunk_frames]

/-- C2: data byte `i` of every frame that `isp_flash` or `isp_verify` hands
over, whatever the device does (payload position `5 + i`; the erase frame has no
such byte), is `image[o + i] XOR key[(o + i) mod 8]`, `o` being the image offset
in the frame's address field.  Against a device that acknowledges every frame
these are the erase frame, the `ceil(N / 56)` chunks and the closing program
frame for `isp_flash`, and the `ceil(N / 56)` chunks for `isp_verify`. -/
theorem chunk_payload_absolute_key_index (t : Transport) (fuel : Nat) (dev : isp_dev)
    (N : Nat) (data : List Nat) (tr : List Xfer) (hN : N < 2 ^ 32)
    (hdata : ∀ b ∈ data, b < 256) (hkey : ∀ b ∈ dev.xor_key, b < 256) :
    (∃ frames : List (List Nat),
      sent (isp_flash t fuel dev N data tr).trace = sent tr ++ frames ∧
      (∀ f ∈ frames, ∀ i, i < (frame_data f).length →
        (frame_data f).getD i 0 =
          data.getD (frame_addr f + i) 0 ^^^ dev.xor_key.getD ((frame_addr f + i) % 8) 0) ∧
      (acks_every_frame t → dev.flash_sector_size ≠ 0 → (N + 55) / 56 ≤ fuel →
        frames.length = (N + 55) / 56 + 2)) ∧
    (∃ frames : List (List Nat),
      sent (isp_verify t fuel dev N data tr).trace = sent tr ++ frames ∧
      (∀ f ∈ frames, ∀ i, i < (frame_data f).length →
        (frame_data f).getD i 0 =
          data.getD (frame_addr f + i) 0 ^^^ dev.xor_key.getD ((frame_addr f + i) % 8) 0) ∧
      (acks_every_frame t → (N + 55) / 56 ≤ fuel → frames.length = (N + 55) / 56)) := by
  constructor
  · obtain ⟨l, rest, hl, hs⟩ := isp_flash_sent_any t fuel dev N data tr
    refine ⟨l, hs, ?_, ?_⟩
    · intro f hf i hi
      have hmem : f ∈ l ++ rest := List.mem_append_left rest hf
      rw [hl] at hmem
      rcases List.mem_cons.mp hmem with h | h
      · rw [h, erase_frame_eq] at hi
        exact absurd hi (Nat.not_lt_zero i)
      · rcases List.mem_append.mp h with h1 | h1
        · exact chunk_frames_byte _ _ _ _ hN hdata hkey f h1 i hi
        · rw [List.mem_singleton.mp h1, chunk_frame_data] at hi
          exact absurd hi (Nat.not_lt_zero i)
    · intro hack hsec hfuel
      have h1 := isp_flash_sent t hack fuel dev N data tr hsec hfuel
      rw [hs] at h1
      rw [List.append_cancel_left h1]
      simp
  · obtain ⟨l, rest, hl, hs⟩ := isp_verify_sent_any t fuel dev N data tr
    refine ⟨l, hs, ?_, ?_⟩
    · intro f hf i hi
      have hmem : f ∈ l ++ rest := List.mem_append_left rest hf
      rw [hl] at hmem
      exact chunk_frames_byte _ _ _ _ hN hdata hkey f hmem i hi
    · intro hack hfuel
      have h1 := isp_verify_sent t hack fuel dev N data tr hfuel
      rw [hs] at h1
      rw [List.append_cancel_left h1]
      simp

/-- Witness for C2: the 130-byte image of scenario B and the key
`[1, 2, 3, 4, 5, 6, 7, 8]`. -/
theorem chunk_payload_absolute_key_index_witness :
    (130 < 2 ^ 32 ∧ (∀ b ∈ scenario_image, b < 256) ∧
      ∀ b ∈ ({ scenario_dev with xor_key := [1, 2, 3, 4, 5, 6, 7, 8] } : isp_dev).xor_key,
        b < 256) ∧
    ∃ frames : List (List Nat),
      sent (isp_verify ack_device 3 { scenario_dev with xor_key := [1, 2, 3, 4, 5, 6, 7, 8] }
        130 scenario_image []).trace = sent [] ++ frames ∧
      ∀ f ∈ frames, ∀ i, i < (frame_data f).length →
        (frame_data f).getD i 0 =
          scenario_image.getD (frame_addr f + i) 0 ^^^
            ({ scenario_dev with xor_key := [1, 2, 3, 4, 5, 6, 7, 8] } : isp_dev).xor_key.getD
              ((frame_addr f + i) % 8) 0 := by
  refine ⟨⟨by decide, fun _ hb => lt_trans (List.mem_range.mp hb) (by decide), by decide⟩, ?_⟩
  obtain ⟨frames, h1, h2, _⟩ :=
    (chunk_payload_absolute_key_index ack_device 3
      { scenario_dev with xor_key := [1, 2, 3, 4, 5, 6, 7, 8] } 130 scenario_image []
      (by decide) (fun _ hb => lt_trans (List.mem_range.mp hb) (by decide)) (by decide)).2
  exact ⟨frames, h1, h2⟩

/-! ## Length checks of the framer -/

theorem isp_send_cmd_too_long (t : Transport) (cmd len : Nat) (data : List Nat) (tr : List Xfer)
    (hlen : len < 65536) (hbig : len + 3 > 64) :
    isp_send_cmd t cmd len data tr = Res.die (Err.send_invalid_argument len) tr := by
  unfold isp_send_cmd
  simp only [Nat.mod_eq_of_lt hlen, if_pos hbig]
  rfl

theorem append_singleton_ne {α : Type} (l : List α) (x : α) : l ++ [x] ≠ l := by
  intro h
  have h1 := congrArg List.length h
  simp at h1

/-- C13: for a 16-bit payload length `len`, `isp_send_cmd` dies with the transfer
history untouched (the transport is not called) if and only if `len + 3 > 64`;
it then reports the invalid length.  For `len + 3 ≤ 64`, in particular for every
payload of 0..60 bytes, the frame is handed to the transport, and the function
returns whenever the transfer succeeds. -/
theorem isp_send_cmd_length_check (t : Transport) (cmd len : Nat) (data : List Nat)
    (tr : List Xfer) (hlen : len < 65536) :
    ((∃ e, isp_send_cmd t cmd len data tr = Res.die e tr) ↔ len + 3 > 64) ∧
    (len + 3 > 64 →
      isp_send_cmd t cmd len data tr = Res.die (Err.send_invalid_argument len) tr) ∧
    (len ≤ 60 →
      (isp_send_cmd t cmd len data tr).trace = tr ++ [Xfer.out (send_buf cmd len data)] ∧
      ∀ got, t.bulk_out tr (send_buf cmd len data) = some got →
        isp_send_cmd t cmd len data tr =
          Res.ok got (tr ++ [Xfer.out (send_buf cmd len data)])) := by
  refine ⟨⟨?_, ?_⟩, isp_send_cmd_too_long t cmd len data tr hlen, ?_⟩
  · rintro ⟨e, he⟩
    by_contra hle
    have htr := isp_send_cmd_trace t cmd len data tr (by omega)
    rw [he] at htr
    exact append_singleton_ne tr _ htr.symm
  · intro hbig
    exact ⟨_, isp_send_cmd_too_long t cmd len data tr hlen hbig⟩
  · intro h60
    refine ⟨isp_send_cmd_trace t cmd len data tr (by omega), fun got hgot => ?_⟩
    rw [isp_send_cmd_run t cmd len data tr (by omega), hgot]

/-- Witness for C13: a payload of 62 bytes is refused before any transfer. -/
theorem isp_send_cmd_length_check_witness :
    62 < 65536 ∧
    isp_send_cmd ack_device CMD_PROGRAM 62 (List.replicate 62 0) [] =
      Res.die (Err.send_invalid_argument 62) [] :=
  ⟨by decide,
   (isp_send_cmd_length_check ack_device CMD_PROGRAM 62 (List.replicate 62 0) []
      (by decide)).2.1 (by decide)⟩

theorem isp_recv_cmd_ok_inv (t : Transport) (cmd len : Nat) (tr tr1 : List Xfer)
    (rx bytes : List Nat) (got : Nat) (hlen : len + 4 ≤ 64)
    (hrx : t.bulk_in tr (len + 4) = some rx)
    (hok : isp_recv_cmd t cmd len tr = Res.ok (got, bytes) tr1) :
    4 ≤ rx.length ∧ (rx.getD 2 0 ||| (rx.getD 3 0 <<< 8)) % 65536 = rx.length - 4 ∧
    got = rx.length - 4 ∧ bytes = (rx.drop 4).take (min len (rx.length - 4)) := by
  rw [isp_recv_cmd_run t cmd len tr hlen, hrx] at hok
  simp only at hok
  split_ifs at hok with h1 h2 h3 h4
  have hp := (Res.ok.inj hok).1
  have hg : rx.length - 4 = got := congrArg Prod.fst hp
  have hb : (rx.drop 4).take (min len (rx.length - 4)) = bytes := congrArg Prod.snd hp
  exact ⟨by omega, not_not.mp h4, hg.symm, hb.symm⟩

/-- C14: when `isp_recv_cmd` returns for a requested length `len` (`len + 4 ≤
64`) on the received bytes `rx`, whose header declares the length `h` (bytes
2..3, little-endian), the bytes copied to the caller are exactly the first
`min len h` payload bytes; and if the transport delivered at most the `len + 4`
bytes asked for, the returned count is at most `min len h`. -/
theorem isp_recv_cmd_delivers_min (t : Transport) (cmd len : Nat) (tr tr1 : List Xfer)
    (rx bytes : List Nat) (got : Nat) (hlen : len + 4 ≤ 64)
    (hrx : t.bulk_in tr (len + 4) = some rx) (hbytes : ∀ b ∈ rx, b < 256)
    (hok : isp_recv_cmd t cmd len tr = Res.ok (got, bytes) tr1) :
    bytes = (rx.drop 4).take (min len (rx.getD 2 0 + 256 * rx.getD 3 0)) ∧
    bytes.length = min len (rx.getD 2 0 + 256 * rx.getD 3 0) ∧
    (∀ i, i < min len (rx.getD 2 0 + 256 * rx.getD 3 0) → bytes.getD i 0 = rx.getD (4 + i) 0) ∧
    got = rx.getD 2 0 + 256 * rx.getD 3 0 ∧
    (rx.length ≤ len + 4 → got ≤ min len (rx.getD 2 0 + 256 * rx.getD 3 0)) := by
  obtain ⟨h4, hh, hg, hb⟩ := isp_recv_cmd_ok_inv t cmd len tr tr1 rx bytes got hlen hrx hok
  rw [hdrlen_eq rx hbytes] at hh
  rw [hh]
  have hl : bytes.length = min len (rx.length - 4) := by
    rw [hb, List.length_take, List.length_drop]
    omega
  refine ⟨hb, hl, ?_, hg, fun hle => by omega⟩
  intro i hi
  rw [hb, List.getD_eq_getElem?_getD, List.getD_eq_getElem?_getD, List.getElem?_take_of_lt hi,
    List.getElem?_drop]

/-- Witness for C14: the acknowledgement `a4 00 02 00 00 00` of an erase frame,
received with a requested length of 2. -/
theorem isp_recv_cmd_delivers_min_witness :
    (2 + 4 ≤ 64 ∧
      ack_device.bulk_in [Xfer.out [0xa4, 4, 0, 1, 0, 0, 0]] (2 + 4) = some [0xa4, 0, 2, 0, 0, 0] ∧
      (∀ b ∈ [0xa4, 0, 2, 0, 0, 0], b < 256) ∧
      isp_recv_cmd ack_device 0xa4 2 [Xfer.out [0xa4, 4, 0, 1, 0, 0, 0]] =
        Res.ok (2, [0, 0])
          [Xfer.out [0xa4, 4, 0, 1, 0, 0, 0], Xfer.inp 6 (some [0xa4, 0, 2, 0, 0, 0])]) ∧
    [0, 0] = ([0xa4, 0, 2, 0, 0, 0].drop 4).take (min 2 2) :=
  ⟨⟨by decide, rfl, by decide, by decide⟩,
   (isp_recv_cmd_delivers_min ack_device 0xa4 2 [Xfer.out [0xa4, 4, 0, 1, 0, 0, 0]]
      [Xfer.out [0xa4, 4, 0, 1, 0, 0, 0], Xfer.inp 6 (some [0xa4, 0, 2, 0, 0, 0])]
      [0xa4, 0, 2, 0, 0, 0] [0, 0] 2 (by decide) rfl (by decide) (by decide)).1⟩

/-! ## Config reads, returned bytes -/

/-- C16: when the request for the mask `cfgmask` went out and the reply is well
formed with `r ≥ 2` payload bytes `p` that echo the mask, `cmd_read_conf` called
with `max_len` returns the length `min (r - 2) max_len`; the bytes it hands to
the caller are the reply payload bytes from position 2 on, in order, that many
of them (the reply fitting the 64 bytes asked for, `r ≤ 60`). -/
theorem cmd_read_conf_returns (t : Transport) (cfgmask max_len : Nat) (tr : List Xfer)
    (g lo hi : Nat) (p : List Nat) (hmask : cfgmask < 65536)
    (hout : t.bulk_out tr (send_buf CMD_READ_CONFIG 2
      [(cfgmask >>> 0) &&& 0xff, (cfgmask >>> 8) &&& 0xff]) = some g)
    (hlo : lo < 256) (hhi : hi < 256) (hp : lo + 256 * hi = p.length)
    (hbytes : ∀ b ∈ p, b < 256)
    (hin : t.bulk_in (tr ++ [Xfer.out (send_buf CMD_READ_CONFIG 2
      [(cfgmask >>> 0) &&& 0xff, (cfgmask >>> 8) &&& 0xff])]) 64 =
        some (CMD_READ_CONFIG :: 0 :: lo :: hi :: p))
    (hr : 2 ≤ p.length) (hecho : p.getD 0 0 + 256 * p.getD 1 0 = cfgmask) :
    ∃ n bytes tr1, cmd_read_conf t cfgmask max_len tr = Res.ok (n, bytes) tr1 ∧
      n = min (p.length - 2) max_len ∧
      (p.length ≤ 60 →
        bytes = (p.drop 2).take (min (p.length - 2) max_len) ∧
        bytes.length = min (p.length - 2) max_len ∧
        ∀ i, i < min (p.length - 2) max_len → bytes.getD i 0 = p.getD (2 + i) 0) := by
  have hrun := cmd_read_conf_run t cfgmask max_len tr g lo hi p hmask hout hlo hhi hp hbytes hin
  rw [if_neg (by omega), if_neg (not_not.mpr hecho.symm)] at hrun
  refine ⟨_, _, _, hrun, rfl, fun h60 => ?_⟩
  have hmin : min 60 p.length = p.length := by omega
  have hb : ((p.take (min 60 p.length)).drop 2).take (min (p.length - 2) max_len) =
      (p.drop 2).take (min (p.length - 2) max_len) := by
    rw [hmin, List.take_length]
  rw [hb]
  refine ⟨rfl, ?_, ?_⟩
  · rw [List.length_take, List.length_drop]
    omega
  · intro i hi
    rw [List.getD_eq_getElem?_getD, List.getD_eq_getElem?_getD, List.getElem?_take_of_lt hi,
      List.getElem?_drop]

/-- Witness for C16: the device of scenario C asked for the bootloader version
(mask `0x08`, 4 bytes): the four bytes `00 02 07 00` come back. -/
theorem cmd_read_conf_returns_witness :
    (0x08 < 65536 ∧
      btver_device.bulk_out [] (send_buf CMD_READ_CONFIG 2
        [(0x08 >>> 0) &&& 0xff, (0x08 >>> 8) &&& 0xff]) = some 5 ∧
      6 < 256 ∧ 0 < 256 ∧ 6 + 256 * 0 = [0x08, 0x00, 0x00, 0x02, 0x07, 0x00].length ∧
      (∀ b ∈ [0x08, 0x00, 0x00, 0x02, 0x07, 0x00], b < 256) ∧
      btver_device.bulk_in ([] ++ [Xfer.out (send_buf CMD_READ_CONFIG 2
        [(0x08 >>> 0) &&& 0xff, (0x08 >>> 8) &&& 0xff])]) 64 =
          some (CMD_READ_CONFIG :: 0 :: 6 :: 0 :: [0x08, 0x00, 0x00, 0x02, 0x07, 0x00]) ∧
      2 ≤ [0x08, 0x00, 0x00, 0x02, 0x07, 0x00].length ∧
      [0x08, 0x00, 0x00, 0x02, 0x07, 0x00].getD 0 0 +
        256 * [0x08, 0x00, 0x00, 0x02, 0x07, 0x00].getD 1 0 = 0x08) ∧
    ∃ tr1, cmd_read_conf btver_device 0x08 4 [] = Res.ok (4, [0x00, 0x02, 0x07, 0x00]) tr1 := by
  refine ⟨⟨by decide, rfl, by decide, by decide, rfl, by decide, rfl, by decide, rfl⟩, ?_⟩
  obtain ⟨n, bytes, tr1, h, hn, hb⟩ :=
    cmd_read_conf_returns btver_device 0x08 4 [] 5 6 0 [0x08, 0x00, 0x00, 0x02, 0x07, 0x00]
      (by decide) rfl (by decide) (by decide) rfl (by decide) rfl (by decide) rfl
  have hb1 := (hb (by decide)).1
  rw [hn, hb1] at h
  exact ⟨tr1, h⟩

/-! ## Identify and bootloader version -/

theorem read_btver_run (t : Transport) (tr : List Xfer) (g major minor : Nat)
    (hout : t.bulk_out tr (send_buf CMD_READ_CONFIG 2
      [(CFG_MASK_BTVER >>> 0) &&& 0xff, (CFG_MASK_BTVER >>> 8) &&& 0xff]) = some g)
    (hmajor : major < 256) (hminor : minor < 256)
    (hin : t.bulk_in (tr ++ [Xfer.out (send_buf CMD_READ_CONFIG 2
      [(CFG_MASK_BTVER >>> 0) &&& 0xff, (CFG_MASK_BTVER >>> 8) &&& 0xff])]) 64 =
        some (CMD_READ_CONFIG :: 0 :: 6 :: 0 :: [0x08, 0x00, 0x00, major, minor, 0x00])) :
    read_btver t tr =
      Res.ok (major * 256 + minor)
        (tr ++ [Xfer.out (send_buf CMD_READ_CONFIG 2
            [(CFG_MASK_BTVER >>> 0) &&& 0xff, (CFG_MASK_BTVER >>> 8) &&& 0xff]),
          Xfer.inp 64 (some (CMD_READ_CONFIG :: 0 :: 6 :: 0 ::
            [0x08, 0x00, 0x00, major, minor, 0x00]))]) := by
  have hbytes : ∀ b ∈ [0x08, 0x00, 0x00, major, minor, 0x00], b < 256 := by
    intro b hb
    simp only [List.mem_cons, List.mem_singleton, List.not_mem_nil, or_false] at hb
    rcases hb with h | h | h | h | h | h <;> omega
  have hrun := cmd_read_conf_run t CFG_MASK_BTVER 4 tr g 6 0
    [0x08, 0x00, 0x00, major, minor, 0x00] (by decide) hout (by decide) (by decide) rfl hbytes hin
  have hv : ((major <<< 8) ||| minor) % 65536 = major * 256 + minor := by
    rw [Nat.lor_comm, or_shl8 _ _ hminor]
    omega
  unfold read_btver
  rw [Isp.bind_ok hrun]
  simp only [read_local, List.getElem?_cons_zero, List.getElem?_cons_succ, Isp.bind_eq,
    Isp.bind, Isp.pure, List.take, List.drop, hv]
  rfl

/-- C19: when the read-config request for the bootloader version (mask `0x08`)
went out and the device answers with the echoed mask and the four data bytes
`[0x00, major, minor, 0x00]`, `read_btver` returns `major * 256 + minor`. -/
theorem read_btver_value (t : Transport) (tr : List Xfer) (g major minor : Nat)
    (hout : t.bulk_out tr (send_buf CMD_READ_CONFIG 2
      [(CFG_MASK_BTVER >>> 0) &&& 0xff, (CFG_MASK_BTVER >>> 8) &&& 0xff]) = some g)
    (hmajor : major < 256) (hminor : minor < 256)
    (hin : t.bulk_in (tr ++ [Xfer.out (send_buf CMD_READ_CONFIG 2
      [(CFG_MASK_BTVER >>> 0) &&& 0xff, (CFG_MASK_BTVER >>> 8) &&& 0xff])]) 64 =
        some (CMD_READ_CONFIG :: 0 :: 6 :: 0 :: [0x08, 0x00, 0x00, major, minor, 0x00])) :
    (∃ tr1, read_btver t tr = Res.ok (major * 256 + minor) tr1) ∧
    major * 256 + minor = (major <<< 8) ||| minor := by
  refine ⟨⟨_, read_btver_run t tr g major minor hout hmajor hminor hin⟩, ?_⟩
  rw [Nat.lor_comm, or_shl8 _ _ hminor]
  omega

/-- Witness for C19: the data bytes `00 02 07 00` give the version `0x0207`. -/
theorem read_btver_value_witness :
    (btver_device.bulk_out [] (send_buf CMD_READ_CONFIG 2
        [(CFG_MASK_BTVER >>> 0) &&& 0xff, (CFG_MASK_BTVER >>> 8) &&& 0xff]) = some 5 ∧
      0x02 < 256 ∧ 0x07 < 256 ∧
      btver_device.bulk_in ([] ++ [Xfer.out (send_buf CMD_READ_CONFIG 2
        [(CFG_MASK_BTVER >>> 0) &&& 0xff, (CFG_MASK_BTVER >>> 8) &&& 0xff])]) 64 =
          some (CMD_READ_CONFIG :: 0 :: 6 :: 0 :: [0x08, 0x00, 0x00, 0x02, 0x07, 0x00])) ∧
    ∃ tr1, read_btver btver_device [] = Res.ok 0x0207 tr1 :=
  ⟨⟨rfl, by decide, by decide, rfl⟩,
   (read_btver_value btver_device [] 5 0x02 0x07 rfl (by decide) (by decide) rfl).1⟩

theorem identify_frame_eq :
    send_buf CMD_IDENTIFY identify_buf.length identify_buf =
      [0xa1, 18, 0] ++ [0, 0] ++ "MCU ISP & WCH.CN".toList.map Char.toNat := by
  decide

theorem first_sends_cmd_identify (t : Transport) (tr : List Xfer) :
    FirstSends (cmd_identify t) tr (send_buf CMD_IDENTIFY identify_buf.length identify_buf) := by
  unfold cmd_identify
  refine first_sends_bind (first_sends_isp_send_cmd t _ _ _ tr (by decide)) (fun _ => ?_)
  refine grows_bind (grows_isp_recv_cmd _ _ _) (fun r => ?_)
  refine grows_bind (grows_read_local _ _) (fun a => ?_)
  exact grows_bind (grows_read_local _ _) (fun b => grows_pure _)

theorem cmd_identify_run (t : Transport) (tr : List Xfer) (g a b : Nat)
    (hout : t.bulk_out tr (send_buf CMD_IDENTIFY identify_buf.length identify_buf) = some g)
    (hin : t.bulk_in
      (tr ++ [Xfer.out (send_buf CMD_IDENTIFY identify_buf.length identify_buf)]) 6 =
        some (CMD_IDENTIFY :: 0 :: 2 :: 0 :: [a, b])) :
    cmd_identify t tr =
      Res.ok (a, b)
        (tr ++ [Xfer.out (send_buf CMD_IDENTIFY identify_buf.length identify_buf),
          Xfer.inp 6 (some (CMD_IDENTIFY :: 0 :: 2 :: 0 :: [a, b]))]) := by
  have hs : isp_send_cmd t CMD_IDENTIFY identify_buf.length identify_buf tr =
      Res.ok g (tr ++ [Xfer.out (send_buf CMD_IDENTIFY identify_buf.length identify_buf)]) := by
    rw [isp_send_cmd_run t CMD_IDENTIFY identify_buf.length identify_buf tr (by decide), hout]
  have hr := isp_recv_cmd_ok t CMD_IDENTIFY 2 _ 2 0 [a, b] (by decide) (by decide) (by decide)
    rfl hin
  unfold cmd_identify
  rw [Isp.bind_ok hs, Isp.bind_ok hr]
  simp [read_local, Isp.pure, Isp.bind_eq, Isp.bind, Isp.pure_eq]
  rfl

/-- C18, amended: the payload `cmd_identify` sends with the identify opcode
(`0xa1`) has 18 bytes: two zero placeholder bytes followed by the fixed 16-byte
literal `MCU ISP & WCH.CN`; this frame is the first thing handed over, whatever
the device does.  On a well-formed 2-byte reply `[a, b]` the function returns
`device_id = a` and `device_type = b`. -/
theorem cmd_identify_payload_and_reply (t : Transport) (tr : List Xfer) (g a b : Nat)
    (hout : t.bulk_out tr (send_buf CMD_IDENTIFY identify_buf.length identify_buf) = some g)
    (hin : t.bulk_in
      (tr ++ [Xfer.out (send_buf CMD_IDENTIFY identify_buf.length identify_buf)]) 6 =
        some (CMD_IDENTIFY :: 0 :: 2 :: 0 :: [a, b])) :
    (∃ rest, (cmd_identify t tr).trace =
      tr ++ Xfer.out ([0xa1, 18, 0] ++ [0, 0] ++ "MCU ISP & WCH.CN".toList.map Char.toNat)
        :: rest) ∧
    ("MCU ISP & WCH.CN".toList.map Char.toNat).length = 16 ∧
    ∃ tr1, cmd_identify t tr = Res.ok (a, b) tr1 := by
  refine ⟨?_, by decide, _, cmd_identify_run t tr g a b hout hin⟩
  have h := first_sends_cmd_identify t tr
  rw [identify_frame_eq] at h
  exact h

/-- Witness for C18, amended: scenario A, the device answers `69 10`. -/
theorem cmd_identify_payload_and_reply_witness :
    (ident_device.bulk_out [] (send_buf CMD_IDENTIFY identify_buf.length identify_buf) = some 21 ∧
      ident_device.bulk_in
        ([] ++ [Xfer.out (send_buf CMD_IDENTIFY identify_buf.length identify_buf)]) 6 =
          some (CMD_IDENTIFY :: 0 :: 2 :: 0 :: [0x69, 0x10])) ∧
    ∃ tr1, cmd_identify ident_device [] = Res.ok (0x69, 0x10) tr1 :=
  ⟨⟨rfl, rfl⟩,
   (cmd_identify_payload_and_reply ident_device [] 21 0x69 0x10 rfl rfl).2.2⟩

/-- Counterexample for C18: the identify payload has 18 bytes, not 20; it begins
with the two zero bytes and ends with the letters `CN`, so it is not an 18-byte
literal followed by two zero bytes. -/
theorem cmd_identify_payload_counterexample :
    ∃ f, sent (cmd_identify ack_device []).trace = [f] ∧
      f.take 3 = [0xa1, 18, 0] ∧
      f.drop 3 = [0, 0, 77, 67, 85, 32, 73, 83, 80, 32, 38, 32, 87, 67, 72, 46, 67, 78] ∧
      (f.drop 3).length = 18 ∧
      ¬ ∃ lit : List Nat, lit.length = 18 ∧ f.drop 3 = lit ++ [0, 0] := by
  refine ⟨[0xa1, 18, 0, 0, 0, 77, 67, 85, 32, 73, 83, 80, 32, 38, 32, 87, 67, 72, 46, 67, 78],
    by decide, rfl, rfl, rfl, ?_⟩
  rintro ⟨lit, hl, h⟩
  have h1 := congrArg List.length h
  rw [List.length_append, hl] at h1
  exact absurd h1 (by decide)

/-! ## Device database lookup, matching entries -/

theorem find_db_dev_first (id : Nat) (dpre dpost : List db_dev) (dd : db_dev)
    (hpre : ∀ e ∈ dpre, e.id ≠ 0 ∧ e.id ≠ id) (hid : dd.id = id) (h0 : id ≠ 0) :
    find_db_dev id (dpre ++ dd :: dpost) = some dd := by
  induction dpre with
  | nil =>
    show find_db_dev id (dd :: dpost) = some dd
    unfold find_db_dev
    rw [if_neg (by rw [hid]; exact h0), if_pos hid]
  | cons e es ih =>
    show find_db_dev id (e :: (es ++ dd :: dpost)) = some dd
    unfold find_db_dev
    have he := hpre e (List.mem_cons_self e es)
    rw [if_neg he.1, if_neg he.2]
    exact ih (fun x hx => hpre x (List.mem_cons_of_mem e hx))

theorem find_db_some (type : Nat) (devices : List db) (d : db)
    (h : find_db type devices = some d) : d ∈ devices ∧ d.type = type := by
  induction devices with
  | nil => exact Option.noConfusion h
  | cons x xs ih =>
    unfold find_db at h
    split_ifs at h with hx
    · have hxd : x = d := Option.some.inj h
      rw [← hxd]
      exact ⟨List.mem_cons_self x xs, hx⟩
    · exact ⟨List.mem_cons_of_mem x (ih h).1, (ih h).2⟩

theorem find_db_dev_some (id : Nat) (devs : List db_dev) (dd : db_dev)
    (h : find_db_dev id devs = some dd) : dd ∈ devs ∧ dd.id = id ∧ id ≠ 0 := by
  induction devs with
  | nil => exact Option.noConfusion h
  | cons x xs ih =>
    unfold find_db_dev at h
    split_ifs at h with h0 hx
    · have hxd : x = dd := Option.some.inj h
      rw [← hxd]
      exact ⟨List.mem_cons_self x xs, hx, by rw [← hx]; exact h0⟩
    · exact ⟨List.mem_cons_of_mem x (ih h).1, (ih h).2⟩

/-- C15, amended: when the first row of the table with the device type lists,
before its terminating element, a device with the device id, `isp_init_from_db`
sets the name, the flash size and the eeprom size to those of the first such
device of that row and the sector size to that of the row.  For every table,
the name, flash size and eeprom size are either the defaults or those of a
device with exactly the device id in a row with exactly the device type. -/
theorem isp_init_from_db_first_match (devices : List db) (dev : isp_dev) :
    (∀ (pre post : List db) (d : db) (dpre dpost : List db_dev) (dd : db_dev),
      devices = pre ++ d :: post → (∀ p ∈ pre, p.type ≠ dev.type) → d.type = dev.type →
      d.devs = dpre ++ dd :: dpost → (∀ e ∈ dpre, e.id ≠ 0 ∧ e.id ≠ dev.id) →
      dd.id = dev.id → dev.id ≠ 0 →
      isp_init_from_db devices dev =
        { dev with flash_sector_size := d.flash_sector_size, name := dd.name,
                   flash_size := dd.flash_size, eeprom_size := dd.eeprom_size }) ∧
    (((isp_init_from_db devices dev).name = "unknown" ∧
        (isp_init_from_db devices dev).flash_size = 0xffff ∧
        (isp_init_from_db devices dev).eeprom_size = 0) ∨
      ∃ d ∈ devices, ∃ dd ∈ d.devs, d.type = dev.type ∧ dd.id = dev.id ∧
        (isp_init_from_db devices dev).name = dd.name ∧
        (isp_init_from_db devices dev).flash_size = dd.flash_size ∧
        (isp_init_from_db devices dev).eeprom_size = dd.eeprom_size ∧
        (isp_init_from_db devices dev).flash_sector_size = d.flash_sector_size) := by
  constructor
  · intro pre post d dpre dpost dd hdev hpre hd hdevs hdpre hid h0
    unfold isp_init_from_db
    simp only [hdev, find_db_first dev.type pre post d hpre hd, hdevs,
      find_db_dev_first dev.id dpre dpost dd hdpre hid h0]
  · cases hdb : find_db dev.type devices with
    | none =>
      left
      have hr : isp_init_from_db devices dev =
          { dev with flash_sector_size := SECTOR_SIZE, name := "unknown", flash_size := 0xffff,
                     eeprom_size := 0 } := by
        unfold isp_init_from_db
        simp only [hdb]
      rw [hr]
      exact ⟨rfl, rfl, rfl⟩
    | some d =>
      cases hdd : find_db_dev dev.id d.devs with
      | none =>
        left
        have hr : isp_init_from_db devices dev =
            { dev with flash_sector_size := d.flash_sector_size, name := "unknown",
                       flash_size := 0xffff, eeprom_size := 0 } := by
          unfold isp_init_from_db
          simp only [hdb, hdd]
        rw [hr]
        exact ⟨rfl, rfl, rfl⟩
      | some dd =>
        right
        obtain ⟨hmem, hty⟩ := find_db_some dev.type devices d hdb
        obtain ⟨hmem2, hid, _⟩ := find_db_dev_some dev.id d.devs dd hdd
        have hr : isp_init_from_db devices dev =
            { dev with flash_sector_size := d.flash_sector_size, name := dd.name,
                       flash_size := dd.flash_size, eeprom_size := dd.eeprom_size } := by
          unfold isp_init_from_db
          simp only [hdb, hdd]
        rw [hr]
        exact ⟨d, hmem, dd, hmem2, hty, hid, rfl, rfl, rfl, rfl⟩

/-- Witness for C15, amended: the device of scenario A in the sample table. -/
theorem isp_init_from_db_first_match_witness :
    (sample_devices = [] ++ sample_row :: [] ∧ (∀ p ∈ ([] : List db), p.type ≠ scenario_dev.type) ∧
      sample_row.type = scenario_dev.type ∧
      sample_row.devs = [] ++
        { id := 0x69, name := "CH569", flash_size := 448 * 1024, eeprom_size := 32 * 1024 } ::
        [{ id := 0x65, name := "CH565", flash_size := 448 * 1024, eeprom_size := 32 * 1024 },
         { id := 0, name := "", flash_size := 0, eeprom_size := 0 }] ∧
      (∀ e ∈ ([] : List db_dev), e.id ≠ 0 ∧ e.id ≠ scenario_dev.id) ∧
      (0x69 : Nat) = scenario_dev.id ∧ scenario_dev.id ≠ 0) ∧
    isp_init_from_db sample_devices scenario_dev =
      { scenario_dev with flash_sector_size := 4096, name := "CH569",
                          flash_size := 448 * 1024, eeprom_size := 32 * 1024 } :=
  ⟨⟨rfl, by decide, rfl, rfl, by decide, rfl, by decide⟩,
   (isp_init_from_db_first_match sample_devices scenario_dev).1 [] [] sample_row []
      [{ id := 0x65, name := "CH565", flash_size := 448 * 1024, eeprom_size := 32 * 1024 },
       { id := 0, name := "", flash_size := 0, eeprom_size := 0 }]
      { id := 0x69, name := "CH569", flash_size := 448 * 1024, eeprom_size := 32 * 1024 }
      rfl (by decide) rfl rfl (by decide) rfl (by decide)⟩

/-- Counterexample for C15: the table has a row of type `0x10` that lists the
device id `0x70`, but it is the second row of that type; the lookup stops at the
first one and the name stays "unknown", which is the name of no listed device
with the id `0x70`. -/
theorem isp_init_from_db_first_match_counterexample :
    (∃ d ∈ duplicate_type_devices, d.type = 0x10 ∧ ∃ e ∈ d.devs, e.id = 0x70) ∧
    (isp_init_from_db duplicate_type_devices { scenario_dev with id := 0x70 }).name = "unknown" ∧
    (isp_init_from_db duplicate_type_devices { scenario_dev with id := 0x70 }).flash_size
      = 0xffff ∧
    ∀ d ∈ duplicate_type_devices, ∀ e ∈ d.devs, e.id = 0x70 →
      (isp_init_from_db duplicate_type_devices { scenario_dev with id := 0x70 }).name ≠ e.name := by
  decide

/-! ## The formatted unique id -/

theorem length_24 (l : List Char) (h : l.length = 24) :
    ∃ c0 c1 c2 c3 c4 c5 c6 c7 c8 c9 c10 c11 c12 c13 c14 c15 c16 c17 c18 c19 c20 c21 c22 c23,
      l = [c0, c1, c2, c3, c4, c5, c6, c7, c8, c9, c10, c11, c12, c13, c14, c15, c16, c17, c18,
        c19, c20, c21, c22, c23] := by
  match l, h with
  | [c0, c1, c2, c3, c4, c5, c6, c7, c8, c9, c10, c11, c12, c13, c14, c15, c16, c17, c18,
      c19, c20, c21, c22, c23], _ =>
    exact ⟨c0, c1, c2, c3, c4, c5, c6, c7, c8, c9, c10, c11, c12, c13, c14, c15, c16, c17, c18,
      c19, c20, c21, c22, c23, rfl⟩

theorem format_uid_str_eq (u0 u1 u2 u3 u4 u5 u6 u7 : Nat) (buf : List Char)
    (h : buf.length = 24) :
    format_uid_str [u0, u1, u2, u3, u4, u5, u6, u7] buf =
      [hex_digit (u0 / 16 % 16), hex_digit (u0 % 16), '-',
       hex_digit (u1 / 16 % 16), hex_digit (u1 % 16), '-',
       hex_digit (u2 / 16 % 16), hex_digit (u2 % 16), '-',
       hex_digit (u3 / 16 % 16), hex_digit (u3 % 16), '-',
       hex_digit (u4 / 16 % 16), hex_digit (u4 % 16), '-',
       hex_digit (u5 / 16 % 16), hex_digit (u5 % 16), '-',
       hex_digit (u6 / 16 % 16), hex_digit (u6 % 16), '-',
       hex_digit (u7 / 16 % 16), hex_digit (u7 % 16), Char.ofNat 0] := by
  obtain ⟨c0, c1, c2, c3, c4, c5, c6, c7, c8, c9, c10, c11, c12, c13, c14, c15, c16, c17, c18,
    c19, c20, c21, c22, c23, rfl⟩ := length_24 buf h
  simp [format_uid_str, range_eight, snprintf_at, fmt_02x_dash]

theorem returns_bind_of {α β : Type} {m : Isp α} {f : α → Isp β} {Q : α → Prop}
    {P : β → Prop} (hm : Returns m Q) (hf : ∀ a, Q a → Returns (f a) P) :
    Returns (m >>= f) P := by
  intro tr b tr1 hb
  have hb1 : Isp.bind m f tr = Res.ok b tr1 := hb
  unfold Isp.bind at hb1
  cases hmt : m tr with
  | ok a tr2 =>
    rw [hmt] at hb1
    exact hf a (hm tr a tr2 hmt) tr2 b tr1 hb1
  | die e tr2 => rw [hmt] at hb1; exact Res.noConfusion hb1
  | undef tr2 => rw [hmt] at hb1; exact Res.noConfusion hb1
  | nofuel tr2 => rw [hmt] at hb1; exact Res.noConfusion hb1

theorem returns_cmd_read_conf_length (t : Transport) (cfgmask len : Nat) :
    Returns (cmd_read_conf t cfgmask len) (fun r => r.2.length ≤ len) := by
  unfold cmd_read_conf
  refine returns_bind (fun _ => ?_)
  refine returns_bind (fun r => ?_)
  obtain ⟨got, buf⟩ := r
  dsimp only
  split_ifs
  · exact returns_die _ _
  · refine returns_bind (fun b0 => ?_)
    refine returns_bind (fun b1 => ?_)
    split_ifs
    · exact returns_die _ _
    · refine returns_pure _ _ ?_
      simp only [List.length_take]
      omega

theorem isp_init_from_db_keeps_uid (devices : List db) (dev : isp_dev) :
    (isp_init_from_db devices dev).uid = dev.uid ∧
    (isp_init_from_db devices dev).uid_str = dev.uid_str := by
  unfold isp_init_from_db
  dsimp only
  cases hdb : find_db dev.type devices with
  | none => exact ⟨rfl, rfl⟩
  | some d =>
    dsimp only
    cases hdd : find_db_dev dev.id d.devs with
    | none => exact ⟨rfl, rfl⟩
    | some dd => exact ⟨rfl, rfl⟩

/-- What a successful `isp_init` leaves in `uid` and `uid_str`. -/
theorem returns_isp_init_uid_str (t : Transport) (devices : List db) (dev : isp_dev)
    (huid : dev.uid.length = 8) :
    Returns (isp_init t devices dev)
      (fun d => d.uid.length = 8 ∧ d.uid_str = format_uid_str d.uid dev.uid_str) := by
  unfold isp_init
  refine returns_bind (fun r => ?_)
  refine returns_bind (fun btver => ?_)
  refine returns_bind_of (returns_cmd_read_conf_length t CFG_MASK_UID 8) (fun r2 hr2 => ?_)
  refine returns_pure _ _ ?_
  have hk := isp_init_from_db_keeps_uid devices { dev with id := r.1, type := r.2 }
  have hu : (isp_init_from_db devices { dev with id := r.1, type := r.2 }).uid = dev.uid := hk.1
  have hs : (isp_init_from_db devices { dev with id := r.1, type := r.2 }).uid_str =
      dev.uid_str := hk.2
  simp only [hu, hs]
  refine ⟨?_, trivial⟩
  rw [List.length_append, List.length_drop]
  omega

theorem hex_digit_lower : ∀ n, n < 16 → hex_digit n ∈ "0123456789abcdef".toList := by
  decide

/-- C17, amended: for an 8-byte unique id, what a successful `isp_init` leaves
in the 24-byte `uid_str` is a string of 23 characters, the eight bytes as
two-digit lowercase hex octets separated by seven hyphens, followed by its
terminating nul. -/
theorem isp_init_uid_str_format (t : Transport) (devices : List db) (dev d : isp_dev)
    (tr tr1 : List Xfer) (huid : dev.uid.length = 8) (hstr : dev.uid_str.length = 24)
    (hok : isp_init t devices dev tr = Res.ok d tr1) :
    d.uid.length = 8 ∧
    d.uid_str.length = 24 ∧
    d.uid_str.take 23 =
      List.intercalate ['-']
        (d.uid.map (fun b => [hex_digit (b / 16 % 16), hex_digit (b % 16)])) ∧
    (d.uid_str.take 23).length = 23 ∧
    d.uid_str.drop 23 = [Char.ofNat 0] ∧
    (∀ c ∈ d.uid_str.take 23, c ∈ "0123456789abcdef".toList ∨ c = '-') := by
  obtain ⟨hlen, hfmt⟩ := returns_isp_init_uid_str t devices dev huid tr d tr1 hok
  obtain ⟨u0, u1, u2, u3, u4, u5, u6, u7, hu⟩ := length_eight d.uid hlen
  rw [hu, format_uid_str_eq u0 u1 u2 u3 u4 u5 u6 u7 dev.uid_str hstr] at hfmt
  rw [hfmt, hu]
  refine ⟨rfl, rfl, rfl, rfl, rfl, ?_⟩
  intro c hc
  have h0 := hex_digit_lower (u0 / 16 % 16) (Nat.mod_lt _ (by decide))
  have h0' := hex_digit_lower (u0 % 16) (Nat.mod_lt _ (by decide))
  have h1 := hex_digit_lower (u1 / 16 % 16) (Nat.mod_lt _ (by decide))
  have h1' := hex_digit_lower (u1 % 16) (Nat.mod_lt _ (by decide))
  have h2 := hex_digit_lower (u2 / 16 % 16) (Nat.mod_lt _ (by decide))
  have h2' := hex_digit_lower (u2 % 16) (Nat.mod_lt _ (by decide))
  have h3 := hex_digit_lower (u3 / 16 % 16) (Nat.mod_lt _ (by decide))
  have h3' := hex_digit_lower (u3 % 16) (Nat.mod_lt _ (by decide))
  have h4 := hex_digit_lower (u4 / 16 % 16) (Nat.mod_lt _ (by decide))
  have h4' := hex_digit_lower (u4 % 16) (Nat.mod_lt _ (by decide))
  have h5 := hex_digit_lower (u5 / 16 % 16) (Nat.mod_lt _ (by decide))
  have h5' := hex_digit_lower (u5 % 16) (Nat.mod_lt _ (by decide))
  have h6 := hex_digit_lower (u6 / 16 % 16) (Nat.mod_lt _ (by decide))
  have h6' := hex_digit_lower (u6 % 16) (Nat.mod_lt _ (by decide))
  have h7 := hex_digit_lower (u7 / 16 % 16) (Nat.mod_lt _ (by decide))
  have h7' := hex_digit_lower (u7 % 16) (Nat.mod_lt _ (by decide))
  simp only [List.take, List.mem_cons, List.not_mem_nil, or_false] at hc
  rcases hc with h | h | h | h | h | h | h | h | h | h | h | h | h | h | h | h | h | h | h | h
    | h | h | h <;> subst h <;> first | exact Or.inr rfl | (left; assumption)

theorem isp_init_scenario :
    isp_init ident_device sample_devices zeroed_dev [] =
      Res.ok scenario_session scenario_init_trace := by
  decide

/-- Witness for C17, amended: the unique id `01 02 03 04 00 00 02 04` of
scenario A. -/
theorem isp_init_uid_str_format_witness :
    (zeroed_dev.uid.length = 8 ∧ zeroed_dev.uid_str.length = 24 ∧
      isp_init ident_device sample_devices zeroed_dev [] =
        Res.ok scenario_session scenario_init_trace) ∧
    scenario_session.uid_str.take 23 = "01-02-03-04-00-00-02-04".toList :=
  ⟨⟨rfl, rfl, isp_init_scenario⟩,
   (isp_init_uid_str_format ident_device sample_devices zeroed_dev scenario_session []
      scenario_init_trace rfl rfl isp_init_scenario).2.2.1.trans (by decide)⟩

/-- Counterexample for C17: for the unique id `01 02 03 04 00 00 02 04` the text
in `uid_str` is `01-02-03-04-00-00-02-04`, 23 characters up to the terminating
nul, not 24. -/
theorem isp_init_uid_str_counterexample :
    isp_init ident_device sample_devices zeroed_dev [] =
      Res.ok scenario_session scenario_init_trace ∧
    scenario_session.uid_str = "01-02-03-04-00-00-02-04".toList ++ [Char.ofNat 0] ∧
    (scenario_session.uid_str.takeWhile (fun c => c != Char.ofNat 0)).length = 23 ∧
    (scenario_session.uid_str.takeWhile (fun c => c != Char.ofNat 0)).length ≠ 24 :=
  ⟨isp_init_scenario, rfl, by decide, by decide⟩

/-! ## Bit-mask rounding and powers of two -/

theorem testBit_top (x p : Nat) (hlo : 2 ^ p ≤ x) (hhi : x < 2 ^ (p + 1)) :
    x.testBit p = true := by
  rw [Nat.testBit_to_div_mod]
  have hpos : 0 < 2 ^ p := Nat.two_pow_pos p
  have h1 : x / 2 ^ p = 1 := by
    apply Nat.div_eq_of_lt_le
    · rw [Nat.one_mul]
      exact hlo
    · rw [Nat.pow_succ] at hhi
      omega
  rw [h1]
  rfl

/-- For a sector size `a` that is not a power of two, rounding 1 with the mask
`~(a - 1)` gives less than `a`. -/
theorem ALIGN_one_lt (a : Nat) (hpos : 0 < a) (ha : a < 2 ^ 64) (hnp : ¬ ∃ k, a = 2 ^ k) :
    ALIGN 1 a < a := by
  have h1 : (a + SIZE_T - 1) % SIZE_T = a - 1 := by
    unfold SIZE_T
    omega
  have h2 : (1 + (a - 1)) % SIZE_T = a := by
    unfold SIZE_T
    omega
  have hm : SIZE_T - 1 - (a - 1) = 2 ^ 64 - (a - 1 + 1) := by
    unfold SIZE_T
    omega
  unfold ALIGN
  rw [h1, h2, hm]
  have hle : a &&& (2 ^ 64 - (a - 1 + 1)) ≤ a := Nat.and_le_left
  have hne : a &&& (2 ^ 64 - (a - 1 + 1)) ≠ a := by
    intro heq
    have hlo : 2 ^ a.log2 ≤ a := Nat.log2_self_le (Nat.pos_iff_ne_zero.mp hpos)
    have hhi : a < 2 ^ (a.log2 + 1) := Nat.lt_log2_self
    have hne2 : a ≠ 2 ^ a.log2 := fun h => hnp ⟨a.log2, h⟩
    have hb1 : a.testBit a.log2 = true := testBit_top a a.log2 hlo hhi
    have hb2 : (a - 1).testBit a.log2 = true := testBit_top (a - 1) a.log2 (by omega) (by omega)
    have hb3 := congrArg (fun x => x.testBit a.log2) heq
    simp only [Nat.testBit_and, Nat.testBit_two_pow_sub_succ (show a - 1 < 2 ^ 64 by omega),
      hb1, hb2] at hb3
    simp at hb3
  omega

/-- C20: for a flash sector size that is a power of two and an image size with
`size + sector_size - 1 < 2^32`, the count `ALIGN(size, sector_size) /
sector_size` of `isp_flash` is `ceil(size / sector_size)`; for a positive sector
size that is not a power of two, the image size 1 gives the count 0, which is
not `ceil(1 / sector_size) = 1`. -/
theorem align_div_is_ceil_iff_pow2 :
    (∀ k size, size + 2 ^ k - 1 < 2 ^ 32 →
      ALIGN size (2 ^ k) / 2 ^ k = (size + 2 ^ k - 1) / 2 ^ k ∧
      nr_sectors size (2 ^ k) = (size + 2 ^ k - 1) / 2 ^ k ∧
      size ≤ (size + 2 ^ k - 1) / 2 ^ k * 2 ^ k ∧
      (size + 2 ^ k - 1) / 2 ^ k * 2 ^ k < size + 2 ^ k) ∧
    (∀ a, 0 < a → a < 2 ^ 64 → (¬ ∃ k, a = 2 ^ k) →
      ALIGN 1 a / a = 0 ∧ nr_sectors 1 a = 0 ∧ (1 + a - 1) / a = 1 ∧
      ∃ size, ALIGN size a / a ≠ (size + a - 1) / a) := by
  constructor
  · intro k size h
    have hpos : 0 < 2 ^ k := Nat.two_pow_pos k
    have hk : k < 64 := by
      by_contra hk
      have h64 : 2 ^ 64 ≤ 2 ^ k := Nat.pow_le_pow_right (by decide) (by omega)
      omega
    have hA := ALIGN_pow2 size k hk (by omega)
    have hq : ALIGN size (2 ^ k) / 2 ^ k = (size + 2 ^ k - 1) / 2 ^ k := by
      rw [hA, Nat.mul_div_cancel _ hpos]
    have hdm := Nat.div_add_mod (size + 2 ^ k - 1) (2 ^ k)
    have hml := Nat.mod_lt (size + 2 ^ k - 1) hpos
    refine ⟨hq, ?_, ?_, ?_⟩
    · unfold nr_sectors
      rw [hq]
      apply Nat.mod_eq_of_lt
      rw [Nat.div_lt_iff_lt_mul hpos]
      omega
    · rw [Nat.mul_comm]
      omega
    · rw [Nat.mul_comm]
      omega
  · intro a hpos ha hnp
    have hlt := ALIGN_one_lt a hpos ha hnp
    have h0 : ALIGN 1 a / a = 0 := Nat.div_eq_of_lt hlt
    have h1 : (1 + a - 1) / a = 1 := by
      rw [Nat.add_sub_cancel_left]
      exact Nat.div_self hpos
    refine ⟨h0, ?_, h1, 1, ?_⟩
    · unfold nr_sectors
      rw [h0]
      exact Nat.zero_mod _
    · rw [h0, h1]
      decide

/-- Witness for C20: sectors of 1024 bytes round 130 bytes up to one sector;
sectors of 3 bytes give no sector for an image of 1 byte. -/
theorem align_div_is_ceil_iff_pow2_witness :
    (130 + 2 ^ 10 - 1 < 2 ^ 32 ∧ 0 < 3 ∧ 3 < 2 ^ 64 ∧ ¬ ∃ k, 3 = 2 ^ k) ∧
    nr_sectors 130 (2 ^ 10) = 1 ∧ nr_sectors 1 3 = 0 := by
  have h3 : ¬ ∃ k, 3 = 2 ^ k := by
    rintro ⟨k, hk⟩
    match k, hk with
    | 0, h => exact absurd h (by decide)
    | 1, h => exact absurd h (by decide)
    | k + 2, h =>
      have h4 : 2 ^ (k + 2) = 4 * 2 ^ k := by
        rw [Nat.pow_add, Nat.mul_comm]
      omega
  exact ⟨⟨by decide, by decide, by decide, h3⟩,
    (align_div_is_ceil_iff_pow2.1 10 130 (by decide)).2.1,
    (align_div_is_ceil_iff_pow2.2 3 (by decide) (by decide) h3).2.1⟩

/-! ## Verify against program -/

theorem chunk_frame_opcode (c1 c2 addr len : Nat) (data key : List Nat) :
    chunk_frame c2 addr len data key = c2 :: (chunk_frame c1 addr len data key).tail := by
  rw [chunk_frame_eq, chunk_frame_eq]
  rfl

theorem chunk_frames_opcode (c1 c2 : Nat) (key data : List Nat) (size off : Nat) :
    chunk_frames c2 key data size off =
      (chunk_frames c1 key data size off).map (fun f => c2 :: f.tail) := by
  unfold chunk_frames
  rw [List.map_map]
  apply List.map_congr_left
  intro k _
  exact chunk_frame_opcode c1 c2 _ _ _ _

theorem chunk_frames_mem (cmd : Nat) (key data : List Nat) (N : Nat) (f : List Nat)
    (hf : f ∈ chunk_frames cmd key data N 0) :
    f.head? = some cmd ∧ frame_data f ≠ [] := by
  unfold chunk_frames at hf
  obtain ⟨k, hk, rfl⟩ := List.mem_map.mp hf
  have hk1 : k < (N - 0 + 55) / 56 := List.mem_range.mp hk
  refine ⟨chunk_frame_head _ _ _ _ _, ?_⟩
  rw [chunk_frame_data]
  intro h
  have hl := congrArg List.length h
  simp only [List.length_map, List.length_range, List.length_nil] at hl
  omega

/-- C12: against a device that acknowledges every frame, `isp_flash` sends the
erase frame, the chunk frames and the closing program frame without data, and
`isp_verify` sends the same chunk frames, in the same order, each with its first
byte `CMD_PROGRAM` (`0xa5`) replaced by `CMD_VERIFY` (`0xa6`): every later byte
(length field, address, zero byte, transformed data) is the same.  Each of the
verify frames carries data, so none is a closing frame.  Against any device,
what `isp_verify` sends is an initial part of that sequence. -/
theorem isp_verify_mirrors_program_chunks (t : Transport) (hack : acks_every_frame t)
    (fuel : Nat) (dev : isp_dev) (N : Nat) (data : List Nat) (tr trv : List Xfer)
    (hs : dev.flash_sector_size ≠ 0) (hfuel : (N + 55) / 56 ≤ fuel) :
    ∃ (chunks : List (List Nat)) (final : List Nat),
      sent (isp_flash t fuel dev N data tr).trace =
        sent tr ++ send_buf CMD_ERASE 4 (erase_sec (nr_sectors N dev.flash_sector_size)) ::
          (chunks ++ [final]) ∧
      sent (isp_verify t fuel dev N data trv).trace =
        sent trv ++ chunks.map (fun f => CMD_VERIFY :: f.tail) ∧
      chunks.length = (N + 55) / 56 ∧
      (∀ f ∈ chunks, f.head? = some CMD_PROGRAM ∧ frame_data f ≠ []) ∧
      (∀ f ∈ chunks.map (fun f => CMD_VERIFY :: f.tail),
        f.head? = some CMD_VERIFY ∧ frame_data f ≠ []) ∧
      final.head? = some CMD_PROGRAM ∧ frame_data final = [] ∧
      CMD_PROGRAM = 0xa5 ∧ CMD_VERIFY = 0xa6 ∧
      ∀ (t2 : Transport) (fuel2 : Nat) (tr2 : List Xfer), ∃ l rest,
        sent (isp_verify t2 fuel2 dev N data tr2).trace = sent tr2 ++ l ∧
        l ++ rest = chunks.map (fun f => CMD_VERIFY :: f.tail) := by
  have hswap := chunk_frames_opcode CMD_PROGRAM CMD_VERIFY dev.xor_key data N 0
  refine ⟨chunk_frames CMD_PROGRAM dev.xor_key data N 0,
    chunk_frame CMD_PROGRAM N 0 [] dev.xor_key, ?_, ?_, chunk_frames_length _ _ _ _,
    fun f hf => chunk_frames_mem _ _ _ _ f hf, ?_, chunk_frame_head _ _ _ _ _, ?_, rfl, rfl, ?_⟩
  · rw [chunk_frames_zero]
    exact isp_flash_sent t hack fuel dev N data tr hs hfuel
  · rw [← hswap, chunk_frames_zero]
    exact isp_verify_sent t hack fuel dev N data trv hfuel
  · intro f hf
    rw [← hswap] at hf
    exact chunk_frames_mem _ _ _ _ f hf
  · rw [chunk_frame_data]
    rfl
  · intro t2 fuel2 tr2
    obtain ⟨l, rest, hl, hsent⟩ := isp_verify_sent_any t2 fuel2 dev N data tr2
    exact ⟨l, rest, hsent, by rw [hl, hswap]⟩

/-- Witness for C12: the 130-byte image of scenario B: three chunk frames for
each pass. -/
theorem isp_verify_mirrors_program_chunks_witness :
    (acks_every_frame ack_device ∧ scenario_dev.flash_sector_size ≠ 0 ∧ (130 + 55) / 56 ≤ 3) ∧
    ∃ (chunks : List (List Nat)) (final : List Nat),
      sent (isp_flash ack_device 3 scenario_dev 130 scenario_image []).trace =
        sent [] ++ send_buf CMD_ERASE 4
          (erase_sec (nr_sectors 130 scenario_dev.flash_sector_size)) :: (chunks ++ [final]) ∧
      sent (isp_verify ack_device 3 scenario_dev 130 scenario_image []).trace =
        sent [] ++ chunks.map (fun f => CMD_VERIFY :: f.tail) ∧
      chunks.length = 3 := by
  refine ⟨⟨ack_device_acks, by decide, by decide⟩, ?_⟩
  obtain ⟨chunks, final, h1, h2, h3, _⟩ :=
    isp_verify_mirrors_program_chunks ack_device ack_device_acks 3 scenario_dev 130
      scenario_image [] [] (by decide) (by decide)
  exact ⟨chunks, final, h1, h2, h3⟩

/-! ## Program errors -/

theorem dies_pure {α : Type} (a : α) (P : Err → Prop) : DiesWith (pure a : Isp α) P :=
  fun _ _ _ h => Res.noConfusion h

theorem dies_undefined {α : Type} (P : Err → Prop) :
    DiesWith (undefined_behaviour : Isp α) P :=
  fun _ _ _ h => Res.noConfusion h

theorem dies_die {α : Type} (e : Err) (P : Err → Prop) (h : P e) : DiesWith (die e : Isp α) P := by
  intro tr e1 tr1 h1
  have he : e = e1 := (Res.die.inj h1).1
  rw [← he]
  exact h

theorem Isp.bind_die_cases {α β : Type} {m : Isp α} {f : α → Isp β} {tr tr1 : List Xfer}
    {e : Err} (h : (m >>= f) tr = Res.die e tr1) :
    m tr = Res.die e tr1 ∨ ∃ a tr2, m tr = Res.ok a tr2 ∧ f a tr2 = Res.die e tr1 := by
  have h1 : Isp.bind m f tr = Res.die e tr1 := h
  unfold Isp.bind at h1
  cases hmt : m tr with
  | ok a tr2 =>
    rw [hmt] at h1
    exact Or.inr ⟨a, tr2, rfl, h1⟩
  | die e2 tr2 =>
    rw [hmt] at h1
    have h2 : (Res.die e2 tr2 : Res β) = Res.die e tr1 := h1
    obtain ⟨he, ht⟩ := Res.die.inj h2
    exact Or.inl (by rw [he, ht])
  | undef tr2 => rw [hmt] at h1; exact Res.noConfusion h1
  | nofuel tr2 => rw [hmt] at h1; exact Res.noConfusion h1

theorem dies_bind {α β : Type} {m : Isp α} {f : α → Isp β} {P : Err → Prop}
    (hm : DiesWith m P) (hf : ∀ a, DiesWith (f a) P) : DiesWith (m >>= f) P := by
  intro tr e tr1 h
  rcases Isp.bind_die_cases h with h1 | ⟨a, tr2, _, h2⟩
  · exact hm tr e tr1 h1
  · exact hf a tr2 e tr1 h2

theorem dies_read_local (written : List Nat) (i : Nat) (P : Err → Prop) :
    DiesWith (read_local written i) P := by
  unfold read_local
  cases written[i]? with
  | none => exact dies_undefined P
  | some b => exact fun _ _ _ h => Res.noConfusion h

theorem dies_isp_send_cmd (t : Transport) (cmd len : Nat) (data : List Nat) :
    DiesWith (isp_send_cmd t cmd len data)
      (fun e => (∀ a r0 r1, e ≠ Err.program_fail a r0 r1) ∧
        ∀ a r0 r1, e ≠ Err.verify_fail a r0 r1) := by
  intro tr e tr1 h
  unfold isp_send_cmd at h
  split_ifs at h
  · have he := (Res.die.inj h).1
    rw [← he]
    exact ⟨fun _ _ _ h1 => Err.noConfusion h1, fun _ _ _ h1 => Err.noConfusion h1⟩
  · simp only [Isp.bind_eq, Isp.bind, bulk_transfer_out] at h
    cases hb : t.bulk_out tr (send_buf cmd (len % 65536) data) with
    | none =>
      rw [hb] at h
      have he := (Res.die.inj h).1
      rw [← he]
      exact ⟨fun _ _ _ h1 => Err.noConfusion h1, fun _ _ _ h1 => Err.noConfusion h1⟩
    | some g =>
      rw [hb] at h
      exact Res.noConfusion h

theorem dies_isp_recv_cmd (t : Transport) (cmd len : Nat) :
    DiesWith (isp_recv_cmd t cmd len)
      (fun e => (∀ a r0 r1, e ≠ Err.program_fail a r0 r1) ∧
        ∀ a r0 r1, e ≠ Err.verify_fail a r0 r1) := by
  intro tr e tr1 h
  unfold isp_recv_cmd at h
  split_ifs at h
  · have he := (Res.die.inj h).1
    rw [← he]
    exact ⟨fun _ _ _ h1 => Err.noConfusion h1, fun _ _ _ h1 => Err.noConfusion h1⟩
  · simp only [Isp.bind_eq, Isp.bind, bulk_transfer_in] at h
    cases hb : t.bulk_in tr (len % 65536 + 4) with
    | none =>
      rw [hb] at h
      have he := (Res.die.inj h).1
      rw [← he]
      exact ⟨fun _ _ _ h1 => Err.noConfusion h1, fun _ _ _ h1 => Err.noConfusion h1⟩
    | some buf =>
      rw [hb] at h
      simp only at h
      split_ifs at h <;>
      first
        | exact Res.noConfusion h
        | (have he := (Res.die.inj h).1
           rw [← he]
           exact ⟨fun _ _ _ h1 => Err.noConfusion h1, fun _ _ _ h1 => Err.noConfusion h1⟩)

theorem dies_weaken {α : Type} {m : Isp α} {P Q : Err → Prop} (h : DiesWith m P)
    (hpq : ∀ e, P e → Q e) : DiesWith m Q :=
  fun tr e tr1 he => hpq e (h tr e tr1 he)

theorem dies_cmd_program (t : Transport) (addr len : Nat) (data key : List Nat) :
    DiesWith (cmd_program t addr len data key)
      (fun e => ∀ a r0 r1, e = Err.program_fail a r0 r1 →
        a = addr % 2 ^ 32 ∧ (r0 ≠ 0 ∨ r1 ≠ 0)) := by
  unfold cmd_program
  refine dies_bind (dies_weaken (dies_isp_send_cmd _ _ _ _)
    (fun e he a r0 r1 h => absurd h (he.1 a r0 r1))) (fun _ => ?_)
  refine dies_bind (dies_weaken (dies_isp_recv_cmd _ _ _)
    (fun e he a r0 r1 h => absurd h (he.1 a r0 r1))) (fun r => ?_)
  refine dies_bind (dies_read_local _ _ _) (fun r0 => ?_)
  refine dies_bind (dies_read_local _ _ _) (fun r1 => ?_)
  split_ifs with hst
  · refine dies_die _ _ ?_
    intro a s0 s1 h
    have h1 := Err.program_fail.inj h
    rw [← h1.1, ← h1.2.1, ← h1.2.2]
    exact ⟨rfl, hst⟩
  · exact dies_pure _ _

theorem dies_cmd_erase (t : Transport) (sectors : Nat) :
    DiesWith (cmd_erase t sectors) (fun e => ∀ a r0 r1, e ≠ Err.program_fail a r0 r1) := by
  unfold cmd_erase
  refine dies_bind (dies_weaken (dies_isp_send_cmd _ _ _ _) (fun e he => he.1)) (fun _ => ?_)
  refine dies_bind (dies_weaken (dies_isp_recv_cmd _ _ _) (fun e he => he.1)) (fun _ => ?_)
  exact dies_pure _ _

theorem dies_progress_bar (current total : Nat) (P : Err → Prop) :
    DiesWith (progress_bar current total) P := by
  unfold progress_bar
  split_ifs
  · exact dies_undefined P
  · exact dies_pure _ _

theorem chunk_frame_addr_mod (cmd addr len : Nat) (data key : List Nat) :
    frame_addr (chunk_frame cmd addr len data key) = addr % 2 ^ 32 := by
  rw [chunk_frame_eq]
  simp only [frame_addr, List.cons_append, List.getD_cons_succ, List.getD_cons_zero]
  omega

/-- One call of `cmd_program` when the frame went out and a well-formed reply
with the status bytes `r0`, `r1` came back. -/
theorem cmd_program_run (t : Transport) (addr len : Nat) (data key : List Nat)
    (tr : List Xfer) (g lo hi r0 r1 : Nat) (rest : List Nat)
    (hout : t.bulk_out tr (chunk_frame CMD_PROGRAM addr len data key) = some g)
    (hlo : lo < 256) (hhi : hi < 256) (hp : lo + 256 * hi = rest.length + 2)
    (hin : t.bulk_in (tr ++ [Xfer.out (chunk_frame CMD_PROGRAM addr len data key)]) 6 =
      some (CMD_PROGRAM :: 0 :: lo :: hi :: r0 :: r1 :: rest)) :
    cmd_program t addr len data key tr =
      if r0 ≠ 0 ∨ r1 ≠ 0 then
        Res.die (Err.program_fail (addr % 2 ^ 32) r0 r1)
          (tr ++ [Xfer.out (chunk_frame CMD_PROGRAM addr len data key),
            Xfer.inp 6 (some (CMD_PROGRAM :: 0 :: lo :: hi :: r0 :: r1 :: rest))])
      else
        Res.ok (min 56 len)
          (tr ++ [Xfer.out (chunk_frame CMD_PROGRAM addr len data key),
            Xfer.inp 6 (some (CMD_PROGRAM :: 0 :: lo :: hi :: r0 :: r1 :: rest))]) := by
  have hs : isp_send_cmd t CMD_PROGRAM (min 56 len + 5)
      (chunk_unk (addr % 2 ^ 32) (min 56 len) data key) tr =
      Res.ok g (tr ++ [Xfer.out (chunk_frame CMD_PROGRAM addr len data key)]) := by
    rw [isp_send_cmd_run t CMD_PROGRAM _ _ tr (by omega)]
    unfold chunk_frame at hout
    rw [hout]
    rfl
  have hr : isp_recv_cmd t CMD_PROGRAM 2
      (tr ++ [Xfer.out (chunk_frame CMD_PROGRAM addr len data key)]) =
      Res.ok (rest.length + 2, [r0, r1])
        (tr ++ [Xfer.out (chunk_frame CMD_PROGRAM addr len data key),
          Xfer.inp 6 (some (CMD_PROGRAM :: 0 :: lo :: hi :: r0 :: r1 :: rest))]) := by
    rw [isp_recv_cmd_ok t CMD_PROGRAM 2 _ lo hi (r0 :: r1 :: rest) (by decide) hlo hhi
      (by simpa using hp) hin]
    simp
  unfold cmd_program
  rw [Isp.bind_ok hs, Isp.bind_ok hr]
  simp only [read_local, List.getElem?_cons_zero, List.getElem?_cons_succ, Isp.bind_eq,
    Isp.bind, Isp.pure]
  split_ifs <;> rfl

/-- When the loop of `isp_flash` dies with a program error, the last frame handed
over is the program frame whose address field is the reported address. -/
theorem isp_flash_loop_program_fail (t : Transport) (key data : List Nat) (size : Nat)
    (a r0 r1 : Nat) (tr1 : List Xfer) :
    ∀ (fuel off rem : Nat) (tr : List Xfer),
      isp_flash_loop t key data size fuel off rem tr = Res.die (Err.program_fail a r0 r1) tr1 →
      (r0 ≠ 0 ∨ r1 ≠ 0) ∧
      ∃ l f, sent tr1 = sent tr ++ l ++ [f] ∧ f.head? = some CMD_PROGRAM ∧ frame_addr f = a := by
  intro fuel
  induction fuel with
  | zero =>
    intro off rem tr h
    unfold isp_flash_loop at h
    split_ifs at h <;> exact Res.noConfusion h
  | succ fuel ih =>
    intro off rem tr h
    unfold isp_flash_loop at h
    split_ifs at h with hlt
    · rw [Isp.bind_ok (progress_bar_pos off size tr (by omega))] at h
      have hsend := (cmd_program_sends t off rem (data.drop off) key).1 tr
      rcases Isp.bind_die_cases h with hd | ⟨v, tr2, hok, hrest⟩
      · obtain ⟨ha, hst⟩ := dies_cmd_program t off rem (data.drop off) key tr _ tr1 hd
          a r0 r1 rfl
        rw [hd] at hsend
        refine ⟨hst, [], chunk_frame CMD_PROGRAM off rem (data.drop off) key, ?_,
          chunk_frame_head _ _ _ _ _, ?_⟩
        · rw [List.append_nil]
          exact hsend
        · rw [chunk_frame_addr_mod, ha]
      · obtain ⟨hst, l, f, hl, hh, hf⟩ := ih _ _ tr2 hrest
        rw [hok] at hsend
        have hs2 : sent tr2 = sent tr ++ [chunk_frame CMD_PROGRAM off rem (data.drop off) key] :=
          hsend
        refine ⟨hst, chunk_frame CMD_PROGRAM off rem (data.drop off) key :: l, f, ?_, hh, hf⟩
        rw [hl, hs2]
        simp
    · exact Res.noConfusion h

/-- When `isp_flash` dies with a program error, the last frame handed over is the
program frame whose address field is the reported address. -/
theorem isp_flash_program_fail (t : Transport) (fuel : Nat) (dev : isp_dev) (N : Nat)
    (data : List Nat) (tr tr1 : List Xfer) (a r0 r1 : Nat)
    (h : isp_flash t fuel dev N data tr = Res.die (Err.program_fail a r0 r1) tr1) :
    (r0 ≠ 0 ∨ r1 ≠ 0) ∧
    ∃ l f, sent tr1 = sent tr ++ l ++ [f] ∧ f.head? = some CMD_PROGRAM ∧ frame_addr f = a := by
  by_cases hs : dev.flash_sector_size = 0
  · unfold isp_flash at h
    simp only [db_flash_sector_size, if_pos hs] at h
    exact Res.noConfusion h
  · have hunf : isp_flash t fuel dev N data tr =
        (cmd_erase t (nr_sectors N dev.flash_sector_size) >>= fun _ =>
          isp_flash_loop t dev.xor_key data N fuel 0 N >>= fun r =>
            cmd_program t r.1 0 [] dev.xor_key >>= fun _ => progress_bar N N) tr := by
      unfold isp_flash
      simp only [db_flash_sector_size, if_neg hs]
    rw [hunf] at h
    have he := cmd_erase_sends t (nr_sectors N dev.flash_sector_size) tr
    rcases Isp.bind_die_cases h with hd | ⟨u, tr2, hok, hrest⟩
    · exact absurd rfl (dies_cmd_erase t _ tr _ tr1 hd a r0 r1)
    · rw [hok] at he
      have he2 : sent tr2 = sent tr ++
          [send_buf CMD_ERASE 4 (erase_sec (nr_sectors N dev.flash_sector_size % 2 ^ 32))] := he
      rcases Isp.bind_die_cases hrest with hd | ⟨r, tr3, hok3, hrest3⟩
      · obtain ⟨hst, l, f, hl, hh, hf⟩ :=
          isp_flash_loop_program_fail t dev.xor_key data N a r0 r1 tr1 fuel 0 N tr2 hd
        refine ⟨hst,
          send_buf CMD_ERASE 4 (erase_sec (nr_sectors N dev.flash_sector_size % 2 ^ 32)) :: l,
          f, ?_, hh, hf⟩
        rw [hl, he2]
        simp
      · obtain ⟨l3, rest3, _, hs3, _⟩ := isp_flash_loop_sent t dev.xor_key data N fuel 0 tr2
          (Nat.zero_le N)
        rw [Nat.sub_zero, hok3] at hs3
        have hs4 : sent tr3 = sent tr2 ++ l3 := hs3
        rcases Isp.bind_die_cases hrest3 with hd | ⟨v, tr4, _, hrest4⟩
        · obtain ⟨ha, hst⟩ := dies_cmd_program t r.1 0 [] dev.xor_key tr3 _ tr1 hd a r0 r1 rfl
          have hsend := (cmd_program_sends t r.1 0 [] dev.xor_key).1 tr3
          rw [hd] at hsend
          have hs5 : sent tr1 = sent tr3 ++ [chunk_frame CMD_PROGRAM r.1 0 [] dev.xor_key] :=
            hsend
          refine ⟨hst,
            send_buf CMD_ERASE 4 (erase_sec (nr_sectors N dev.flash_sector_size % 2 ^ 32)) :: l3,
            chunk_frame CMD_PROGRAM r.1 0 [] dev.xor_key, ?_, chunk_frame_head _ _ _ _ _, ?_⟩
          · rw [hs5, hs4, he2]
            simp
          · rw [chunk_frame_addr_mod, ha]
        · exact (dies_progress_bar N N (fun _ => False) tr4 _ tr1 hrest4).elim

/-- C11: when a program frame went out and a well-formed reply with the status
bytes `r0`, `r1` came back, `cmd_program` returns (the chunk length `MIN(56,
len)`) if and only if both are zero, and otherwise dies reporting the address
and the two bytes.  A call that dies inside the loop of `isp_flash` ends the
loop with the same report.  Whenever `isp_flash` dies with a program error, one
of the two reported bytes is nonzero and the last frame handed over is the
program frame whose address field is the reported address: no later chunk and
no closing frame was sent. -/
theorem cmd_program_status_check (t : Transport) (key data : List Nat) :
    (∀ (addr len : Nat) (chunk : List Nat) (tr : List Xfer) (g lo hi r0 r1 : Nat)
        (rest : List Nat),
      t.bulk_out tr (chunk_frame CMD_PROGRAM addr len chunk key) = some g →
      lo < 256 → hi < 256 → lo + 256 * hi = rest.length + 2 →
      t.bulk_in (tr ++ [Xfer.out (chunk_frame CMD_PROGRAM addr len chunk key)]) 6 =
        some (CMD_PROGRAM :: 0 :: lo :: hi :: r0 :: r1 :: rest) →
      ((∃ v tr1, cmd_program t addr len chunk key tr = Res.ok v tr1) ↔ (r0 = 0 ∧ r1 = 0)) ∧
      (r0 = 0 ∧ r1 = 0 →
        cmd_program t addr len chunk key tr =
          Res.ok (min 56 len)
            (tr ++ [Xfer.out (chunk_frame CMD_PROGRAM addr len chunk key),
              Xfer.inp 6 (some (CMD_PROGRAM :: 0 :: lo :: hi :: r0 :: r1 :: rest))])) ∧
      (r0 ≠ 0 ∨ r1 ≠ 0 →
        cmd_program t addr len chunk key tr =
          Res.die (Err.program_fail (addr % 2 ^ 32) r0 r1)
            (tr ++ [Xfer.out (chunk_frame CMD_PROGRAM addr len chunk key),
              Xfer.inp 6 (some (CMD_PROGRAM :: 0 :: lo :: hi :: r0 :: r1 :: rest))]))) ∧
    (∀ (size fuel off rem : Nat) (tr tr1 : List Xfer) (e : Err), off < size →
      cmd_program t off rem (data.drop off) key tr = Res.die e tr1 →
      isp_flash_loop t key data size (fuel + 1) off rem tr = Res.die e tr1) ∧
    (∀ (fuel : Nat) (dev : isp_dev) (N : Nat) (tr tr1 : List Xfer) (a r0 r1 : Nat),
      isp_flash t fuel dev N data tr = Res.die (Err.program_fail a r0 r1) tr1 →
      (r0 ≠ 0 ∨ r1 ≠ 0) ∧
      ∃ l f, sent tr1 = sent tr ++ l ++ [f] ∧ f.head? = some CMD_PROGRAM ∧
        frame_addr f = a) := by
  refine ⟨?_, ?_, ?_⟩
  · intro addr len chunk tr g lo hi r0 r1 rest hout hlo hhi hp hin
    have hrun := cmd_program_run t addr len chunk key tr g lo hi r0 r1 rest hout hlo hhi hp hin
    by_cases hst : r0 ≠ 0 ∨ r1 ≠ 0
    · rw [if_pos hst] at hrun
      refine ⟨⟨?_, ?_⟩, ?_, fun _ => hrun⟩
      · rintro ⟨v, tr1, hv⟩
        rw [hrun] at hv
        exact Res.noConfusion hv
      · intro h0
        rcases hst with h | h
        · exact absurd h0.1 h
        · exact absurd h0.2 h
      · intro h0
        rcases hst with h | h
        · exact absurd h0.1 h
        · exact absurd h0.2 h
    · rw [if_neg hst] at hrun
      have h0 : r0 = 0 ∧ r1 = 0 := by
        constructor
        · by_contra h
          exact hst (Or.inl h)
        · by_contra h
          exact hst (Or.inr h)
      exact ⟨⟨fun _ => h0, fun _ => ⟨_, _, hrun⟩⟩, fun _ => hrun, fun h => absurd h hst⟩
  · intro size fuel off rem tr tr1 e hlt hd
    rw [isp_flash_loop, if_pos hlt, Isp.bind_ok (progress_bar_pos off size tr (by omega))]
    exact Isp.bind_die hd
  · intro fuel dev N tr tr1 a r0 r1 h
    exact isp_flash_program_fail t fuel dev N data tr tr1 a r0 r1 h

theorem isp_flash_fail_at_56 :
    isp_flash fail_at_56_device 3 scenario_dev 130 scenario_image [] =
      Res.die (Err.program_fail 56 1 0) failed_flash_trace := by
  decide

/-- Witness for C11: the chunk at offset 56 of a 130-byte image is answered with
the status bytes `01 00`: `isp_flash` dies reporting the address 56, after the
erase frame and the chunks at 0 and 56. -/
theorem cmd_program_status_check_witness :
    isp_flash fail_at_56_device 3 scenario_dev 130 scenario_image [] =
      Res.die (Err.program_fail 56 1 0) failed_flash_trace ∧
    sent failed_flash_trace =
      [send_buf CMD_ERASE 4 (erase_sec 1),
       chunk_frame CMD_PROGRAM 0 130 scenario_image scenario_dev.xor_key,
       chunk_frame CMD_PROGRAM 56 74 (scenario_image.drop 56) scenario_dev.xor_key] ∧
    ∃ l f, sent failed_flash_trace = sent [] ++ l ++ [f] ∧ f.head? = some CMD_PROGRAM ∧
      frame_addr f = 56 :=
  ⟨isp_flash_fail_at_56, rfl,
   ((cmd_program_status_check fail_at_56_device scenario_dev.xor_key scenario_image).2.2
      3 scenario_dev 130 [] failed_flash_trace 56 1 0 isp_flash_fail_at_56).2⟩

/-! ## Device database lookup, sector size -/

/-- The scan of lines 463-468 never answers with an element for the id 0: the
element with `id == 0` ends the scan. -/
theorem find_db_dev_zero (devs : List db_dev) : find_db_dev 0 devs = none := by
  induction devs with
  | nil => rfl
  | cons e es ih =>
    unfold find_db_dev
    by_cases h0 : e.id = 0
    · rw [if_pos h0]
    · rw [if_neg h0, if_neg h0]
      exact ih

/-- In a table whose rows have pairwise different types, the scan of lines
456-461 for the type of a row finds that row. -/
theorem find_db_of_nodup (devices : List db) (d : db)
    (hn : (devices.map db.type).Nodup) (hd : d ∈ devices) :
    find_db d.type devices = some d := by
  induction devices with
  | nil => exact absurd hd (List.not_mem_nil d)
  | cons x xs ih =>
    rw [List.map_cons, List.nodup_cons] at hn
    unfold find_db
    rcases List.mem_cons.mp hd with hx | hx
    · rw [hx, if_pos rfl]
    · have hne : x.type ≠ d.type := fun h => hn.1 (h ▸ List.mem_map_of_mem db.type hx)
      rw [if_neg hne]
      exact ih hn.2 hx

/-- The result of `isp_init_from_db` when the type scan finds the row `d` and the
id scan of its device array finds nothing. -/
theorem isp_init_from_db_no_dev (devices : List db) (dev : isp_dev) (d : db)
    (hdb : find_db dev.type devices = some d) (hdd : find_db_dev dev.id d.devs = none) :
    isp_init_from_db devices dev =
      { dev with flash_sector_size := d.flash_sector_size, name := "unknown",
                 flash_size := 0xffff, eeprom_size := 0 } := by
  unfold isp_init_from_db
  simp only [hdb, hdd]

/-- The id scan finds nothing for the id 0 and for an id that no element before
the terminating one has. -/
theorem find_db_dev_no_match (id : Nat) (devs : List db_dev)
    (h : id = 0 ∨ ∀ e ∈ devs.takeWhile (fun e => e.id != 0), e.id ≠ id) :
    find_db_dev id devs = none := by
  rcases h with h | h
  · rw [h]
    exact find_db_dev_zero devs
  · exact find_db_dev_none id devs h

/-- The sector size that `isp_init_from_db` leaves is that of the row the type
scan finds, 1024 when it finds none. -/
theorem isp_init_from_db_sector_size (devices : List db) (dev : isp_dev) :
    (isp_init_from_db devices dev).flash_sector_size =
      match find_db dev.type devices with
      | some d => d.flash_sector_size
      | none => SECTOR_SIZE := by
  unfold isp_init_from_db
  dsimp only
  cases hdb : find_db dev.type devices with
  | none => rfl
  | some d =>
    dsimp only
    cases hdd : find_db_dev dev.id d.devs with
    | none => rfl
    | some dd => rfl

/-- C21: for every row `d` of the device table that the type scan resolves for
its type (it is the first row of that type; in a table whose rows have pairwise
different types, that is every row) and every session of that type whose id is
0 or is the id of no element of the row's device array before the terminating
one, `isp_init_from_db` sets the sector size to that of the row and leaves the
name "unknown", the flash size `0xFFFF` and the eeprom size 0.  The id 0 is
found in no device array.  For every table, the sector size that
`isp_init_from_db` leaves is a function of the device type alone. -/
theorem isp_init_from_db_sector_size_by_type (devices : List db) :
    (∀ (pre post : List db) (d : db) (dev : isp_dev), devices = pre ++ d :: post →
      (∀ p ∈ pre, p.type ≠ d.type) → dev.type = d.type →
      (dev.id = 0 ∨ ∀ e ∈ d.devs.takeWhile (fun e => e.id != 0), e.id ≠ dev.id) →
      isp_init_from_db devices dev =
        { dev with flash_sector_size := d.flash_sector_size, name := "unknown",
                   flash_size := 0xffff, eeprom_size := 0 }) ∧
    ((devices.map db.type).Nodup → ∀ d ∈ devices, ∀ dev : isp_dev, dev.type = d.type →
      (dev.id = 0 ∨ ∀ e ∈ d.devs.takeWhile (fun e => e.id != 0), e.id ≠ dev.id) →
      isp_init_from_db devices dev =
        { dev with flash_sector_size := d.flash_sector_size, name := "unknown",
                   flash_size := 0xffff, eeprom_size := 0 }) ∧
    (∀ devs : List db_dev, find_db_dev 0 devs = none) ∧
    (∀ dev : isp_dev, (isp_init_from_db devices dev).flash_sector_size =
      match find_db dev.type devices with
      | some d => d.flash_sector_size
      | none => SECTOR_SIZE) ∧
    (∀ dev1 dev2 : isp_dev, dev1.type = dev2.type →
      (isp_init_from_db devices dev1).flash_sector_size =
        (isp_init_from_db devices dev2).flash_sector_size) := by
  refine ⟨?_, ?_, find_db_dev_zero, isp_init_from_db_sector_size devices, ?_⟩
  · intro pre post d dev hdev hpre hty hid
    have hdb : find_db dev.type devices = some d := by
      rw [hdev, hty]
      exact find_db_first d.type pre post d hpre rfl
    exact isp_init_from_db_no_dev devices dev d hdb (find_db_dev_no_match dev.id d.devs hid)
  · intro hn d hd dev hty hid
    have hdb : find_db dev.type devices = some d := by
      rw [hty]
      exact find_db_of_nodup devices d hn hd
    exact isp_init_from_db_no_dev devices dev d hdb (find_db_dev_no_match dev.id d.devs hid)
  · intro dev1 dev2 hty
    rw [isp_init_from_db_sector_size devices dev1, isp_init_from_db_sector_size devices dev2, hty]

/-- Witness for C21: in the table with the rows of type `0x10` and `0x11`, a
session of type `0x11` with the id `0x69`, which only the row of type `0x10`
lists, gets the 256-byte sectors of the row of type `0x11` and the three
per-device defaults; so does a session of type `0x11` with the id 0. -/
theorem isp_init_from_db_sector_size_by_type_witness :
    (two_type_devices = [sample_row] ++ type_11_row :: [] ∧
      (∀ p ∈ [sample_row], p.type ≠ type_11_row.type) ∧
      ({ scenario_dev with type := 0x11 } : isp_dev).type = type_11_row.type ∧
      (∀ e ∈ type_11_row.devs.takeWhile (fun e => e.id != 0),
        e.id ≠ ({ scenario_dev with type := 0x11 } : isp_dev).id)) ∧
    isp_init_from_db two_type_devices { scenario_dev with type := 0x11 } =
      { scenario_dev with type := 0x11, flash_sector_size := 256, name := "unknown",
                          flash_size := 0xffff, eeprom_size := 0 } ∧
    ((two_type_devices.map db.type).Nodup ∧ type_11_row ∈ two_type_devices ∧
      ({ zeroed_dev with type := 0x11 } : isp_dev).type = type_11_row.type ∧
      ({ zeroed_dev with type := 0x11 } : isp_dev).id = 0) ∧
    isp_init_from_db two_type_devices { zeroed_dev with type := 0x11 } =
      { zeroed_dev with type := 0x11, flash_sector_size := 256, name := "unknown",
                        flash_size := 0xffff, eeprom_size := 0 } ∧
    (isp_init_from_db two_type_devices { scenario_dev with type := 0x11 }).flash_sector_size =
      (isp_init_from_db two_type_devices { zeroed_dev with type := 0x11 }).flash_sector_size :=
  ⟨⟨by decide, by decide, by decide, by decide⟩,
   (isp_init_from_db_sector_size_by_type two_type_devices).1 [sample_row] []
      type_11_row { scenario_dev with type := 0x11 } (by decide) (by decide)
      (by decide) (Or.inr (by decide)),
   ⟨by decide, by decide, by decide, by decide⟩,
   (isp_init_from_db_sector_size_by_type two_type_devices).2.1 (by decide)
      type_11_row (by decide) { zeroed_dev with type := 0x11 } (by decide)
      (Or.inl (by decide)),
   (isp_init_from_db_sector_size_by_type two_type_devices).2.2.2.2
      { scenario_dev with type := 0x11 } { zeroed_dev with type := 0x11 } (by decide)⟩

end WchIsp
